import Mathlib

/-!
# Visa portal front end: session resolver, auth guard and application wizard

A shallow embedding of the React components of `frontend/src`:

* `components/ProtectedRoute.js` (the auth guard),
* `components/AuthCallback.js` and the dispatch and route table in `App.js` (the session
  resolver and the routes),
* `pages/ApplyVisa.js` (the multi-step application builder),
* `pages/AdminReview.js`, `pages/AdminDashboard.js` (the administrator's views),
* `pages/TrackApplication.js`, `pages/ApplicationDetails.js` (the applicant's views).

A component is embedded as its state record, the state its `useState` calls start from,
its render function, and its handlers.  A handler is a function from the state captured by
the render it was created in (and, for an `async` handler, from the outcome of the request
it awaits) to the list of effects it performs, in program order: requests issued, state
setters called, notifications, navigations.  State setters are applied one at a time, so
every intermediate state a re-render could observe is part of a trace.

A render function that reads into the application record returns an `Option`: `none` when
an expression of the render throws, as a member access on a missing `personal_info` does.
The statements about what such a view displays are made for complete application records
(`JSVal.isApplicationRecord`), on which no expression of the render throws.
-/

set_option autoImplicit false

/-! ## JavaScript values -/

/-- A JavaScript value as far as the components look at one: the primitives, arrays and
plain objects (what `JSON.parse` produces, plus `undefined`).  A number is kept as an
integer: the code only tests numbers for truthiness, where every non-zero number behaves
alike. -/
inductive JSVal where
  | undefined
  | null
  | bool (b : Bool)
  | num (n : Int)
  | str (s : String)
  | arr (items : List JSVal)
  | obj (fields : List (String × JSVal))

namespace JSVal

/-- JavaScript truthiness (`ToBoolean`): `undefined`, `null`, `false`, `0` and `''` are
falsy, everything else, every object included, is truthy. -/
def truthy : JSVal → Bool
  | undefined => false
  | null => false
  | bool b => b
  | num n => n != 0
  | str s => s != ""
  | arr _ => true
  | obj _ => true

/-- Optional member access `v?.key` for a data property `key`: `undefined` on `null` and
`undefined`, the stored value on an object that has the key, `undefined` otherwise (the keys
read by the components, such as `user`, `role`, `status` or `personal_info`, are not
properties of strings, numbers, booleans or arrays). -/
def optGet (v : JSVal) (key : String) : JSVal :=
  match v with
  | obj fields => (fields.lookup key).getD undefined
  | _ => undefined

/-- Strict inequality `v !== s` against a string literal: true unless `v` is that very
string. -/
def strictNeStr (v : JSVal) (s : String) : Bool :=
  match v with
  | str t => t != s
  | _ => true

end JSVal

/-- Outcome of `await fetch(...)` followed, where the code asks for it, by
`await response.json()`: the promise rejects (a network error, with the message of the
thrown error), or it resolves to a response with its `ok` flag and the result of parsing its
body (`Except.error` carries the message of the error `response.json()` rejects with). -/
inductive FetchResult where
  | rejected (message : String)
  | response (ok : Bool) (json : Except String JSVal)

/-! ## `components/ProtectedRoute.js` -/

namespace ProtectedRoute

/-- The three `useState` cells of the guard.  `isAuthenticated` is `null`, `true` or
`false`: `none`, `some true`, `some false`. -/
structure State where
  isAuthenticated : Option Bool
  user : JSVal
  loading : Bool

/-- What one render of the guard returns. -/
inductive View where
  | loading
  | navigate (path : String) (replace : Bool)
  | children
  deriving DecidableEq

/-- An effect of the guard: the who-am-I request, a state setter, or the console log. -/
inductive Effect where
  | fetchMe
  | setUser (userData : JSVal)
  | setIsAuthenticated (b : Bool)
  | setLoading (b : Bool)
  | consoleError

/-- The expression `location.state?.user`: the identity handed over by the navigation, if
any. -/
def forwardedUser (locationState : JSVal) : JSVal :=
  locationState.optGet "user"

/-- The initial values of the `useState` calls (lines 9-11). -/
def initialState (locationState : JSVal) : State :=
  { isAuthenticated := if (forwardedUser locationState).truthy then some true else none
    user := if (forwardedUser locationState).truthy then forwardedUser locationState
            else JSVal.null
    loading := !(forwardedUser locationState).truthy }

/-- The mount effect (lines 13-36) up to the point where `checkAuth` suspends on
`await fetch`: nothing when an identity was forwarded, otherwise the request. -/
def mountEffect (locationState : JSVal) : List Effect :=
  if (forwardedUser locationState).truthy then [] else [Effect.fetchMe]

/-- The `try` body of `checkAuth` (lines 18-26) from the outcome of the request on: it
throws when the request was rejected, when the response is not ok (line 22) and when
`response.json()` rejects; otherwise it reaches the two setters with the parsed body. -/
def checkAuthTry (r : FetchResult) : Except String JSVal :=
  match r with
  | FetchResult.rejected message => Except.error message
  | FetchResult.response false _ => Except.error "Not authenticated"
  | FetchResult.response true (Except.error message) => Except.error message
  | FetchResult.response true (Except.ok userData) => Except.ok userData

/-- The effects of `checkAuth` (lines 16-33) after the request was issued: the setters of
the `try` body or those of the `catch` block, then the `finally` block. -/
def checkAuth (r : FetchResult) : List Effect :=
  (match checkAuthTry r with
   | Except.ok userData => [Effect.setUser userData, Effect.setIsAuthenticated true]
   | Except.error _ => [Effect.consoleError, Effect.setIsAuthenticated false])
  ++ [Effect.setLoading false]

/-- A state setter replaces its cell; the other effects leave the state alone. -/
def applyEffect (s : State) : Effect → State
  | Effect.setUser userData => { s with user := userData }
  | Effect.setIsAuthenticated b => { s with isAuthenticated := some b }
  | Effect.setLoading b => { s with loading := b }
  | Effect.fetchMe => s
  | Effect.consoleError => s

/-- The states passed through while the effects are performed in order, the starting state
first and the final state last. -/
def trace (s : State) : List Effect → List State
  | [] => [s]
  | e :: es => s :: trace (applyEffect s e) es

/-- The render function (lines 38-57). -/
def render (adminOnly : Bool) (s : State) : View :=
  if s.loading then View.loading
  else if !(s.isAuthenticated == some true) then View.navigate "/login" true
  else if adminOnly && (s.user.optGet "role").strictNeStr "admin" then
    View.navigate "/dashboard" true
  else View.children

/-- Every state of one mount, from the initial state to the state after the who-am-I check
(if one was issued) has been handled. -/
def mountStates (locationState : JSVal) (r : FetchResult) : List State :=
  match mountEffect locationState with
  | [] => [initialState locationState]
  | _ :: _ => trace (initialState locationState) (checkAuth r)

/-- The who-am-I check failed: the request was rejected, or the response is not ok, or its
body does not parse. -/
def checkFailed : FetchResult → Bool
  | FetchResult.rejected _ => true
  | FetchResult.response false _ => true
  | FetchResult.response true (Except.error _) => true
  | FetchResult.response true (Except.ok _) => false

end ProtectedRoute

/-! ## An `async` function with one suspension point -/

/-- An `async` handler that awaits at most one request: the effects it performs
synchronously, up to and including the request it then awaits, and, when it does await one,
the effects it performs once the request has an outcome.  `resume = none` means the handler
runs to its end without awaiting. -/
structure Async (ε : Type) where
  sync : List ε
  resume : Option (FetchResult → List ε)

/-- All effects of a handler, in program order, when the request it awaits (if any) has
outcome `r`. -/
def Async.effects {ε : Type} (a : Async ε) (r : FetchResult) : List ε :=
  a.sync ++ match a.resume with
            | some k => k r
            | none => []

/-! ## `URLSearchParams`

The platform class used by `AuthCallback.js`, after the URL Standard: the string is UTF-8
encoded, split on `&`, each non-empty piece is cut at its first `=` into a name and a value,
in both `+` becomes a space, percent escapes are decoded, and the bytes are UTF-8 decoded,
each malformed sequence giving U+FFFD.  Bytes are natural numbers below 256. -/

namespace URLSearchParams

/-- UTF-8 encoding of one scalar value. -/
def utf8EncodeChar (c : Char) : List Nat :=
  if c.toNat < 0x80 then [c.toNat]
  else if c.toNat < 0x800 then [0xC0 + c.toNat / 64, 0x80 + c.toNat % 64]
  else if c.toNat < 0x10000 then
    [0xE0 + c.toNat / 4096, 0x80 + c.toNat / 64 % 64, 0x80 + c.toNat % 64]
  else
    [0xF0 + c.toNat / 262144, 0x80 + c.toNat / 4096 % 64, 0x80 + c.toNat / 64 % 64,
      0x80 + c.toNat % 64]

/-- UTF-8 encoding of a string. -/
def utf8Encode : List Char → List Nat
  | [] => []
  | c :: cs => utf8EncodeChar c ++ utf8Encode cs

/-- The UTF-8 decoder in the middle of a sequence: the code point read so far, the number
of continuation bytes still needed, and the range the next byte has to lie in. -/
structure Pending where
  codePoint : Nat
  bytesNeeded : Nat
  lower : Nat
  upper : Nat

/-- What the UTF-8 decoder does with a byte read when no sequence is pending. -/
inductive Lead where
  | emit (c : Char)
  | pending (p : Pending)
  | error

/-- The UTF-8 decoder on a byte read when no sequence is pending: an ASCII byte is
emitted, a lead byte opens a sequence of one, two or three continuation bytes, any other
byte is an error. -/
def lead (b : Nat) : Lead :=
  if b ≤ 0x7F then Lead.emit (Char.ofNat b)
  else if 0xC2 ≤ b ∧ b ≤ 0xDF then Lead.pending ⟨b % 32, 1, 0x80, 0xBF⟩
  else if 0xE0 ≤ b ∧ b ≤ 0xEF then
    Lead.pending ⟨b % 16, 2, if b = 0xE0 then 0xA0 else 0x80, if b = 0xED then 0x9F else 0xBF⟩
  else if 0xF0 ≤ b ∧ b ≤ 0xF4 then
    Lead.pending ⟨b % 8, 3, if b = 0xF0 then 0x90 else 0x80, if b = 0xF4 then 0x8F else 0xBF⟩
  else Lead.error

/-- The replacement character U+FFFD. -/
def replacement : Char := Char.ofNat 0xFFFD

/-- The decoding "UTF-8 decode without BOM": a byte outside the expected range ends the
pending sequence with U+FFFD and is then read again as the first byte of a sequence; input
ending inside a sequence gives a last U+FFFD. -/
def utf8Decode : Option Pending → List Nat → List Char
  | none, [] => []
  | some _, [] => [replacement]
  | none, b :: bs =>
    match lead b with
    | Lead.emit c => c :: utf8Decode none bs
    | Lead.pending p => utf8Decode (some p) bs
    | Lead.error => replacement :: utf8Decode none bs
  | some p, b :: bs =>
    if p.lower ≤ b ∧ b ≤ p.upper then
      if p.bytesNeeded = 1 then Char.ofNat (p.codePoint * 64 + b % 64) :: utf8Decode none bs
      else utf8Decode (some ⟨p.codePoint * 64 + b % 64, p.bytesNeeded - 1, 0x80, 0xBF⟩) bs
    else
      replacement ::
        match lead b with
        | Lead.emit c => c :: utf8Decode none bs
        | Lead.pending q => utf8Decode (some q) bs
        | Lead.error => replacement :: utf8Decode none bs

/-- The value of an ASCII hex digit. -/
def hexVal (b : Nat) : Option Nat :=
  if 0x30 ≤ b ∧ b ≤ 0x39 then some (b - 0x30)
  else if 0x41 ≤ b ∧ b ≤ 0x46 then some (b - 0x37)
  else if 0x61 ≤ b ∧ b ≤ 0x66 then some (b - 0x57)
  else none

/-- Percent-decoding of a byte sequence: `%` followed by two hex digits is the byte they
denote, every other byte stands for itself. -/
def percentDecode : List Nat → List Nat
  | [] => []
  | b :: h :: l :: rest =>
    if b = 0x25 then
      match hexVal h, hexVal l with
      | some x, some y => (16 * x + y) :: percentDecode rest
      | _, _ => b :: percentDecode (h :: l :: rest)
    else b :: percentDecode (h :: l :: rest)
  | b :: rest => b :: percentDecode rest

/-- The pieces of a byte sequence between occurrences of `sep` (strict split). -/
def splitOn (sep : Nat) : List Nat → List (List Nat)
  | [] => [[]]
  | b :: bs =>
    if b = sep then [] :: splitOn sep bs
    else
      match splitOn sep bs with
      | [] => [[b]]
      | piece :: pieces => (b :: piece) :: pieces

/-- A name or a value: `+` (0x2B) replaced by a space (0x20), percent-decoded, UTF-8
decoded. -/
def decodeComponent (bytes : List Nat) : String :=
  String.mk (utf8Decode none (percentDecode (bytes.map fun b => if b = 0x2B then 0x20 else b)))

/-- One piece: the name is what precedes the first `=` (0x3D), the value what follows it;
without `=` the name is the whole piece and the value is empty. -/
def parsePair (bytes : List Nat) : String × String :=
  (decodeComponent (bytes.takeWhile (· ≠ 0x3D)),
   decodeComponent ((bytes.dropWhile (· ≠ 0x3D)).drop 1))

/-- The `application/x-www-form-urlencoded` parser: split on `&` (0x26), skip empty
pieces. -/
def parse (input : List Nat) : List (String × String) :=
  ((splitOn 0x26 input).filter (· ≠ [])).map parsePair

/-- The constructor removes one leading `?` from a string argument. -/
def stripQuestionMark : List Char → List Char
  | [] => []
  | c :: cs => if c = '?' then cs else c :: cs

/-- The list of name-value pairs of `new URLSearchParams(init)` for a string `init`. -/
def new (init : String) : List (String × String) :=
  parse (utf8Encode (stripQuestionMark init.toList))

/-- The value of the first pair with the given name, `none` (JavaScript `null`) when there
is none. -/
def get (params : List (String × String)) (name : String) : Option String :=
  params.lookup name

end URLSearchParams

/-- The characters of `s.substring(1)`: the string without its first character.  (Used on
`location.hash`, which is empty or starts with `#`.) -/
def substring1 (s : String) : String :=
  String.mk (s.toList.drop 1)

/-- The test behind `hay.includes(needle)` on lists of characters. -/
def includesChars : List Char → List Char → Bool
  | [], needle => needle.isEmpty
  | c :: cs, needle => needle.isPrefixOf (c :: cs) || includesChars cs needle

/-- The string method `hay.includes(needle)`. -/
def includes (hay needle : String) : Bool :=
  includesChars hay.toList needle.toList

/-! ## `App.js`: the dispatch of `AppRouter` -/

namespace AppRouter

/-- What `AppRouter` renders: the session resolver, or the route table. -/
inductive View where
  | authCallback
  | routes
  deriving DecidableEq

/-- The dispatch on the URL fragment (lines 17-22). -/
def render (hash : String) : View :=
  if includes hash "session_id=" then View.authCallback else View.routes

end AppRouter

/-! ## `components/AuthCallback.js` -/

namespace AuthCallback

/-- The ref `hasProcessed` and the `useState` cell `error` (`none` is `null`). -/
structure State where
  hasProcessed : Bool
  error : Option String

/-- The state of a freshly mounted instance (lines 9-10). -/
def initialState : State :=
  { hasProcessed := false, error := none }

/-- An effect of the resolver.  `postSession sessionId` is the request
`POST /api/auth/session` whose JSON body has the one field `session_id` with that value;
`navigate path user replace` is the call of `navigate` that passes `user` on in the
location state; `setTimeoutNavigate ms path replace` is the `setTimeout` call whose callback
navigates. -/
inductive Effect where
  | postSession (sessionId : String)
  | navigate (path : String) (user : JSVal) (replace : Bool)
  | consoleError
  | setError (message : String)
  | setTimeoutNavigate (ms : Nat) (path : String) (replace : Bool)

/-- The session id read from the fragment (lines 18-20):
`new URLSearchParams(hash.substring(1)).get('session_id')`. -/
def sessionIdOf (hash : String) : Option String :=
  URLSearchParams.get (URLSearchParams.new (substring1 hash)) "session_id"

/-- The `catch` block (lines 39-43) for a thrown error with the given message. -/
def catchBlock (message : String) : List Effect :=
  [Effect.consoleError, Effect.setError message,
   Effect.setTimeoutNavigate 2000 "/login" true]

/-- The function `processSession` (lines 16-44).  When `sessionId` is `null` or empty the
`try` body throws before the request and the `catch` block runs at once; otherwise the
request is issued and, on its outcome, either an error is thrown (rejected request, non-ok
response, rejected `response.json()`) and the `catch` block runs, or the user is handed to
`/dashboard`. -/
def processSession (hash : String) : Async Effect :=
  match sessionIdOf hash with
  | none => { sync := catchBlock "No session ID found", resume := none }
  | some sessionId =>
    if sessionId = "" then { sync := catchBlock "No session ID found", resume := none }
    else
      { sync := [Effect.postSession sessionId]
        resume := some fun r =>
          match r with
          | FetchResult.rejected message => catchBlock message
          | FetchResult.response false _ => catchBlock "Failed to authenticate"
          | FetchResult.response true (Except.error message) => catchBlock message
          | FetchResult.response true (Except.ok user) =>
              [Effect.navigate "/dashboard" user true] }

/-- One execution of the mount effect (lines 12-47): it returns at once when the ref is
set, otherwise it sets the ref and calls `processSession`. -/
def mountEffect (s : State) (hash : String) : State × Async Effect :=
  if s.hasProcessed then (s, { sync := [], resume := none })
  else ({ s with hasProcessed := true }, processSession hash)

/-- Executions of the mount effect one after the other on one instance, one per element of
`outcomes`; the element is the outcome of the request of that execution, should it issue
one.  The result lists the effects of all executions. -/
def runMountEffects (s : State) (hash : String) : List FetchResult → List Effect
  | [] => []
  | r :: rs => ((mountEffect s hash).2.effects r) ++ runMountEffects (mountEffect s hash).1 hash rs

/-- The session ids of the exchange requests among some effects. -/
def posts : List Effect → List String
  | [] => []
  | Effect.postSession sessionId :: es => sessionId :: posts es
  | _ :: es => posts es

/-- The paths of the immediate navigations among some effects. -/
def navigations : List Effect → List String
  | [] => []
  | Effect.navigate path _ _ :: es => path :: navigations es
  | _ :: es => navigations es

/-- The scheduled navigations among some effects. -/
def scheduled : List Effect → List (Nat × String × Bool)
  | [] => []
  | Effect.setTimeoutNavigate ms path replace :: es => (ms, path, replace) :: scheduled es
  | _ :: es => scheduled es

/-- A state setter replaces its cell; the other effects leave the state alone. -/
def applyEffect (s : State) : Effect → State
  | Effect.setError message => { s with error := some message }
  | _ => s

/-- The state after some effects. -/
def applyEffects (s : State) (es : List Effect) : State :=
  es.foldl applyEffect s

/-- The exchange failed: no usable `session_id` in the fragment, or a rejected request, a
non-ok response, or a body that does not parse. -/
def exchangeFailed (hash : String) (r : FetchResult) : Bool :=
  match sessionIdOf hash with
  | none => true
  | some sessionId =>
    sessionId = "" ||
    match r with
    | FetchResult.rejected _ => true
    | FetchResult.response false _ => true
    | FetchResult.response true (Except.error _) => true
    | FetchResult.response true (Except.ok _) => false

end AuthCallback

/-! ## `pages/ApplyVisa.js` -/

namespace JSVal

/-- Member access `v.key` for a data property: a `TypeError` (`none`) on `null` and
`undefined`, otherwise as `optGet`. -/
def member (v : JSVal) (key : String) : Option JSVal :=
  match v with
  | undefined => none
  | null => none
  | _ => some (v.optGet key)

/-- The fields of the object built by spreading an object and then setting the computed
key `key`: the value of an existing key is replaced in place, a new key is added at the
end. -/
def setField (fields : List (String × JSVal)) (key : String) (value : JSVal) :
    List (String × JSVal) :=
  match fields with
  | [] => [(key, value)]
  | (k, v) :: rest => if k = key then (key, value) :: rest else (k, v) :: setField rest key value

end JSVal

namespace ApplyVisa

/-- The `formData` object (lines 15-29). -/
structure FormData where
  visaType : String
  fullName : String
  dateOfBirth : String
  nationality : String
  passportNumber : String
  passportExpiry : String
  email : String
  phone : String
  address : String
  purposeOfVisit : String
  arrivalDate : String
  departureDate : String
  accommodationAddress : String

/-- The `useState` cells of the wizard (lines 12-33); `documents` is the list of fields of
the `documents` object. -/
structure State where
  user : JSVal
  currentStep : Nat
  applicationId : JSVal
  formData : FormData
  documents : List (String × JSVal)

/-- The initial values of the `useState` calls. -/
def initialState : State :=
  { user := JSVal.null
    currentStep := 0
    applicationId := JSVal.null
    formData :=
      { visaType := "tourist", fullName := "", dateOfBirth := "", nationality := "",
        passportNumber := "", passportExpiry := "", email := "", phone := "", address := "",
        purposeOfVisit := "", arrivalDate := "", departureDate := "",
        accommodationAddress := "" }
    documents := [("passport", JSVal.null), ("photo", JSVal.null)] }

/-- The titles and icons of the five steps (lines 53-59). -/
def steps : List (String × String) :=
  [("Visa Type", "1"), ("Personal Info", "2"), ("Travel Details", "3"), ("Documents", "4"),
   ("Review", "5")]

/-- An effect of the wizard.  `postApplication body` is the create request
`POST /api/applications`; `postDocument applicationId docType file` is the upload
`POST /api/applications/<applicationId>/documents?doc_type=<docType>`, `file` being the name
of the chosen file (`none` when `files[0]` is `undefined`); `postSubmit applicationId` is
`POST /api/applications/<applicationId>/submit`; `fetchMe` is `GET /api/auth/me`. -/
inductive Effect where
  | fetchMe
  | postApplication (body : JSVal)
  | postDocument (applicationId : JSVal) (docType : String) (file : Option String)
  | postSubmit (applicationId : JSVal)
  | setUser (userData : JSVal)
  | setCurrentStep (n : Nat)
  | setApplicationId (v : JSVal)
  | setFormData (f : FormData)
  | setDocuments (fields : List (String × JSVal))
  | toastSuccess (message : String)
  | toastError (message : String)
  | consoleError
  | navigate (path : String)

/-- The JSON body of the create request (lines 82-100). -/
def applicationBody (f : FormData) : JSVal :=
  JSVal.obj
    [("visa_type", JSVal.str f.visaType),
     ("personal_info", JSVal.obj
        [("full_name", JSVal.str f.fullName),
         ("date_of_birth", JSVal.str f.dateOfBirth),
         ("nationality", JSVal.str f.nationality),
         ("passport_number", JSVal.str f.passportNumber),
         ("passport_expiry", JSVal.str f.passportExpiry),
         ("email", JSVal.str f.email),
         ("phone", JSVal.str f.phone),
         ("address", JSVal.str f.address)]),
     ("travel_details", JSVal.obj
        [("purpose", JSVal.str f.purposeOfVisit),
         ("arrival_date", JSVal.str f.arrivalDate),
         ("departure_date", JSVal.str f.departureDate),
         ("accommodation", JSVal.str f.accommodationAddress)])]

/-- The effects of `saveApplication` (lines 76-112) after its request was issued.  A
rejected request, a rejected `response.json()` and a `null` body are thrown errors, handled
by the `catch` block; a non-ok response does nothing. -/
def saveApplicationResume (r : FetchResult) : List Effect :=
  match r with
  | FetchResult.rejected _ => [Effect.consoleError, Effect.toastError "Failed to save application"]
  | FetchResult.response false _ => []
  | FetchResult.response true (Except.error _) =>
      [Effect.consoleError, Effect.toastError "Failed to save application"]
  | FetchResult.response true (Except.ok data) =>
    match data.member "application_id" with
    | none => [Effect.consoleError, Effect.toastError "Failed to save application"]
    | some id => [Effect.setApplicationId id, Effect.toastSuccess "Application saved as draft"]

/-- The function `saveApplication` (lines 76-112). -/
def saveApplication (s : State) : Async Effect :=
  { sync := [Effect.postApplication (applicationBody s.formData)]
    resume := some saveApplicationResume }

/-- The second statement of `handleNext` (lines 65-67); `currentStep` is the value captured
by the handler. -/
def advance (s : State) : List Effect :=
  if s.currentStep < steps.length - 1 then [Effect.setCurrentStep (s.currentStep + 1)] else []

/-- The handler `handleNext` (lines 61-68): at step 2 without a truthy `applicationId` it
awaits `saveApplication` and then advances; otherwise it advances at once. -/
def handleNext (s : State) : Async Effect :=
  if s.currentStep = 2 ∧ s.applicationId.truthy = false then
    { sync := (saveApplication s).sync
      resume := some fun r => saveApplicationResume r ++ advance s }
  else { sync := advance s, resume := none }

/-- The handler `handleBack` (lines 70-74). -/
def handleBack (s : State) : List Effect :=
  if s.currentStep > 0 then [Effect.setCurrentStep (s.currentStep - 1)] else []

/-- The handler `handleDocumentUpload` (lines 114-141).  After an ok response reading
`file.name` throws when `file` is `undefined`. -/
def handleDocumentUpload (s : State) (docType : String) (file : Option String) :
    Async Effect :=
  if s.applicationId.truthy = false then
    { sync := [Effect.toastError "Please complete previous steps first"], resume := none }
  else
    { sync := [Effect.postDocument s.applicationId docType file]
      resume := some fun r =>
        match r with
        | FetchResult.rejected _ =>
            [Effect.consoleError, Effect.toastError "Failed to upload document"]
        | FetchResult.response false _ => []
        | FetchResult.response true _ =>
          match file with
          | none => [Effect.consoleError, Effect.toastError "Failed to upload document"]
          | some name =>
              [Effect.setDocuments (JSVal.setField s.documents docType (JSVal.str name)),
               Effect.toastSuccess (docType ++ " uploaded successfully")] }

/-- The handler `handleSubmit` (lines 143-166). -/
def handleSubmit (s : State) : Async Effect :=
  if s.applicationId.truthy = false then
    { sync := [Effect.toastError "Application not created"], resume := none }
  else
    { sync := [Effect.postSubmit s.applicationId]
      resume := some fun r =>
        match r with
        | FetchResult.rejected _ =>
            [Effect.consoleError, Effect.toastError "Failed to submit application"]
        | FetchResult.response false _ => []
        | FetchResult.response true _ =>
            [Effect.toastSuccess "Application submitted successfully!",
             Effect.navigate "/dashboard"] }

/-- The function `fetchUser` (lines 39-51), called by the mount effect. -/
def fetchUser : Async Effect :=
  { sync := [Effect.fetchMe]
    resume := some fun r =>
      match r with
      | FetchResult.rejected _ => [Effect.consoleError]
      | FetchResult.response false _ => []
      | FetchResult.response true (Except.error _) => [Effect.consoleError]
      | FetchResult.response true (Except.ok userData) => [Effect.setUser userData] }

/-- A state setter replaces its cell; the other effects leave the state alone. -/
def applyEffect (s : State) : Effect → State
  | Effect.setUser userData => { s with user := userData }
  | Effect.setCurrentStep n => { s with currentStep := n }
  | Effect.setApplicationId v => { s with applicationId := v }
  | Effect.setFormData f => { s with formData := f }
  | Effect.setDocuments fields => { s with documents := fields }
  | _ => s

/-- The state after some effects. -/
def applyEffects (s : State) (es : List Effect) : State :=
  es.foldl applyEffect s

/-- The bodies of the create requests among some effects. -/
def creates : List Effect → List JSVal
  | [] => []
  | Effect.postApplication body :: es => body :: creates es
  | _ :: es => creates es

/-- The number of requests of any kind among some effects. -/
def requestCount : List Effect → Nat
  | [] => 0
  | Effect.fetchMe :: es => requestCount es + 1
  | Effect.postApplication _ :: es => requestCount es + 1
  | Effect.postDocument _ _ _ :: es => requestCount es + 1
  | Effect.postSubmit _ :: es => requestCount es + 1
  | _ :: es => requestCount es

/-- The error notifications among some effects. -/
def errorToasts : List Effect → List String
  | [] => []
  | Effect.toastError message :: es => message :: errorToasts es
  | _ :: es => errorToasts es

/-- A click on Next or on Back.  `next r` carries the outcome of the create request, used
when `handleNext` issues one. -/
inductive Action where
  | next (r : FetchResult)
  | back

/-- The effects of one action in state `s`, the handler running to its end. -/
def actionEffects (s : State) : Action → List Effect
  | Action.next r => (handleNext s).effects r
  | Action.back => handleBack s

/-- The clicks one after the other, each handler created by the render of the state the
one before left: the final state and all effects, in order. -/
def run (s : State) : List Action → State × List Effect
  | [] => (s, [])
  | a :: as =>
    ((run (applyEffects s (actionEffects s a)) as).1,
     actionEffects s a ++ (run (applyEffects s (actionEffects s a)) as).2)

/-- Whether some click on Next of the run happens at step 2. -/
def nextAtStepTwo (s : State) : List Action → Bool
  | [] => false
  | Action.next r :: as =>
    s.currentStep == 2
      || nextAtStepTwo (applyEffects s (actionEffects s (Action.next r))) as
  | Action.back :: as => nextAtStepTwo (applyEffects s (actionEffects s Action.back)) as

/-- The application ids of the submit requests among some effects. -/
def submits : List Effect → List JSVal
  | [] => []
  | Effect.postSubmit applicationId :: es => applicationId :: submits es
  | _ :: es => submits es

/-- The paths of the navigations among some effects. -/
def navigations : List Effect → List String
  | [] => []
  | Effect.navigate path :: es => path :: navigations es
  | _ :: es => navigations es

/-- The values of the inputs that carry the `required` attribute in the content of a step
(lines 213-363): the eight personal-info fields at step 1, the four travel-detail fields at
step 2, none at the other steps. -/
def requiredFields (step : Nat) (f : FormData) : List String :=
  if step = 1 then
    [f.fullName, f.dateOfBirth, f.nationality, f.passportNumber, f.passportExpiry, f.email,
     f.phone, f.address]
  else if step = 2 then
    [f.purposeOfVisit, f.arrivalDate, f.departureDate, f.accommodationAddress]
  else []

/-- Whether a required field of the current step is empty. -/
def missingRequired (s : State) : Bool :=
  (requiredFields s.currentStep s.formData).any fun value => value = ""

end ApplyVisa

/-! ## `pages/AdminReview.js` -/

namespace JSVal

mutual
/-- Strict equality `a === b`: primitives are compared by value; arrays and objects are
compared by structure, which is what `===` gives for two references to the same object (the
only objects this view compares are read from one and the same response). -/
def strictEq : JSVal → JSVal → Bool
  | undefined, undefined => true
  | null, null => true
  | bool a, bool b => a == b
  | num a, num b => a == b
  | str a, str b => a == b
  | arr xs, arr ys => strictEqList xs ys
  | obj fs, obj gs => strictEqFields fs gs
  | _, _ => false
/-- Strict equality of the elements of two arrays, position by position. -/
def strictEqList : List JSVal → List JSVal → Bool
  | [], [] => true
  | x :: xs, y :: ys => strictEq x y && strictEqList xs ys
  | _, _ => false
/-- Strict equality of the fields of two objects, position by position. -/
def strictEqFields : List (String × JSVal) → List (String × JSVal) → Bool
  | [], [] => true
  | (k, v) :: fs, (l, w) :: gs => k == l && strictEq v w && strictEqFields fs gs
  | _, _ => false
end

/-- The expression `a || b`. -/
def orElse (a b : JSVal) : JSVal :=
  if a.truthy then a else b

mutual
/-- The string conversion `String(v)` used by `new Error(v)`; an integer prints in
decimal. -/
def toStr : JSVal → String
  | undefined => "undefined"
  | null => "null"
  | bool true => "true"
  | bool false => "false"
  | num n => toString n
  | str s => s
  | arr items => joinItems items
  | obj _ => "[object Object]"
/-- The elements of an array joined by commas, `null` and `undefined` printing as the empty
string. -/
def joinItems : List JSVal → String
  | [] => ""
  | undefined :: [] => ""
  | null :: [] => ""
  | item :: [] => toStr item
  | undefined :: rest => "," ++ joinItems rest
  | null :: rest => "," ++ joinItems rest
  | item :: rest => toStr item ++ "," ++ joinItems rest
end

mutual
/-- Whether the conversion of a value to a primitive (`ToPrimitive`), which `new Date(v)`
and a template literal perform on `v`, returns.  A primitive is its own result.  A plain
object is converted by `Object.prototype.toString`, unless it has an own property
`toString`: in a parsed JSON body that property is not callable, `valueOf` returns the
object itself, and the conversion throws a `TypeError`.  An array is converted by `join`,
which converts every element other than `null` and `undefined`. -/
def convertible : JSVal → Bool
  | arr items => convertibleItems items
  | obj fields => (fields.lookup "toString").isNone
  | _ => true
/-- Whether every element of an array is convertible. -/
def convertibleItems : List JSVal → Bool
  | [] => true
  | item :: rest => convertible item && convertibleItems rest
end

/-- The expression `new Date(v).toLocaleDateString()` as far as it can fail; the text it
returns is not kept.  It throws (`none`) when the conversion of `v` to a primitive throws; a
value that is not a date gives the text `Invalid Date`, not an error. -/
def localeDate (v : JSVal) : Option Unit :=
  if v.convertible then some () else none

/-- The interpolation of `v` in a template literal as far as it can fail; the text is not
kept.  It throws (`none`) when the conversion of `v` to a primitive throws. -/
def interpolate (v : JSVal) : Option Unit :=
  if v.convertible then some () else none

/-- The call `v.toUpperCase()` as far as it can fail; the text it returns is not kept.  It
throws a `TypeError` (`none`) unless `v` is a string: on `null` and `undefined` the member
access throws, and on every other value `toUpperCase` is not a function. -/
def toUpperCase (v : JSVal) : Option Unit :=
  match v with
  | str _ => some ()
  | _ => none

/-- Whether the field `key` of `v` is a string. -/
def hasStr (v : JSVal) (key : String) : Bool :=
  match v.optGet key with
  | str _ => true
  | _ => false

/-- The keys of `personal_info` that the pages display (`AdminReview.js` lines 184-221,
`ApplicationDetails.js` lines 159-196). -/
def personalInfoKeys : List String :=
  ["full_name", "date_of_birth", "nationality", "passport_number", "passport_expiry",
   "email", "phone", "address"]

/-- The keys of `travel_details` that the pages display (`AdminReview.js` lines 234-248,
`ApplicationDetails.js` lines 209-223). -/
def travelDetailsKeys : List String :=
  ["purpose", "arrival_date", "departure_date", "accommodation"]

/-- A complete application record: an object whose `application_id`, `visa_type`, `status`
and `created_at` are strings, whose `personal_info` and `travel_details` are objects with a
string at every key the pages display, and whose `admin_notes`, if present, is `null` or a
string.  This is the shape of the body `ApplyVisa.js` posts (lines 82-100) with the fields
the pages read from the stored record added. -/
def isApplicationRecord (v : JSVal) : Bool :=
  v.hasStr "application_id" && v.hasStr "visa_type" && v.hasStr "status"
    && v.hasStr "created_at"
    && personalInfoKeys.all (v.optGet "personal_info").hasStr
    && travelDetailsKeys.all (v.optGet "travel_details").hasStr
    && (match v.optGet "admin_notes" with
        | undefined => true
        | null => true
        | str _ => true
        | _ => false)

/-- The complete record used as the example in the statements below: a tourist
application with the given status and no admin notes. -/
def exampleApplication (status : String) : JSVal :=
  obj [("application_id", str "app_1"),
       ("visa_type", str "tourist"),
       ("status", str status),
       ("created_at", str "2025-01-15T10:00:00Z"),
       ("personal_info",
        obj [("full_name", str "Ada Lovelace"),
             ("date_of_birth", str "1990-12-10"),
             ("nationality", str "British"),
             ("passport_number", str "P1234567"),
             ("passport_expiry", str "2030-01-01"),
             ("email", str "ada@example.com"),
             ("phone", str "+44 20 7946 0000"),
             ("address", str "12 St James Square, London")]),
       ("travel_details",
        obj [("purpose", str "Tourism"),
             ("arrival_date", str "2025-03-01"),
             ("departure_date", str "2025-03-15"),
             ("accommodation", str "Hotel Meowls")])]

/-- The example record with admin notes added. -/
def exampleApplicationWithNotes (status notes : String) : JSVal :=
  match exampleApplication status with
  | obj fields => obj (fields ++ [("admin_notes", str notes)])
  | v => v

end JSVal

namespace AdminReview

/-- The `useState` cells of the review view (lines 13-18). -/
structure State where
  user : JSVal
  application : JSVal
  loading : Bool
  updating : Bool
  selectedStatus : JSVal
  notes : JSVal

/-- The initial values of the `useState` calls. -/
def initialState : State :=
  { user := JSVal.null
    application := JSVal.null
    loading := true
    updating := false
    selectedStatus := JSVal.str ""
    notes := JSVal.str "" }

/-- An effect of the review view.  `fetchApplication id` is `GET /api/applications/<id>`;
`putStatus id status notes` is `PUT /api/admin/applications/<id>/status` whose JSON body
has the fields `status` and `notes`; `setTimeoutNavigate ms path` is the `setTimeout` call
whose callback navigates to `path`. -/
inductive Effect where
  | fetchMe
  | fetchApplication (id : String)
  | putStatus (id : String) (status : JSVal) (notes : JSVal)
  | setUser (userData : JSVal)
  | setApplication (data : JSVal)
  | setLoading (b : Bool)
  | setUpdating (b : Bool)
  | setSelectedStatus (v : JSVal)
  | setNotes (v : JSVal)
  | toastSuccess (message : String)
  | toastError (message : String)
  | consoleError
  | setTimeoutNavigate (ms : Nat) (path : String)

/-- The function `fetchUser` (lines 25-37). -/
def fetchUser : Async Effect :=
  { sync := [Effect.fetchMe]
    resume := some fun r =>
      match r with
      | FetchResult.rejected _ => [Effect.consoleError]
      | FetchResult.response false _ => []
      | FetchResult.response true (Except.error _) => [Effect.consoleError]
      | FetchResult.response true (Except.ok userData) => [Effect.setUser userData] }

/-- The function `fetchApplication` (lines 39-58).  With a `null` body `setApplication`
is still called before `data.status` throws. -/
def fetchApplication (id : String) : Async Effect :=
  { sync := [Effect.fetchApplication id]
    resume := some fun r =>
      (match r with
       | FetchResult.rejected _ =>
           [Effect.consoleError, Effect.toastError "Failed to load application"]
       | FetchResult.response false _ => [Effect.toastError "Application not found"]
       | FetchResult.response true (Except.error _) =>
           [Effect.consoleError, Effect.toastError "Failed to load application"]
       | FetchResult.response true (Except.ok data) =>
         match data.member "status", data.member "admin_notes" with
         | some status, some adminNotes =>
             [Effect.setApplication data, Effect.setSelectedStatus status,
              Effect.setNotes (adminNotes.orElse (JSVal.str ""))]
         | _, _ =>
             [Effect.setApplication data, Effect.consoleError,
              Effect.toastError "Failed to load application"])
      ++ [Effect.setLoading false] }

/-- The success message for an approval whose email was sent (line 86). -/
def approvedMessage : String :=
  "Application approved! ✅ Email with visa document sent to applicant."

/-- The success message for a rejection whose email was sent (line 88). -/
def rejectedMessage : String :=
  "Application rejected. 📧 Notification email sent to applicant."

/-- The success message that mentions no email (line 91). -/
def genericMessage : String :=
  "Application status updated successfully"

/-- The message of the `TypeError` thrown by a member access on `null`; its text depends on
the browser. -/
def typeErrorMessage : String :=
  "TypeError"

/-- The notifications of lines 84-92, for the status captured by the handler and the value
of `result.email_sent`. -/
def successToast (selectedStatus emailSent : JSVal) : List Effect :=
  if emailSent.truthy then
    if selectedStatus.strictEq (JSVal.str "approved") then
      [Effect.toastSuccess approvedMessage]
    else if selectedStatus.strictEq (JSVal.str "rejected") then
      [Effect.toastSuccess rejectedMessage]
    else []
  else [Effect.toastSuccess genericMessage]

/-- The `catch` block of `handleUpdateStatus` (lines 98-100) for a thrown error with the
given message. -/
def catchBlock (message : String) : List Effect :=
  [Effect.consoleError,
   Effect.toastError (if message = "" then "Failed to update status" else message)]

/-- The `try` and `catch` blocks of `handleUpdateStatus` (lines 68-100) from the outcome of
the request on. -/
def handleUpdateStatusTry (s : State) (r : FetchResult) : List Effect :=
  match r with
  | FetchResult.rejected message => catchBlock message
  | FetchResult.response true (Except.error message) => catchBlock message
  | FetchResult.response true (Except.ok result) =>
    match result.member "email_sent" with
    | none => catchBlock typeErrorMessage
    | some emailSent =>
        successToast s.selectedStatus emailSent ++ [Effect.setTimeoutNavigate 1500 "/admin"]
  | FetchResult.response false (Except.error message) => catchBlock message
  | FetchResult.response false (Except.ok error) =>
    match error.member "detail" with
    | none => catchBlock typeErrorMessage
    | some detail =>
        catchBlock (if detail.truthy then detail.toStr else "Failed to update status")

/-- The handler `handleUpdateStatus` (lines 60-104) of the view with route parameter
`id`. -/
def handleUpdateStatus (id : String) (s : State) : Async Effect :=
  if s.selectedStatus.truthy = false then
    { sync := [Effect.toastError "Please select a status"], resume := none }
  else
    { sync := [Effect.setUpdating true, Effect.putStatus id s.selectedStatus s.notes]
      resume := some fun r => handleUpdateStatusTry s r ++ [Effect.setUpdating false] }

/-- The values of the options of the status selector (lines 280-283). -/
def statusOptions : List String :=
  ["submitted", "under-review", "approved", "rejected"]

/-- The `onChange` handler of the status selector (line 276). -/
def selectOnChange (value : String) : List Effect :=
  [Effect.setSelectedStatus (JSVal.str value)]

/-- The `onChange` handler of the notes field (line 293). -/
def notesOnChange (value : String) : List Effect :=
  [Effect.setNotes (JSVal.str value)]

/-- The `onClick` handler of Quick Approve (lines 312-315). -/
def quickApprove : List Effect :=
  [Effect.setSelectedStatus (JSVal.str "approved"),
   Effect.setNotes (JSVal.str "Application approved. All documents verified.")]

/-- The `onClick` handler of Quick Reject (lines 324-327). -/
def quickReject : List Effect :=
  [Effect.setSelectedStatus (JSVal.str "rejected"),
   Effect.setNotes (JSVal.str "Application rejected. Please provide valid documents.")]

/-- A state setter replaces its cell; the other effects leave the state alone. -/
def applyEffect (s : State) : Effect → State
  | Effect.setUser userData => { s with user := userData }
  | Effect.setApplication data => { s with application := data }
  | Effect.setLoading b => { s with loading := b }
  | Effect.setUpdating b => { s with updating := b }
  | Effect.setSelectedStatus v => { s with selectedStatus := v }
  | Effect.setNotes v => { s with notes := v }
  | _ => s

/-- The state after some effects. -/
def applyEffects (s : State) (es : List Effect) : State :=
  es.foldl applyEffect s

/-- The states passed through while the effects are performed in order, the starting state
first and the final state last. -/
def trace (s : State) : List Effect → List State
  | [] => [s]
  | e :: es => s :: trace (applyEffect s e) es

/-- The `disabled` attribute of the Update Status button (line 303). -/
def updateDisabled (s : State) : Bool :=
  s.updating || s.selectedStatus.strictEq (s.application.optGet "status")

/-- What one render of the review view returns: the spinner, the not-found panel, or the
review page, of which the `disabled` attribute and the label of the Update Status button
are kept. -/
inductive View where
  | loading
  | notFound
  | review (updateDisabled : Bool) (updateLabel : String)
  deriving DecidableEq

/-- The review page (lines 132-343), built for a truthy `application`, so that a member
access on `application` itself does not throw.  The expressions that can throw are the date
of line 170 and the member accesses on `application.personal_info` (lines 184-221, the keys
of `personalInfoKeys`) and on `application.travel_details` (lines 234-248, the keys of
`travelDetailsKeys`), each a `TypeError` when that object is `null` or `undefined`.  The
result is `none` when one of them throws. -/
def reviewPage (s : State) : Option View :=
  if ((s.application.optGet "created_at").localeDate).isSome
      && JSVal.personalInfoKeys.all
          (fun key => ((s.application.optGet "personal_info").member key).isSome)
      && JSVal.travelDetailsKeys.all
          (fun key => ((s.application.optGet "travel_details").member key).isSome) then
    some (View.review (updateDisabled s) (if s.updating then "Updating..." else "Update Status"))
  else none

/-- The render function (lines 106-343): `none` when the render throws, in which case
nothing of the view is displayed and none of its controls exists. -/
def render (s : State) : Option View :=
  if s.loading then some View.loading
  else if s.application.truthy = false then some View.notFound
  else reviewPage s

/-- The status updates requested among some effects: the status and the notes of each
`PUT`. -/
def puts : List Effect → List (JSVal × JSVal)
  | [] => []
  | Effect.putStatus _ status notes :: es => (status, notes) :: puts es
  | _ :: es => puts es

/-- The number of requests of any kind among some effects. -/
def requestCount : List Effect → Nat
  | [] => 0
  | Effect.fetchMe :: es => requestCount es + 1
  | Effect.fetchApplication _ :: es => requestCount es + 1
  | Effect.putStatus _ _ _ :: es => requestCount es + 1
  | _ :: es => requestCount es

/-- The success notifications among some effects. -/
def successToasts : List Effect → List String
  | [] => []
  | Effect.toastSuccess message :: es => message :: successToasts es
  | _ :: es => successToasts es

/-- The error notifications among some effects. -/
def errorToasts : List Effect → List String
  | [] => []
  | Effect.toastError message :: es => message :: errorToasts es
  | _ :: es => errorToasts es

/-- The scheduled navigations among some effects. -/
def scheduled : List Effect → List (Nat × String)
  | [] => []
  | Effect.setTimeoutNavigate ms path :: es => (ms, path) :: scheduled es
  | _ :: es => scheduled es

/-- Whether an effect is a call of `setUpdating`. -/
def isSetUpdating : Effect → Bool
  | Effect.setUpdating _ => true
  | _ => false

end AdminReview

/-! ## `pages/TrackApplication.js` -/

/-- The characters removed by `String.prototype.trim`: white space and line terminators. -/
def isTrimmed (c : Char) : Bool :=
  c.toNat = 0x09 || c.toNat = 0x0A || c.toNat = 0x0B || c.toNat = 0x0C || c.toNat = 0x0D
    || c.toNat = 0x20 || c.toNat = 0xA0 || c.toNat = 0x1680
    || (0x2000 ≤ c.toNat && c.toNat ≤ 0x200A)
    || c.toNat = 0x2028 || c.toNat = 0x2029 || c.toNat = 0x202F || c.toNat = 0x205F
    || c.toNat = 0x3000 || c.toNat = 0xFEFF

/-- The string method `s.trim()`. -/
def trim (s : String) : String :=
  String.mk ((s.toList.dropWhile isTrimmed).reverse.dropWhile isTrimmed).reverse

namespace TrackApplication

/-- The `useState` cells of the tracking view (lines 10-13). -/
structure State where
  applicationId : String
  application : JSVal
  loading : Bool
  searched : Bool

/-- The initial values of the `useState` calls. -/
def initialState : State :=
  { applicationId := "", application := JSVal.null, loading := false, searched := false }

/-- An effect of the tracking view; `fetchApplication id` is
`GET /api/applications/<id>`. -/
inductive Effect where
  | preventDefault
  | fetchApplication (id : String)
  | setApplication (data : JSVal)
  | setLoading (b : Bool)
  | setSearched (b : Bool)
  | toastError (message : String)
  | consoleError

/-- The handler `handleSearch` (lines 15-44). -/
def handleSearch (s : State) : Async Effect :=
  if trim s.applicationId = "" then
    { sync := [Effect.preventDefault, Effect.toastError "Please enter an application ID"]
      resume := none }
  else
    { sync := [Effect.preventDefault, Effect.setLoading true, Effect.setSearched true,
               Effect.fetchApplication s.applicationId]
      resume := some fun r =>
        (match r with
         | FetchResult.rejected _ =>
             [Effect.consoleError, Effect.setApplication JSVal.null,
              Effect.toastError "Failed to track application"]
         | FetchResult.response false _ =>
             [Effect.setApplication JSVal.null,
              Effect.toastError "Application not found. Please check your ID and try again."]
         | FetchResult.response true (Except.error _) =>
             [Effect.consoleError, Effect.setApplication JSVal.null,
              Effect.toastError "Failed to track application"]
         | FetchResult.response true (Except.ok data) => [Effect.setApplication data])
        ++ [Effect.setLoading false] }

/-- A state setter replaces its cell; the other effects leave the state alone. -/
def applyEffect (s : State) : Effect → State
  | Effect.setApplication data => { s with application := data }
  | Effect.setLoading b => { s with loading := b }
  | Effect.setSearched b => { s with searched := b }
  | _ => s

/-- The state after some effects. -/
def applyEffects (s : State) (es : List Effect) : State :=
  es.foldl applyEffect s

/-- The states passed through while the effects are performed in order, the starting state
first and the final state last. -/
def trace (s : State) : List Effect → List State
  | [] => [s]
  | e :: es => s :: trace (applyEffect s e) es

/-- The result panel (lines 96-159) as far as it depends on the status: the application
it shows and which of its three notices it contains. -/
structure ResultPanel where
  application : JSVal
  approvedNotice : Bool
  rejectedNotice : Bool
  underReviewNotice : Bool

/-- What one render of the tracking view returns below the search form: the `disabled`
attribute of the search button (line 86), the result panel if it is rendered, and whether
the not-found panel (lines 161-167) is rendered. -/
structure View where
  searchDisabled : Bool
  result : Option ResultPanel
  notFound : Bool

/-- The result panel (lines 97-158), built for a truthy `application`, so that a member
access on `application` itself does not throw.  The expressions that can throw are the
member access on `application.personal_info` (line 121), a `TypeError` when that object is
`null` or `undefined`; the date of line 126; and, in the rejection notice, the interpolation
of truthy admin notes (line 145).  The result is `none` when one of them throws. -/
def resultPanel (application : JSVal) : Option ResultPanel :=
  if ((application.optGet "personal_info").member "full_name").isSome
      && ((application.optGet "created_at").localeDate).isSome
      && (if (application.optGet "status").strictEq (JSVal.str "rejected")
              && (application.optGet "admin_notes").truthy then
            ((application.optGet "admin_notes").interpolate).isSome
          else true) then
    some
      { application := application
        approvedNotice := (application.optGet "status").strictEq (JSVal.str "approved")
        rejectedNotice := (application.optGet "status").strictEq (JSVal.str "rejected")
        underReviewNotice :=
          (JSVal.str "submitted").strictEq (application.optGet "status")
            || (JSVal.str "under-review").strictEq (application.optGet "status") }
  else none

/-- The render function (lines 56-172): the result panel is built when
`searched && application` is truthy (line 96).  The result is `none` when the render throws,
in which case nothing of the view is displayed. -/
def render (s : State) : Option View :=
  (if s.searched && s.application.truthy then (resultPanel s.application).map some
   else some none).map fun result =>
    { searchDisabled := s.loading
      result := result
      notFound := s.searched && !s.application.truthy && !s.loading }

/-- The search failed: the request was rejected, or the response is not ok, or its body
does not parse. -/
def searchFailed : FetchResult → Bool
  | FetchResult.rejected _ => true
  | FetchResult.response false _ => true
  | FetchResult.response true (Except.error _) => true
  | FetchResult.response true (Except.ok _) => false

end TrackApplication

/-! ## `pages/ApplicationDetails.js` -/

namespace ApplicationDetails

/-- The `useState` cells of the detail view (lines 12-14). -/
structure State where
  user : JSVal
  application : JSVal
  loading : Bool

/-- The initial values of the `useState` calls. -/
def initialState : State :=
  { user := JSVal.null, application := JSVal.null, loading := true }

/-- An effect of the detail view; `fetchApplication id` is `GET /api/applications/<id>`. -/
inductive Effect where
  | fetchMe
  | fetchApplication (id : String)
  | setUser (userData : JSVal)
  | setApplication (data : JSVal)
  | setLoading (b : Bool)
  | toastError (message : String)
  | consoleError

/-- The function `fetchApplication` (lines 35-52) of the view with route parameter `id`. -/
def fetchApplication (id : String) : Async Effect :=
  { sync := [Effect.fetchApplication id]
    resume := some fun r =>
      (match r with
       | FetchResult.rejected _ =>
           [Effect.consoleError, Effect.toastError "Failed to load application"]
       | FetchResult.response false _ => [Effect.toastError "Application not found"]
       | FetchResult.response true (Except.error _) =>
           [Effect.consoleError, Effect.toastError "Failed to load application"]
       | FetchResult.response true (Except.ok data) => [Effect.setApplication data])
      ++ [Effect.setLoading false] }

/-- A state setter replaces its cell; the other effects leave the state alone. -/
def applyEffect (s : State) : Effect → State
  | Effect.setUser userData => { s with user := userData }
  | Effect.setApplication data => { s with application := data }
  | Effect.setLoading b => { s with loading := b }
  | _ => s

/-- The state after some effects. -/
def applyEffects (s : State) (es : List Effect) : State :=
  es.foldl applyEffect s

/-- What one render of the detail view returns: the spinner, the not-found panel, or the
details page, of which the conditional blocks are kept: whether the approval notice (lines
120-129) is rendered, and the notes shown by the Admin Notes block (lines 228-235) if it is
rendered.  The page has no other block that depends on the status. -/
inductive View where
  | loading
  | notFound
  | details (approvalNotice : Bool) (adminNotes : Option JSVal)

/-- The details page (lines 90-242), built for a truthy `application`, so that a member
access on `application` itself does not throw.  The expressions that can throw are the call
`application.status.toUpperCase()` (line 116), a `TypeError` unless the status is a string;
the date of line 145; and the member accesses on `application.personal_info` (lines 159-196,
the keys of `personalInfoKeys`) and on `application.travel_details` (lines 209-223, the keys
of `travelDetailsKeys`), each a `TypeError` when that object is `null` or `undefined`.  The
result is `none` when one of them throws. -/
def detailsPage (application : JSVal) : Option View :=
  if ((application.optGet "status").toUpperCase).isSome
      && ((application.optGet "created_at").localeDate).isSome
      && JSVal.personalInfoKeys.all
          (fun key => ((application.optGet "personal_info").member key).isSome)
      && JSVal.travelDetailsKeys.all
          (fun key => ((application.optGet "travel_details").member key).isSome) then
    some
      (View.details ((application.optGet "status").strictEq (JSVal.str "approved"))
        (if (application.optGet "admin_notes").truthy then
          some (application.optGet "admin_notes")
         else none))
  else none

/-- The render function (lines 64-243): `none` when the render throws, in which case
nothing of the view is displayed. -/
def render (s : State) : Option View :=
  if s.loading then some View.loading
  else if s.application.truthy = false then some View.notFound
  else detailsPage s.application

end ApplicationDetails

/-! ## `App.js`: the route table -/

namespace AppRouter

/-- The views the routes render. -/
inductive Page where
  | home
  | login
  | register
  | trackApplication
  | dashboard
  | applyVisa
  | applicationDetails
  | adminDashboard
  | adminReview
  deriving DecidableEq

/-- A route of the table: its path pattern, the guard around its view (`none` when the
view is the element itself, `some adminOnly` when the view is the child of a
`ProtectedRoute` with that value of the `adminOnly` prop), and the view. -/
structure Route where
  path : String
  guard : Option Bool
  page : Page
  deriving DecidableEq

/-- The route table (lines 26-62), in source order.  A `ProtectedRoute` written without
the `adminOnly` attribute gets the default `false`. -/
def routes : List Route :=
  [{ path := "/", guard := none, page := Page.home },
   { path := "/login", guard := none, page := Page.login },
   { path := "/register", guard := none, page := Page.register },
   { path := "/track", guard := none, page := Page.trackApplication },
   { path := "/dashboard", guard := some false, page := Page.dashboard },
   { path := "/apply", guard := some false, page := Page.applyVisa },
   { path := "/applications/:id", guard := some false, page := Page.applicationDetails },
   { path := "/admin", guard := some true, page := Page.adminDashboard },
   { path := "/admin/applications/:id", guard := some true, page := Page.adminReview }]

/-- What `AppRouter` renders at a location: the session resolver, or the element of a
route. -/
inductive Element where
  | authCallback
  | page (guard : Option Bool) (page : Page)
  deriving DecidableEq

/-- The element rendered by `AppRouter` (lines 17-64) at a location with fragment `hash`
whose path is matched by `route`. -/
def element (hash : String) (route : Route) : Element :=
  if includes hash "session_id=" then Element.authCallback
  else Element.page route.guard route.page

end AppRouter

/-! ## `pages/AdminDashboard.js`: `filterApplications` -/

namespace AdminDashboard

/-- The test `app.status === statusFilter` of the first filter (line 63); `none` when the
member access throws. -/
def matchesStatus (statusFilter : String) (app : JSVal) : Option Bool :=
  match app.member "status" with
  | some status => some (status.strictEq (JSVal.str statusFilter))
  | none => none

/-- The test of the second filter (lines 67-70), `toLowerCase` being the string method of
that name; `none` when the test throws: a member access on `null` or `undefined`, or a
call of `toLowerCase` on a value that is not a string.  The name is looked at only when
the id does not match. -/
def matchesSearch (toLowerCase : String → String) (searchTerm : String) (app : JSVal) :
    Option Bool :=
  match app.member "application_id" with
  | some (JSVal.str id) =>
    if includes (toLowerCase id) (toLowerCase searchTerm) then some true
    else
      match app.member "personal_info" with
      | some info =>
        match info.member "full_name" with
        | some (JSVal.str name) => some (includes (toLowerCase name) (toLowerCase searchTerm))
        | _ => none
      | none => none
  | _ => none

/-- The array method `filter` with a test that may throw: the elements are tested in
order, and a test that throws ends the call. -/
def filterThrowing (test : JSVal → Option Bool) : List JSVal → Option (List JSVal)
  | [] => some []
  | x :: xs =>
    match test x with
    | none => none
    | some keep =>
      match filterThrowing test xs with
      | none => none
      | some ys => some (if keep then x :: ys else ys)

/-- The function `filterApplications` (lines 59-74): the list passed to `setFilteredApps`,
`none` when a test throws before that call. -/
def filterApplications (toLowerCase : String → String) (applications : List JSVal)
    (statusFilter searchTerm : String) : Option (List JSVal) :=
  match (if statusFilter ≠ "all" then filterThrowing (matchesStatus statusFilter) applications
         else some applications) with
  | none => none
  | some filtered =>
    if searchTerm ≠ "" then filterThrowing (matchesSearch toLowerCase searchTerm) filtered
    else some filtered

/-- The lower-casing of the ASCII letters, with which `toLowerCase` agrees on strings of
ASCII characters. -/
def asciiLower (s : String) : String :=
  String.mk (s.toList.map Char.toLower)

/-- The id of an application, for one whose `application_id` is a string. -/
def idOf (app : JSVal) : String :=
  match app.optGet "application_id" with
  | JSVal.str id => id
  | _ => ""

/-- The applicant name of an application, for one whose `personal_info.full_name` is a
string. -/
def nameOf (app : JSVal) : String :=
  match (app.optGet "personal_info").optGet "full_name" with
  | JSVal.str name => name
  | _ => ""

/-- An application record as the dashboard expects it: an object whose `application_id`
is a string and whose `personal_info` is an object with a string `full_name`. -/
def hasSearchFields (app : JSVal) : Bool :=
  match app with
  | JSVal.obj _ =>
    match app.optGet "application_id", app.optGet "personal_info" with
    | JSVal.str _, JSVal.obj info =>
      match (JSVal.obj info).optGet "full_name" with
      | JSVal.str _ => true
      | _ => false
    | _, _ => false
  | _ => false

/-- The applications the filtered list is meant to contain, in the words of the claim:
the status equals the filter, or the filter is `all`; and the search term is empty, or the
id or the applicant name contains it, both sides lower-cased. -/
def wanted (toLowerCase : String → String) (statusFilter searchTerm : String)
    (app : JSVal) : Bool :=
  (statusFilter = "all" || (app.optGet "status").strictEq (JSVal.str statusFilter))
    && (searchTerm = ""
        || includes (toLowerCase (idOf app)) (toLowerCase searchTerm)
        || includes (toLowerCase (nameOf app)) (toLowerCase searchTerm))

end AdminDashboard

/-! ## `pages/ApplyVisa.js`: clicks and request completions, interleaved -/

namespace ApplyVisa

/-- A handler suspended on the request it awaits, with the state captured by the render
that created it: `handleNext` awaiting the create request, or `handleSubmit` awaiting the
submit request. -/
inductive Pending where
  | next (captured : State)
  | submit (captured : State)

/-- The effects a suspended handler performs once its request has an outcome. -/
def Pending.resume : Pending → FetchResult → List Effect
  | Pending.next captured, r =>
    match (handleNext captured).resume with
    | some k => k r
    | none => []
  | Pending.submit captured, r =>
    match (handleSubmit captured).resume with
    | some k => k r
    | none => []

/-- Whether a suspended handler awaits a create request. -/
def Pending.isNext : Pending → Bool
  | Pending.next _ => true
  | Pending.submit _ => false

/-- Whether a suspended handler awaits a submit request. -/
def Pending.isSubmit : Pending → Bool
  | Pending.next _ => false
  | Pending.submit _ => true

/-- The mounted wizard between two events: the state of the last render, the handlers
suspended on a request in flight, and all effects performed so far. -/
structure System where
  state : State
  pending : List Pending
  log : List Effect

/-- The freshly mounted wizard. -/
def System.mounted : System :=
  { state := initialState, pending := [], log := [] }

/-- An event: a click on one of the three buttons of the bottom bar (lines 517-547), or
the completion, with some outcome, of the request of the suspended handler at a position
of the list. -/
inductive Event where
  | clickNext
  | clickBack
  | clickSubmit
  | complete (index : Nat) (r : FetchResult)

/-- The handler that is suspended after its synchronous part, if it awaits a request. -/
def launch (a : Async Effect) (p : Pending) : List Pending :=
  match a.resume with
  | some _ => [p]
  | none => []

/-- One event.  A click runs the synchronous part of the handler created by the last
render; the Back button is disabled at step 0 (line 520), and the bar shows Submit at the
last step and Next at the others (line 528), with no `disabled` attribute on either.  A
completion runs the rest of the suspended handler. -/
def step (sys : System) : Event → System
  | Event.clickNext =>
    if sys.state.currentStep = steps.length - 1 then sys
    else
      { state := applyEffects sys.state (handleNext sys.state).sync
        pending := sys.pending ++ launch (handleNext sys.state) (Pending.next sys.state)
        log := sys.log ++ (handleNext sys.state).sync }
  | Event.clickBack =>
    if sys.state.currentStep = 0 then sys
    else
      { state := applyEffects sys.state (handleBack sys.state)
        pending := sys.pending
        log := sys.log ++ handleBack sys.state }
  | Event.clickSubmit =>
    if sys.state.currentStep = steps.length - 1 then
      { state := applyEffects sys.state (handleSubmit sys.state).sync
        pending := sys.pending ++ launch (handleSubmit sys.state) (Pending.submit sys.state)
        log := sys.log ++ (handleSubmit sys.state).sync }
    else sys
  | Event.complete index r =>
    match sys.pending[index]? with
    | none => sys
    | some p =>
      { state := applyEffects sys.state (p.resume r)
        pending := sys.pending.eraseIdx index
        log := sys.log ++ p.resume r }

/-- The events one after the other. -/
def runEvents (sys : System) (events : List Event) : System :=
  events.foldl step sys

/-- The number of create requests in flight. -/
def pendingCreates (sys : System) : Nat :=
  (sys.pending.filter Pending.isNext).length

/-- The number of submit requests in flight. -/
def pendingSubmits (sys : System) : Nat :=
  (sys.pending.filter Pending.isSubmit).length

end ApplyVisa

/-! ## `pages/AdminReview.js`: the operator's actions and request completions, interleaved -/

namespace AdminReview

/-- The review view of the application `id` between two events: the state of the last
render, the states captured by the calls of `handleUpdateStatus` that are suspended on
their request, and all effects performed so far. -/
structure System where
  id : String
  state : State
  pending : List State
  log : List Effect

/-- The state in which an ok response with body `data` to the request of the mount effect
leaves the view (lines 44-48 and 56). -/
def loadedState (id : String) (data : JSVal) : State :=
  applyEffects initialState
    (match (fetchApplication id).resume with
     | some k => k (FetchResult.response true (Except.ok data))
     | none => [])

/-- The view once the application has been loaded, nothing done yet. -/
def System.loaded (id : String) (data : JSVal) : System :=
  { id := id, state := loadedState id data, pending := [], log := [] }

/-- An event: the operator chooses an option of the selector, edits the notes, clicks a
quick action or the Update Status button, or the request of the suspended handler at a
position of the list completes with some outcome. -/
inductive Event where
  | select (value : String)
  | editNotes (value : String)
  | quickApprove
  | quickReject
  | clickUpdate
  | complete (index : Nat) (r : FetchResult)

/-- The effects of a suspended `handleUpdateStatus` once its request has an outcome. -/
def resumeUpdate (id : String) (captured : State) (r : FetchResult) : List Effect :=
  match (handleUpdateStatus id captured).resume with
  | some k => k r
  | none => []

/-- One event.  The controls exist only on the review page; the selector offers the four
options of `statusOptions`; a click on Update Status does something only when the button
is not disabled, and then runs the synchronous part of the handler created by the last
render. -/
def step (sys : System) : Event → System
  | Event.select value =>
    match render sys.state with
    | some (View.review _ _) =>
      if value ∈ statusOptions then
        { sys with
          state := applyEffects sys.state (selectOnChange value)
          log := sys.log ++ selectOnChange value }
      else sys
    | _ => sys
  | Event.editNotes value =>
    match render sys.state with
    | some (View.review _ _) =>
      { sys with
        state := applyEffects sys.state (notesOnChange value)
        log := sys.log ++ notesOnChange value }
    | _ => sys
  | Event.quickApprove =>
    match render sys.state with
    | some (View.review _ _) =>
      { sys with
        state := applyEffects sys.state quickApprove
        log := sys.log ++ quickApprove }
    | _ => sys
  | Event.quickReject =>
    match render sys.state with
    | some (View.review _ _) =>
      { sys with
        state := applyEffects sys.state quickReject
        log := sys.log ++ quickReject }
    | _ => sys
  | Event.clickUpdate =>
    match render sys.state with
    | some (View.review false _) =>
      { sys with
        state := applyEffects sys.state (handleUpdateStatus sys.id sys.state).sync
        pending :=
          sys.pending ++
            (match (handleUpdateStatus sys.id sys.state).resume with
             | some _ => [sys.state]
             | none => [])
        log := sys.log ++ (handleUpdateStatus sys.id sys.state).sync }
    | _ => sys
  | Event.complete index r =>
    match sys.pending[index]? with
    | none => sys
    | some captured =>
      { sys with
        state := applyEffects sys.state (resumeUpdate sys.id captured r)
        pending := sys.pending.eraseIdx index
        log := sys.log ++ resumeUpdate sys.id captured r }

/-- The events one after the other. -/
def runEvents (sys : System) (events : List Event) : System :=
  events.foldl step sys

/-- Whether an effect is a notification, a console log or a timer: neither a request nor a
state setter. -/
def isNotification : Effect → Bool
  | Effect.toastSuccess _ => true
  | Effect.toastError _ => true
  | Effect.consoleError => true
  | Effect.setTimeoutNavigate _ _ => true
  | _ => false

end AdminReview

/-! # Theorems -/

/-! ## The auth guard -/

namespace ProtectedRoute

theorem render_of_loading (adminOnly : Bool) (s : State) (h : s.loading = true) :
    render adminOnly s = View.loading := by
  simp [render, h]

theorem checkAuth_of_failed (r : FetchResult) (h : checkFailed r = true) :
    checkAuth r
      = [Effect.consoleError, Effect.setIsAuthenticated false, Effect.setLoading false] := by
  cases r with
  | rejected m => rfl
  | response ok json =>
    cases ok with
    | false => rfl
    | true =>
      cases json with
      | error m => rfl
      | ok v => simp [checkFailed] at h

theorem checkAuth_of_ok (userData : JSVal) :
    checkAuth (FetchResult.response true (Except.ok userData))
      = [Effect.setUser userData, Effect.setIsAuthenticated true, Effect.setLoading false] :=
  rfl

theorem checkAuth_cases (r : FetchResult) :
    checkAuth r
        = [Effect.consoleError, Effect.setIsAuthenticated false, Effect.setLoading false]
    ∨ ∃ userData, checkAuth r
        = [Effect.setUser userData, Effect.setIsAuthenticated true, Effect.setLoading false] := by
  cases h : checkFailed r with
  | true => exact Or.inl (checkAuth_of_failed r h)
  | false =>
    right
    cases r with
    | rejected m => simp [checkFailed] at h
    | response ok json =>
      cases ok with
      | false => simp [checkFailed] at h
      | true =>
        cases json with
        | error m => simp [checkFailed] at h
        | ok v => exact ⟨v, rfl⟩

theorem mountStates_of_not_forwarded (locationState : JSVal) (r : FetchResult)
    (h : (forwardedUser locationState).truthy = false) :
    mountStates locationState r
      = trace { isAuthenticated := none, user := JSVal.null, loading := true } (checkAuth r) := by
  simp [mountStates, mountEffect, initialState, h]

/-- C1: with no forwarded identity and a failing who-am-I check (rejected request, non-ok
response, or unparsable body) the request is issued, the guard ends in the state
`isAuthenticated = false`, `loading = false`, that state renders the redirect to `/login`
with `replace`, and no state from mount to that point renders the children. -/
theorem failed_check_redirects_to_login (adminOnly : Bool) (locationState : JSVal)
    (r : FetchResult)
    (hfwd : (forwardedUser locationState).truthy = false)
    (hfail : checkFailed r = true) :
    mountEffect locationState = [Effect.fetchMe]
    ∧ (∃ final, (mountStates locationState r).getLast? = some final
        ∧ final.isAuthenticated = some false ∧ final.loading = false
        ∧ render adminOnly final = View.navigate "/login" true)
    ∧ ∀ s ∈ mountStates locationState r, render adminOnly s ≠ View.children := by
  rw [mountStates_of_not_forwarded locationState r hfwd, checkAuth_of_failed r hfail]
  refine ⟨by simp [mountEffect, hfwd], ?_, ?_⟩
  · exact ⟨{ isAuthenticated := some false, user := JSVal.null, loading := false },
      by simp [trace, applyEffect], rfl, rfl, by simp [render]⟩
  · intro s hs
    simp only [trace, applyEffect, List.mem_cons, List.mem_singleton, List.not_mem_nil,
      or_false] at hs
    rcases hs with h | h | h | h <;> subst h <;> simp [render]

/-- Witness of C1: a mount with `location.state = null` whose check gets a 401. -/
theorem failed_check_redirects_to_login_witness :
    (forwardedUser JSVal.null).truthy = false
    ∧ checkFailed (FetchResult.response false (Except.ok JSVal.null)) = true
    ∧ (mountEffect JSVal.null = [Effect.fetchMe]
      ∧ (∃ final, (mountStates JSVal.null
            (FetchResult.response false (Except.ok JSVal.null))).getLast? = some final
          ∧ final.isAuthenticated = some false ∧ final.loading = false
          ∧ render false final = View.navigate "/login" true)
      ∧ ∀ s ∈ mountStates JSVal.null (FetchResult.response false (Except.ok JSVal.null)),
          render false s ≠ View.children) :=
  ⟨rfl, rfl, failed_check_redirects_to_login false JSVal.null
    (FetchResult.response false (Except.ok JSVal.null)) rfl rfl⟩

/-- C2: with `adminOnly = true`, a resolved and authenticated guard whose identity has a
role other than the string `admin` (no role field, or no identity object at all, included)
renders the redirect to `/dashboard`, which is neither the redirect to `/login` nor the
children; with role `admin` it renders the children. -/
theorem admin_only_gate (s : State)
    (hloaded : s.loading = false) (hauth : s.isAuthenticated = some true) :
    (s.user.optGet "role" ≠ JSVal.str "admin" →
        render true s = View.navigate "/dashboard" true
        ∧ render true s ≠ View.navigate "/login" true
        ∧ render true s ≠ View.children)
    ∧ (s.user.optGet "role" = JSVal.str "admin" → render true s = View.children) := by
  constructor
  · intro hrole
    have hne : (s.user.optGet "role").strictNeStr "admin" = true := by
      cases hr : s.user.optGet "role" with
      | str t =>
        have : t ≠ "admin" := fun h => hrole (by rw [hr, h])
        simpa [JSVal.strictNeStr] using this
      | _ => rfl
    have hrender : render true s = View.navigate "/dashboard" true := by
      simp [render, hloaded, hauth, hne]
    rw [hrender]
    exact ⟨rfl, by decide, by decide⟩
  · intro hrole
    simp [render, hloaded, hauth, hrole, JSVal.strictNeStr]

/-- Witness of C2: an authenticated identity without a role field, on an admin-only
route. -/
theorem admin_only_gate_witness :
    (JSVal.obj [("name", JSVal.str "Ana")]).optGet "role" ≠ JSVal.str "admin"
    ∧ render true { isAuthenticated := some true,
                    user := JSVal.obj [("name", JSVal.str "Ana")],
                    loading := false } = View.navigate "/dashboard" true :=
  ⟨by simp [JSVal.optGet, List.lookup],
   ((admin_only_gate { isAuthenticated := some true,
                       user := JSVal.obj [("name", JSVal.str "Ana")],
                       loading := false } rfl rfl).1
      (by simp [JSVal.optGet, List.lookup])).1⟩

/-- C3: when a (truthy) identity is forwarded in `location.state.user`, the initial state is
`isAuthenticated = true`, `user` = that identity, `loading = false`; the mount effect
issues no request, so the initial state is the only state of the mount; and with
`adminOnly = false` the first render returns the children. -/
theorem forwarded_identity_skips_check (locationState : JSVal) (r : FetchResult)
    (hfwd : (forwardedUser locationState).truthy = true) :
    initialState locationState
        = { isAuthenticated := some true, user := forwardedUser locationState,
            loading := false }
    ∧ mountEffect locationState = []
    ∧ mountStates locationState r = [initialState locationState]
    ∧ render false (initialState locationState) = View.children := by
  have hinit : initialState locationState
      = { isAuthenticated := some true, user := forwardedUser locationState,
          loading := false } := by
    simp [initialState, hfwd]
  have heff : mountEffect locationState = [] := by simp [mountEffect, hfwd]
  refine ⟨hinit, heff, by simp [mountStates, heff], ?_⟩
  rw [hinit]
  simp [render]

/-- Witness of C3: the identity handed over by the session resolver. -/
theorem forwarded_identity_skips_check_witness :
    (forwardedUser (JSVal.obj [("user", JSVal.obj [("role", JSVal.str "user")])])).truthy
      = true
    ∧ mountEffect (JSVal.obj [("user", JSVal.obj [("role", JSVal.str "user")])]) = []
    ∧ render false
        (initialState (JSVal.obj [("user", JSVal.obj [("role", JSVal.str "user")])]))
      = View.children :=
  have h := forwarded_identity_skips_check
    (JSVal.obj [("user", JSVal.obj [("role", JSVal.str "user")])])
    (FetchResult.rejected "") (by simp [forwardedUser, JSVal.optGet, List.lookup, JSVal.truthy])
  ⟨by simp [forwardedUser, JSVal.optGet, List.lookup, JSVal.truthy], h.2.1, h.2.2.2⟩

/-- C4: a state with `loading = true` renders the loading view, whatever else it holds
(so neither the children nor a redirect); and with no forwarded identity the mount starts
with `loading = true`, every state before the last one of the who-am-I check, whatever its
outcome, still has `loading = true` and renders the loading view, and only the last state,
reached when the check has completed, has `loading = false`. -/
theorem loading_until_resolved (adminOnly : Bool) (locationState : JSVal) (r : FetchResult)
    (hfwd : (forwardedUser locationState).truthy = false) :
    (∀ s : State, render adminOnly { s with loading := true } = View.loading)
    ∧ (initialState locationState).loading = true
    ∧ (∀ s ∈ (mountStates locationState r).dropLast,
        s.loading = true ∧ render adminOnly s = View.loading)
    ∧ (∃ final, (mountStates locationState r).getLast? = some final
        ∧ final.loading = false) := by
  refine ⟨fun s => render_of_loading _ _ rfl, by simp [initialState, hfwd], ?_, ?_⟩
  · rw [mountStates_of_not_forwarded locationState r hfwd]
    intro s hs
    rcases checkAuth_cases r with h | ⟨u, h⟩ <;> rw [h] at hs <;>
      simp only [trace, applyEffect, List.dropLast, List.mem_cons, List.mem_singleton,
        List.not_mem_nil, or_false] at hs <;>
      rcases hs with h | h | h <;> subst h <;> exact ⟨rfl, render_of_loading _ _ rfl⟩
  · rw [mountStates_of_not_forwarded locationState r hfwd]
    rcases checkAuth_cases r with h | ⟨u, h⟩ <;> rw [h] <;> simp [trace, applyEffect]

/-- Witness of C4: a mount with `location.state = null` whose check succeeds. -/
theorem loading_until_resolved_witness :
    (forwardedUser JSVal.null).truthy = false
    ∧ (∀ s ∈ (mountStates JSVal.null
          (FetchResult.response true (Except.ok (JSVal.obj [])))).dropLast,
        s.loading = true ∧ render false s = View.loading) :=
  ⟨rfl, (loading_until_resolved false JSVal.null
    (FetchResult.response true (Except.ok (JSVal.obj []))) rfl).2.2.1⟩

end ProtectedRoute

/-! ## `URLSearchParams`: splitting, decoding, and reading `session_id` -/

namespace URLSearchParams

theorem utf8Encode_append (a b : List Char) :
    utf8Encode (a ++ b) = utf8Encode a ++ utf8Encode b := by
  induction a with
  | nil => rfl
  | cons c cs ih => simp [utf8Encode, ih]

theorem toNat_valid (c : Char) : c.toNat < 0xD800 ∨ (0xDFFF < c.toNat ∧ c.toNat < 0x110000) :=
  c.valid

theorem ascii_of_mem_utf8EncodeChar (c : Char) (b : Nat) (hb : b < 0x80)
    (h : b ∈ utf8EncodeChar c) : c.toNat = b := by
  unfold utf8EncodeChar at h
  split_ifs at h <;> simp at h <;> omega

theorem not_mem_utf8Encode (a : Char) (ha : a.toNat < 0x80) (s : List Char) (h : a ∉ s) :
    a.toNat ∉ utf8Encode s := by
  induction s with
  | nil => simp [utf8Encode]
  | cons c cs ih =>
    simp only [List.mem_cons, not_or] at h
    simp only [utf8Encode, List.mem_append, not_or]
    refine ⟨fun hmem => h.1 ?_, ih h.2⟩
    have := ascii_of_mem_utf8EncodeChar c a.toNat ha hmem
    rw [← Char.ofNat_toNat c, this, Char.ofNat_toNat]

theorem ofNat_eq_of_toNat (c : Char) (n : Nat) (h : n = c.toNat) : Char.ofNat n = c := by
  rw [h, Char.ofNat_toNat]

theorem utf8Decode_lead_emit (b : Nat) (bs : List Nat) (c : Char)
    (h : lead b = Lead.emit c) : utf8Decode none (b :: bs) = c :: utf8Decode none bs := by
  simp [utf8Decode, h]

theorem utf8Decode_lead_pending (b : Nat) (bs : List Nat) (p : Pending)
    (h : lead b = Lead.pending p) : utf8Decode none (b :: bs) = utf8Decode (some p) bs := by
  simp [utf8Decode, h]

theorem utf8Decode_last (p : Pending) (b : Nat) (bs : List Nat)
    (hr : p.lower ≤ b ∧ b ≤ p.upper) (hn : p.bytesNeeded = 1) :
    utf8Decode (some p) (b :: bs)
      = Char.ofNat (p.codePoint * 64 + b % 64) :: utf8Decode none bs := by
  simp [utf8Decode, hr, hn]

theorem utf8Decode_more (p : Pending) (b : Nat) (bs : List Nat)
    (hr : p.lower ≤ b ∧ b ≤ p.upper) (hn : p.bytesNeeded ≠ 1) :
    utf8Decode (some p) (b :: bs)
      = utf8Decode (some ⟨p.codePoint * 64 + b % 64, p.bytesNeeded - 1, 0x80, 0xBF⟩) bs := by
  simp [utf8Decode, hr, hn]

theorem utf8Decode_encodeChar (c : Char) (bs : List Nat) :
    utf8Decode none (utf8EncodeChar c ++ bs) = c :: utf8Decode none bs := by
  have hv := toNat_valid c
  unfold utf8EncodeChar
  split_ifs with h1 h2 h3
  · have hl : lead c.toNat = Lead.emit c := by
      unfold lead
      rw [if_pos (by omega), Char.ofNat_toNat]
    exact utf8Decode_lead_emit _ _ _ hl
  · have hl : lead (0xC0 + c.toNat / 64)
        = Lead.pending ⟨(0xC0 + c.toNat / 64) % 32, 1, 0x80, 0xBF⟩ := by
      unfold lead
      rw [if_neg (by omega), if_pos (by omega)]
    simp only [List.cons_append, List.nil_append]
    rw [utf8Decode_lead_pending _ _ _ hl,
      utf8Decode_last _ _ _ (by constructor <;> simp only <;> omega) rfl]
    simp only
    rw [ofNat_eq_of_toNat c _ (by omega)]
  · have hl : lead (0xE0 + c.toNat / 4096)
        = Lead.pending ⟨(0xE0 + c.toNat / 4096) % 16, 2,
            if 0xE0 + c.toNat / 4096 = 0xE0 then 0xA0 else 0x80,
            if 0xE0 + c.toNat / 4096 = 0xED then 0x9F else 0xBF⟩ := by
      unfold lead
      rw [if_neg (by omega), if_neg (by omega), if_pos (by omega)]
    simp only [List.cons_append, List.nil_append]
    rw [utf8Decode_lead_pending _ _ _ hl,
      utf8Decode_more _ _ _ (by constructor <;> simp only <;> split_ifs <;> omega) (by simp),
      utf8Decode_last _ _ _ (by constructor <;> simp only <;> omega) rfl]
    simp only
    rw [ofNat_eq_of_toNat c _ (by omega)]
  · have hl : lead (0xF0 + c.toNat / 262144)
        = Lead.pending ⟨(0xF0 + c.toNat / 262144) % 8, 3,
            if 0xF0 + c.toNat / 262144 = 0xF0 then 0x90 else 0x80,
            if 0xF0 + c.toNat / 262144 = 0xF4 then 0x8F else 0xBF⟩ := by
      unfold lead
      rw [if_neg (by omega), if_neg (by omega), if_neg (by omega), if_pos (by omega)]
    simp only [List.cons_append, List.nil_append]
    rw [utf8Decode_lead_pending _ _ _ hl,
      utf8Decode_more _ _ _ (by constructor <;> simp only <;> split_ifs <;> omega) (by simp),
      utf8Decode_more _ _ _ (by constructor <;> simp only <;> omega) (by simp),
      utf8Decode_last _ _ _ (by constructor <;> simp only <;> omega) rfl]
    simp only
    rw [ofNat_eq_of_toNat c _ (by omega)]

theorem utf8Decode_utf8Encode (s : List Char) : utf8Decode none (utf8Encode s) = s := by
  induction s with
  | nil => rfl
  | cons c cs ih => rw [utf8Encode, utf8Decode_encodeChar, ih]

theorem splitOn_ne_nil (sep : Nat) (bs : List Nat) : splitOn sep bs ≠ [] := by
  induction bs with
  | nil => simp [splitOn]
  | cons b bs ih =>
    unfold splitOn
    split_ifs
    · simp
    · split <;> simp

theorem splitOn_append_sep (sep : Nat) (a b : List Nat) :
    splitOn sep (a ++ sep :: b) = splitOn sep a ++ splitOn sep b := by
  induction a with
  | nil => simp [splitOn]
  | cons x xs ih =>
    by_cases hx : x = sep
    · simp [splitOn, hx, ih]
    · have hne := splitOn_ne_nil sep xs
      cases hsp : splitOn sep xs with
      | nil => exact absurd hsp hne
      | cons p ps => simp [splitOn, hx, ih, hsp]

theorem splitOn_of_not_mem (sep : Nat) (a : List Nat) (h : sep ∉ a) :
    splitOn sep a = [a] := by
  induction a with
  | nil => rfl
  | cons x xs ih =>
    simp only [List.mem_cons, not_or] at h
    simp [splitOn, Ne.symm h.1, ih h.2]

theorem parse_append_sep (a b : List Nat) : parse (a ++ 0x26 :: b) = parse a ++ parse b := by
  simp [parse, splitOn_append_sep]

theorem parse_of_not_mem (a : List Nat) (h : 0x26 ∉ a) (hne : a ≠ []) :
    parse a = [parsePair a] := by
  simp [parse, splitOn_of_not_mem _ _ h, hne]

theorem percentDecode_of_not_mem (bs : List Nat) (h : 0x25 ∉ bs) : percentDecode bs = bs := by
  induction bs with
  | nil => rfl
  | cons b rest ih =>
    simp only [List.mem_cons, not_or] at h
    have hb : ¬ b = 0x25 := fun e => h.1 e.symm
    have ih := ih h.2
    match rest, ih with
    | [], _ => simp [percentDecode]
    | [x], _ => simp [percentDecode]
    | x :: y :: rest2, ih =>
      rw [percentDecode, if_neg hb, ih]

theorem map_plus_of_not_mem (bs : List Nat) (h : 0x2B ∉ bs) :
    bs.map (fun b => if b = 0x2B then 0x20 else b) = bs := by
  induction bs with
  | nil => rfl
  | cons b rest ih =>
    simp only [List.mem_cons, not_or] at h
    have hb : ¬ b = 0x2B := fun e => h.1 e.symm
    simp [hb, ih h.2]

theorem decodeComponent_utf8Encode (s : List Char) (hplus : '+' ∉ s) (hpct : '%' ∉ s) :
    decodeComponent (utf8Encode s) = String.mk s := by
  have h1 : 0x2B ∉ utf8Encode s := not_mem_utf8Encode '+' (by decide) s hplus
  have h2 : 0x25 ∉ utf8Encode s := not_mem_utf8Encode '%' (by decide) s hpct
  rw [decodeComponent, map_plus_of_not_mem _ h1, percentDecode_of_not_mem _ h2,
    utf8Decode_utf8Encode]

theorem parsePair_session_id (tok : List Char) (hplus : '+' ∉ tok) (hpct : '%' ∉ tok) :
    parsePair (utf8Encode "session_id=".toList ++ utf8Encode tok)
      = ("session_id", String.mk tok) := by
  have hkey : utf8Encode "session_id=".toList
      = [115, 101, 115, 115, 105, 111, 110, 95, 105, 100, 61] := by decide
  have hname : decodeComponent [115, 101, 115, 115, 105, 111, 110, 95, 105, 100]
      = "session_id" := by decide
  rw [hkey, parsePair]
  simp only [List.cons_append, List.nil_append]
  simp [List.takeWhile, List.dropWhile, hname, decodeComponent_utf8Encode tok hplus hpct]

theorem parse_session_id (tok post : List Char)
    (hamp : '&' ∉ tok) (hplus : '+' ∉ tok) (hpct : '%' ∉ tok)
    (hpost : post = [] ∨ ∃ post0, post = '&' :: post0) :
    ∃ rest, parse (utf8Encode ("session_id=".toList ++ tok ++ post))
      = ("session_id", String.mk tok) :: rest := by
  have hkeyAmp : 0x26 ∉ utf8Encode "session_id=".toList := by decide
  have htokAmp : 0x26 ∉ utf8Encode tok := not_mem_utf8Encode '&' (by decide) tok hamp
  have hpiece : 0x26 ∉ utf8Encode "session_id=".toList ++ utf8Encode tok := by
    simp only [List.mem_append, not_or]
    exact ⟨hkeyAmp, htokAmp⟩
  have hne : utf8Encode "session_id=".toList ++ utf8Encode tok ≠ [] := by
    have hk : utf8Encode "session_id=".toList ≠ [] := by decide
    exact fun h => hk (List.append_eq_nil.mp h).1
  rcases hpost with h | ⟨post0, h⟩
  · subst h
    refine ⟨[], ?_⟩
    rw [List.append_nil, utf8Encode_append, parse_of_not_mem _ hpiece hne,
      parsePair_session_id tok hplus hpct]
  · subst h
    refine ⟨parse (utf8Encode post0), ?_⟩
    have henc : utf8Encode ("session_id=".toList ++ tok ++ '&' :: post0)
        = (utf8Encode "session_id=".toList ++ utf8Encode tok) ++ 0x26 :: utf8Encode post0 := by
      rw [utf8Encode_append, utf8Encode_append]
      rfl
    rw [henc, parse_append_sep, parse_of_not_mem _ hpiece hne,
      parsePair_session_id tok hplus hpct]
    rfl

theorem stripQuestionMark_append_amp (pre0 rest : List Char) :
    stripQuestionMark (pre0 ++ '&' :: rest) = stripQuestionMark pre0 ++ '&' :: rest := by
  cases pre0 with
  | nil => simp [stripQuestionMark]
  | cons c cs => by_cases hc : c = '?' <;> simp [stripQuestionMark, hc]

/-- The session id read from a parameter list whose first parameter named `session_id` is
`session_id=tok`, for a token free of `&`, `+` and `%`. -/
theorem get_session_id (pre tok post : List Char)
    (hpre : pre = [] ∨ pre = ['?'] ∨
      ∃ pre0, pre = pre0 ++ ['&'] ∧ get (new (String.mk pre0)) "session_id" = none)
    (hamp : '&' ∉ tok) (hplus : '+' ∉ tok) (hpct : '%' ∉ tok)
    (hpost : post = [] ∨ ∃ post0, post = '&' :: post0) :
    get (new (String.mk (pre ++ ("session_id=".toList ++ tok ++ post)))) "session_id"
      = some (String.mk tok) := by
  obtain ⟨rest, hrest⟩ := parse_session_id tok post hamp hplus hpct hpost
  have hkey : "session_id=".toList ++ tok ++ post
      = 's' :: ("ession_id=".toList ++ tok ++ post) := rfl
  rcases hpre with h | h | ⟨pre0, h, hnone⟩
  · subst h
    have : new (String.mk ([] ++ ("session_id=".toList ++ tok ++ post)))
        = parse (utf8Encode ("session_id=".toList ++ tok ++ post)) := by
      show parse (utf8Encode (stripQuestionMark _)) = _
      rw [List.nil_append, hkey]
      rfl
    rw [this, hrest]
    simp [get]
  · subst h
    have : new (String.mk (['?'] ++ ("session_id=".toList ++ tok ++ post)))
        = parse (utf8Encode ("session_id=".toList ++ tok ++ post)) := rfl
    rw [this, hrest]
    simp [get]
  · subst h
    have : new (String.mk (pre0 ++ ['&'] ++ ("session_id=".toList ++ tok ++ post)))
        = new (String.mk pre0)
          ++ parse (utf8Encode ("session_id=".toList ++ tok ++ post)) := by
      show parse (utf8Encode (stripQuestionMark
          (pre0 ++ ['&'] ++ ("session_id=".toList ++ tok ++ post))))
        = parse (utf8Encode (stripQuestionMark pre0)) ++ _
      rw [List.append_assoc, List.singleton_append, stripQuestionMark_append_amp,
        utf8Encode_append]
      exact parse_append_sep _ _
    rw [this, hrest]
    unfold get at hnone ⊢
    rw [List.lookup_append, hnone]
    simp

end URLSearchParams

/-! ## The session resolver -/

namespace AuthCallback

theorem posts_append (xs ys : List Effect) : posts (xs ++ ys) = posts xs ++ posts ys := by
  induction xs with
  | nil => rfl
  | cons e es ih => cases e <;> simp [posts, ih]

theorem runMountEffects_of_processed (s : State) (hash : String) (outcomes : List FetchResult)
    (h : s.hasProcessed = true) : runMountEffects s hash outcomes = [] := by
  induction outcomes with
  | nil => rfl
  | cons r rs ih => simp [runMountEffects, mountEffect, h, Async.effects, ih]

theorem runMountEffects_cons (hash : String) (r : FetchResult) (rs : List FetchResult) :
    runMountEffects initialState hash (r :: rs) = (processSession hash).effects r := by
  simp [runMountEffects, mountEffect, initialState, runMountEffects_of_processed]

theorem processSession_of_missing (hash : String)
    (h : sessionIdOf hash = none ∨ sessionIdOf hash = some "") :
    processSession hash = { sync := catchBlock "No session ID found", resume := none } := by
  rcases h with h | h <;> simp [processSession, h]

theorem effects_of_token (hash sessionId : String) (r : FetchResult)
    (h : sessionIdOf hash = some sessionId) (hne : sessionId ≠ "") :
    (processSession hash).effects r
      = Effect.postSession sessionId ::
        match r with
        | FetchResult.rejected message => catchBlock message
        | FetchResult.response false _ => catchBlock "Failed to authenticate"
        | FetchResult.response true (Except.error message) => catchBlock message
        | FetchResult.response true (Except.ok user) =>
            [Effect.navigate "/dashboard" user true] := by
  simp [processSession, h, hne, Async.effects]

theorem posts_effects (hash : String) (r : FetchResult) :
    posts ((processSession hash).effects r)
      = match sessionIdOf hash with
        | none => []
        | some sessionId => if sessionId = "" then [] else [sessionId] := by
  cases h : sessionIdOf hash with
  | none => simp [processSession_of_missing hash (Or.inl h), Async.effects, catchBlock, posts]
  | some sessionId =>
    by_cases hne : sessionId = ""
    · subst hne
      simp [processSession_of_missing hash (Or.inr h), Async.effects, catchBlock, posts]
    · rw [effects_of_token hash sessionId r h hne]
      rcases r with m | ⟨_ | _, m | u⟩ <;> simp [hne, catchBlock, posts]

/-- C5: on one mounted instance, however many times the mount effect is executed, at most
one exchange request is issued, and exactly one, carrying the session id of the fragment,
when the effect is executed at least once and that session id is non-empty: the first
execution sets `hasProcessed`, and an execution that finds it set has no effect at all. -/
theorem exchange_at_most_once (hash sessionId : String) (outcomes : List FetchResult) :
    (posts (runMountEffects initialState hash outcomes)).length ≤ 1
    ∧ (outcomes ≠ [] → sessionIdOf hash = some sessionId → sessionId ≠ "" →
        posts (runMountEffects initialState hash outcomes) = [sessionId])
    ∧ (mountEffect initialState hash).1.hasProcessed = true
    ∧ (∀ s : State, s.hasProcessed = true →
        mountEffect s hash = (s, { sync := [], resume := none })
        ∧ runMountEffects s hash outcomes = []) := by
  refine ⟨?_, ?_, by simp [mountEffect, initialState], ?_⟩
  · cases outcomes with
    | nil => simp [runMountEffects, posts]
    | cons r rs =>
      rw [runMountEffects_cons, posts_effects]
      cases sessionIdOf hash with
      | none => simp
      | some t => by_cases ht : t = "" <;> simp [ht]
  · intro hne hsid hnonempty
    cases outcomes with
    | nil => exact absurd rfl hne
    | cons r rs =>
      rw [runMountEffects_cons, posts_effects, hsid]
      simp [hnonempty]
  · intro s hs
    exact ⟨by simp [mountEffect, hs], runMountEffects_of_processed s hash outcomes hs⟩

/-- Witness of C5: the effect fires twice on the fragment `#session_id=abc`. -/
theorem exchange_at_most_once_witness :
    [FetchResult.rejected "x", FetchResult.rejected "x"] ≠ []
    ∧ sessionIdOf "#session_id=abc" = some "abc"
    ∧ "abc" ≠ ""
    ∧ posts (runMountEffects initialState "#session_id=abc"
        [FetchResult.rejected "x", FetchResult.rejected "x"]) = ["abc"] :=
  ⟨by simp, by decide, by decide,
   (exchange_at_most_once "#session_id=abc" "abc"
      [FetchResult.rejected "x", FetchResult.rejected "x"]).2.1
      (by simp) (by decide) (by decide)⟩

theorem effects_of_missing (hash : String) (r : FetchResult)
    (h : sessionIdOf hash = none ∨ sessionIdOf hash = some "") :
    (processSession hash).effects r = catchBlock "No session ID found" := by
  simp [processSession_of_missing hash h, Async.effects]

theorem effects_of_failed (hash : String) (r : FetchResult)
    (hfail : exchangeFailed hash r = true) :
    ∃ message, (processSession hash).effects r
      = ((posts (processSession hash).sync).map Effect.postSession).append
          (catchBlock message) := by
  cases h : sessionIdOf hash with
  | none =>
    exact ⟨"No session ID found", by
      rw [effects_of_missing hash r (Or.inl h), processSession_of_missing hash (Or.inl h)]
      simp [catchBlock, posts]⟩
  | some sessionId =>
    by_cases hne : sessionId = ""
    · subst hne
      exact ⟨"No session ID found", by
        rw [effects_of_missing hash r (Or.inr h), processSession_of_missing hash (Or.inr h)]
        simp [catchBlock, posts]⟩
    · have hsync : (processSession hash).sync = [Effect.postSession sessionId] := by
        simp [processSession, h, hne]
      rw [effects_of_token hash sessionId r h hne, hsync]
      rcases r with m | ⟨_ | _, m | u⟩
      · exact ⟨m, by simp [posts]⟩
      · exact ⟨"Failed to authenticate", by simp [posts]⟩
      · exact ⟨"Failed to authenticate", by simp [posts]⟩
      · exact ⟨m, by simp [posts]⟩
      · simp [exchangeFailed, h, hne] at hfail

/-- C6: whenever the exchange fails (no `session_id` in the fragment or an empty one, a
rejected request, a non-ok response, or an unparsable body), the effects of `processSession`
leave a non-null `error` state, schedule exactly one navigation, to `/login` with `replace`
after 2000 ms, contain no immediate navigation (so none to `/dashboard`), and contain no
exchange request besides the one issued before the failure (the part that runs after the
request issues none, so nothing is retried); with a missing or empty token no request is
issued at all and nothing is awaited. -/
theorem failed_exchange_redirects_to_login (hash : String) (r : FetchResult) (s : State)
    (hfail : exchangeFailed hash r = true) :
    (∃ message, (applyEffects s ((processSession hash).effects r)).error = some message)
    ∧ scheduled ((processSession hash).effects r) = [(2000, "/login", true)]
    ∧ navigations ((processSession hash).effects r) = []
    ∧ (posts ((processSession hash).effects r)).length ≤ 1
    ∧ (∀ k, (processSession hash).resume = some k → posts (k r) = [])
    ∧ ((sessionIdOf hash = none ∨ sessionIdOf hash = some "") →
        posts ((processSession hash).effects r) = []
        ∧ (processSession hash).resume = none) := by
  obtain ⟨message, heff⟩ := effects_of_failed hash r hfail
  have hshape : ∀ ids : List String,
      (∃ m, (applyEffects s ((ids.map Effect.postSession).append (catchBlock message))).error
          = some m)
      ∧ scheduled ((ids.map Effect.postSession).append (catchBlock message))
          = [(2000, "/login", true)]
      ∧ navigations ((ids.map Effect.postSession).append (catchBlock message)) = [] := by
    intro ids
    induction ids generalizing s with
    | nil => exact ⟨⟨message, rfl⟩, rfl, rfl⟩
    | cons i is ih => exact ih s
  refine ⟨?_, ?_, ?_, ?_, ?_, ?_⟩
  · rw [heff]; exact (hshape _).1
  · rw [heff]; exact (hshape _).2.1
  · rw [heff]; exact (hshape _).2.2
  · rw [posts_effects]
    cases sessionIdOf hash with
    | none => simp
    | some t => by_cases ht : t = "" <;> simp [ht]
  · intro k hk
    cases h : sessionIdOf hash with
    | none => simp [processSession_of_missing hash (Or.inl h)] at hk
    | some sessionId =>
      by_cases hne : sessionId = ""
      · subst hne
        simp [processSession_of_missing hash (Or.inr h)] at hk
      · simp only [processSession, h, hne, if_false, Option.some.injEq] at hk
        subst hk
        rcases r with m | ⟨_ | _, m | u⟩ <;> simp [catchBlock, posts]
  · intro hmissing
    refine ⟨?_, by rw [processSession_of_missing hash hmissing]⟩
    rw [effects_of_missing hash r hmissing]
    rfl

/-- Witness of C6: a fragment with a token whose exchange answers 401. -/
theorem failed_exchange_redirects_to_login_witness :
    exchangeFailed "#session_id=abc" (FetchResult.response false (Except.ok JSVal.null)) = true
    ∧ scheduled ((processSession "#session_id=abc").effects
        (FetchResult.response false (Except.ok JSVal.null))) = [(2000, "/login", true)]
    ∧ navigations ((processSession "#session_id=abc").effects
        (FetchResult.response false (Except.ok JSVal.null))) = [] :=
  have h := failed_exchange_redirects_to_login "#session_id=abc"
    (FetchResult.response false (Except.ok JSVal.null)) initialState (by decide)
  ⟨by decide, h.2.1, h.2.2.1⟩

theorem includesChars_of_isPrefixOf (hay needle : List Char)
    (h : needle.isPrefixOf hay = true) : includesChars hay needle = true := by
  cases hay with
  | nil =>
    cases needle with
    | nil => rfl
    | cons c cs => simp [List.isPrefixOf] at h
  | cons c cs => simp [includesChars, h]

theorem includesChars_append (a needle b : List Char) :
    includesChars (a ++ (needle ++ b)) needle = true := by
  induction a with
  | nil =>
    exact includesChars_of_isPrefixOf _ _ (by simp)
  | cons c cs ih => simp [includesChars, ih]

/-- C7, as amended: for a fragment `#` `pre` `session_id=` `tok` `post` in which `pre` is
empty, or `?`, or a parameter list without a parameter named `session_id` followed by `&`,
`tok` is non-empty and has no `&`, `+` or `%`, and `post` is empty or starts with `&`,
`AppRouter` dispatches to the resolver, the session id read from the fragment is exactly
`tok`, and the one exchange request issued carries it. -/
theorem session_id_extracted (pre tok post : List Char) (r : FetchResult)
    (hpre : pre = [] ∨ pre = ['?'] ∨
      ∃ pre0, pre = pre0 ++ ['&']
        ∧ URLSearchParams.get (URLSearchParams.new (String.mk pre0)) "session_id" = none)
    (hne : tok ≠ [])
    (hamp : '&' ∉ tok) (hplus : '+' ∉ tok) (hpct : '%' ∉ tok)
    (hpost : post = [] ∨ ∃ post0, post = '&' :: post0) :
    AppRouter.render (String.mk ('#' :: (pre ++ ("session_id=".toList ++ tok ++ post))))
        = AppRouter.View.authCallback
    ∧ sessionIdOf (String.mk ('#' :: (pre ++ ("session_id=".toList ++ tok ++ post))))
        = some (String.mk tok)
    ∧ posts ((processSession
          (String.mk ('#' :: (pre ++ ("session_id=".toList ++ tok ++ post))))).effects r)
        = [String.mk tok] := by
  have hsid : sessionIdOf (String.mk ('#' :: (pre ++ ("session_id=".toList ++ tok ++ post))))
      = some (String.mk tok) :=
    URLSearchParams.get_session_id pre tok post hpre hamp hplus hpct hpost
  have htok : String.mk tok ≠ "" := fun h => hne (congrArg String.data h)
  refine ⟨?_, hsid, ?_⟩
  · have hinc : includesChars ('#' :: (pre ++ ("session_id=".toList ++ tok ++ post)))
        "session_id=".toList = true := by
      have := includesChars_append ('#' :: pre) "session_id=".toList (tok ++ post)
      simpa [List.append_assoc] using this
    show (if includesChars ('#' :: (pre ++ ("session_id=".toList ++ tok ++ post)))
        "session_id=".toList = true then AppRouter.View.authCallback
      else AppRouter.View.routes) = AppRouter.View.authCallback
    rw [if_pos hinc]
  · rw [posts_effects, hsid]
    simp [htok]

/-- Witness of C7: the fragment `#state=xyz&session_id=tok-1&lang=en`. -/
theorem session_id_extracted_witness :
    URLSearchParams.get (URLSearchParams.new (String.mk "state=xyz".toList)) "session_id" = none
    ∧ sessionIdOf "#state=xyz&session_id=tok-1&lang=en" = some "tok-1"
    ∧ posts ((processSession "#state=xyz&session_id=tok-1&lang=en").effects
        (FetchResult.rejected "offline")) = ["tok-1"] :=
  have h := session_id_extracted ("state=xyz".toList ++ ['&']) "tok-1".toList "&lang=en".toList
    (FetchResult.rejected "offline")
    (Or.inr (Or.inr ⟨"state=xyz".toList, rfl, by decide⟩))
    (by decide) (by decide) (by decide) (by decide) (Or.inr ⟨"lang=en".toList, rfl⟩)
  ⟨by decide, h.2.1, h.2.2⟩

/-- C7 fails as stated.  The fragment `#xsession_id=abc` contains `session_id=abc`, so
`AppRouter` dispatches to the resolver, but its only parameter is named `xsession_id`: no
session id is read and no request is sent.  In `#session_id=&session_id=abc` the first
parameter named `session_id` is empty: no request either.  And the token of
`#session_id=a+b%21` is sent form-decoded, as `a b!`. -/
theorem session_id_not_always_extracted :
    (AppRouter.render "#xsession_id=abc" = AppRouter.View.authCallback
      ∧ sessionIdOf "#xsession_id=abc" = none
      ∧ posts ((processSession "#xsession_id=abc").effects
          (FetchResult.response true (Except.ok (JSVal.obj [])))) = [])
    ∧ (AppRouter.render "#session_id=&session_id=abc" = AppRouter.View.authCallback
      ∧ sessionIdOf "#session_id=&session_id=abc" = some ""
      ∧ posts ((processSession "#session_id=&session_id=abc").effects
          (FetchResult.response true (Except.ok (JSVal.obj [])))) = [])
    ∧ (AppRouter.render "#session_id=a+b%21" = AppRouter.View.authCallback
      ∧ posts ((processSession "#session_id=a+b%21").effects
          (FetchResult.response true (Except.ok (JSVal.obj [])))) = ["a b!"]) := by
  refine ⟨⟨by decide, by decide, ?_⟩, ⟨by decide, by decide, ?_⟩, ⟨by decide, ?_⟩⟩
  · rw [posts_effects]
    have h : sessionIdOf "#xsession_id=abc" = none := by decide
    rw [h]
  · rw [posts_effects]
    have h : sessionIdOf "#session_id=&session_id=abc" = some "" := by decide
    rw [h]
    rfl
  · rw [posts_effects]
    have h : sessionIdOf "#session_id=a+b%21" = some "a b!" := by decide
    rw [h]
    rfl

end AuthCallback

/-! ## The application wizard -/

namespace ApplyVisa

theorem creates_append (xs ys : List Effect) :
    creates (xs ++ ys) = creates xs ++ creates ys := by
  induction xs with
  | nil => rfl
  | cons e es ih => cases e <;> simp [creates, ih]

theorem creates_advance (s : State) : creates (advance s) = [] := by
  unfold advance
  split_ifs <;> rfl

theorem creates_handleBack (s : State) : creates (handleBack s) = [] := by
  unfold handleBack
  split_ifs <;> rfl

theorem creates_saveApplicationResume (r : FetchResult) :
    creates (saveApplicationResume r) = [] := by
  rcases r with m | ⟨_ | _, m | data⟩ <;> try rfl
  simp only [saveApplicationResume]
  cases data.member "application_id" <;> rfl

theorem applicationId_advance (s : State) :
    (applyEffects s (advance s)).applicationId = s.applicationId := by
  unfold advance
  split_ifs <;> rfl

theorem applicationId_handleBack (s : State) :
    (applyEffects s (handleBack s)).applicationId = s.applicationId := by
  unfold handleBack
  split_ifs <;> rfl

theorem currentStep_handleBack (s : State) :
    (applyEffects s (handleBack s)).currentStep = s.currentStep - 1 := by
  unfold handleBack
  split_ifs with h
  · rfl
  · simp only [applyEffects, List.foldl]
    omega

theorem handleNext_of_guard (s : State) (r : FetchResult)
    (h : s.currentStep = 2 ∧ s.applicationId.truthy = false) :
    (handleNext s).effects r
      = Effect.postApplication (applicationBody s.formData)
          :: (saveApplicationResume r ++ advance s) := by
  simp [handleNext, h, Async.effects, saveApplication]

theorem handleNext_of_not_guard (s : State) (r : FetchResult)
    (h : ¬ (s.currentStep = 2 ∧ s.applicationId.truthy = false)) :
    (handleNext s).effects r = advance s := by
  simp only [handleNext, if_neg h, Async.effects, List.append_nil]

theorem creates_handleNext (s : State) (r : FetchResult) :
    creates ((handleNext s).effects r)
      = if s.currentStep = 2 ∧ s.applicationId.truthy = false
        then [applicationBody s.formData] else [] := by
  split_ifs with h
  · rw [handleNext_of_guard s r h]
    simp [creates, creates_append, creates_saveApplicationResume, creates_advance]
  · rw [handleNext_of_not_guard s r h, creates_advance]

theorem action_of_truthy (s : State) (a : Action) (h : s.applicationId.truthy = true) :
    creates (actionEffects s a) = []
    ∧ (applyEffects s (actionEffects s a)).applicationId = s.applicationId := by
  cases a with
  | next r =>
    have hg : ¬ (s.currentStep = 2 ∧ s.applicationId.truthy = false) := by simp [h]
    simp only [actionEffects]
    rw [handleNext_of_not_guard s r hg]
    exact ⟨creates_advance s, applicationId_advance s⟩
  | back => exact ⟨creates_handleBack s, applicationId_handleBack s⟩

/-- C8, as amended: once `applicationId` is truthy (neither `null` nor `undefined`, `0`, the
empty string or `false`), no sequence of clicks on Next and Back issues a create request,
and `applicationId` keeps its value. -/
theorem no_create_once_id_truthy (s : State) (actions : List Action)
    (h : s.applicationId.truthy = true) :
    creates (run s actions).2 = []
    ∧ (run s actions).1.applicationId = s.applicationId := by
  induction actions generalizing s with
  | nil => exact ⟨rfl, rfl⟩
  | cons a as ih =>
    obtain ⟨hc, hid⟩ := action_of_truthy s a h
    obtain ⟨hc2, hid2⟩ := ih (applyEffects s (actionEffects s a)) (by rw [hid]; exact h)
    simp only [run]
    exact ⟨by rw [creates_append, hc, hc2]; rfl, by rw [hid2, hid]⟩

/-- Witness of C8: back from the document-upload step, then forward twice, with the id
`APP-1`. -/
theorem no_create_once_id_truthy_witness :
    (JSVal.str "APP-1").truthy = true
    ∧ creates (run { initialState with currentStep := 3, applicationId := JSVal.str "APP-1" }
        [Action.back, Action.next (FetchResult.rejected ""),
         Action.next (FetchResult.rejected "")]).2 = []
    ∧ (run { initialState with currentStep := 3, applicationId := JSVal.str "APP-1" }
        [Action.back, Action.next (FetchResult.rejected ""),
         Action.next (FetchResult.rejected "")]).1.applicationId = JSVal.str "APP-1" :=
  ⟨by decide,
   no_create_once_id_truthy
     { initialState with currentStep := 3, applicationId := JSVal.str "APP-1" }
     [Action.back, Action.next (FetchResult.rejected ""),
      Action.next (FetchResult.rejected "")] (by decide)⟩

/-- C8 fails as stated.  From the initial state, two clicks on Next reach step 2; the third
issues the create request, which is answered with the empty string as `application_id`;
`applicationId` is then `''`, not `null`.  Back and Next again: `!applicationId` holds for
`''`, and a second create request is issued. -/
theorem second_create_with_falsy_id :
    (run initialState
        [Action.next (FetchResult.rejected ""), Action.next (FetchResult.rejected ""),
         Action.next (FetchResult.response true
            (Except.ok (JSVal.obj [("application_id", JSVal.str "")])))]).1.applicationId
      = JSVal.str ""
    ∧ JSVal.str "" ≠ JSVal.null
    ∧ (run initialState
        [Action.next (FetchResult.rejected ""), Action.next (FetchResult.rejected ""),
         Action.next (FetchResult.response true
            (Except.ok (JSVal.obj [("application_id", JSVal.str "")])))]).1.currentStep = 3
    ∧ (creates (run initialState
        [Action.next (FetchResult.rejected ""), Action.next (FetchResult.rejected ""),
         Action.next (FetchResult.response true
            (Except.ok (JSVal.obj [("application_id", JSVal.str "")]))),
         Action.back,
         Action.next (FetchResult.rejected "")]).2).length = 2 := by
  refine ⟨rfl, ?_, rfl, rfl⟩
  intro h
  cases h

theorem no_create_without_next_at_two (s : State) (actions : List Action)
    (h : nextAtStepTwo s actions = false) : creates (run s actions).2 = [] := by
  induction actions generalizing s with
  | nil => rfl
  | cons a as ih =>
    cases a with
    | next r =>
      simp only [nextAtStepTwo, Bool.or_eq_false_iff, beq_eq_false_iff_ne, ne_eq] at h
      have hg : ¬ (s.currentStep = 2 ∧ s.applicationId.truthy = false) := fun hg => h.1 hg.1
      have hrest := ih _ h.2
      simp only [actionEffects] at hrest
      simp only [run, creates_append, actionEffects, creates_handleNext, if_neg hg, hrest,
        List.append_nil]
    | back =>
      simp only [nextAtStepTwo] at h
      have hrest := ih _ h
      simp only [actionEffects] at hrest
      simp only [run, creates_append, actionEffects, creates_handleBack, hrest,
        List.append_nil]

/-- C9, as amended: `handleNext` issues a create request if and only if `currentStep` is 2
and `applicationId` is falsy (`null`, but also `undefined`, `0`, the empty string, `false`),
and then it issues exactly one, carrying the form data; and a sequence of clicks on Next
and Back in which no click on Next happens at step 2 issues no create request. -/
theorem create_iff_step_two_and_falsy_id (s : State) (r : FetchResult)
    (actions : List Action) :
    (creates ((handleNext s).effects r) ≠ []
        ↔ s.currentStep = 2 ∧ s.applicationId.truthy = false)
    ∧ (s.currentStep = 2 ∧ s.applicationId.truthy = false →
        creates ((handleNext s).effects r) = [applicationBody s.formData])
    ∧ (nextAtStepTwo s actions = false → creates (run s actions).2 = []) := by
  refine ⟨?_, ?_, no_create_without_next_at_two s actions⟩
  · rw [creates_handleNext]
    split_ifs with h
    · simp [h]
    · simp [h]
  · intro h
    rw [creates_handleNext, if_pos h]

/-- Witness of C9: at step 2 of a fresh wizard a click on Next creates the application;
one click on Next and one on Back from the start create nothing. -/
theorem create_iff_step_two_and_falsy_id_witness :
    ({ initialState with currentStep := 2 } : State).currentStep = 2
    ∧ creates ((handleNext { initialState with currentStep := 2 }).effects
        (FetchResult.rejected "")) = [applicationBody initialState.formData]
    ∧ nextAtStepTwo initialState [Action.next (FetchResult.rejected ""), Action.back] = false
    ∧ creates (run initialState [Action.next (FetchResult.rejected ""), Action.back]).2 = [] :=
  have h := create_iff_step_two_and_falsy_id { initialState with currentStep := 2 }
    (FetchResult.rejected "") []
  have h0 := create_iff_step_two_and_falsy_id initialState (FetchResult.rejected "")
    [Action.next (FetchResult.rejected ""), Action.back]
  ⟨rfl, h.2.1 ⟨rfl, rfl⟩, rfl, h0.2.2 rfl⟩

/-- C9 fails as stated: at step 2 with `applicationId` the empty string, which is not
`null`, `handleNext` issues the create request. -/
theorem create_with_empty_string_id :
    ({ initialState with currentStep := 2, applicationId := JSVal.str "" } : State).applicationId
      ≠ JSVal.null
    ∧ creates ((handleNext
          { initialState with currentStep := 2, applicationId := JSVal.str "" }).effects
        (FetchResult.rejected ""))
      = [applicationBody initialState.formData] := by
  refine ⟨?_, rfl⟩
  intro h
  cases h

theorem handleDocumentUpload_of_falsy (s : State) (docType : String) (file : Option String)
    (r : FetchResult) (h : s.applicationId.truthy = false) :
    (handleDocumentUpload s docType file).effects r
      = [Effect.toastError "Please complete previous steps first"] := by
  simp [handleDocumentUpload, h, Async.effects]

/-- C10: for every document type and file, when `applicationId` is `null`,
`handleDocumentUpload` does nothing but show the error notification: it issues no request
and awaits nothing, and the `documents` state is unchanged. -/
theorem upload_rejected_without_id (s : State) (docType : String) (file : Option String)
    (r : FetchResult) (h : s.applicationId = JSVal.null) :
    (handleDocumentUpload s docType file).effects r
        = [Effect.toastError "Please complete previous steps first"]
    ∧ errorToasts ((handleDocumentUpload s docType file).effects r)
        = ["Please complete previous steps first"]
    ∧ requestCount ((handleDocumentUpload s docType file).effects r) = 0
    ∧ (handleDocumentUpload s docType file).resume.isNone = true
    ∧ (applyEffects s ((handleDocumentUpload s docType file).effects r)).documents
        = s.documents := by
  have hf : s.applicationId.truthy = false := by rw [h]; rfl
  have hres : (handleDocumentUpload s docType file).resume.isNone = true := by
    simp [handleDocumentUpload, hf]
  rw [handleDocumentUpload_of_falsy s docType file r hf]
  exact ⟨rfl, rfl, rfl, hres, rfl⟩

/-- Witness of C10: a passport file chosen in a fresh wizard. -/
theorem upload_rejected_without_id_witness :
    initialState.applicationId = JSVal.null
    ∧ requestCount ((handleDocumentUpload initialState "passport" (some "p.pdf")).effects
        (FetchResult.response true (Except.ok JSVal.null))) = 0
    ∧ (applyEffects initialState
        ((handleDocumentUpload initialState "passport" (some "p.pdf")).effects
          (FetchResult.response true (Except.ok JSVal.null)))).documents
      = initialState.documents :=
  have h := upload_rejected_without_id initialState "passport" (some "p.pdf")
    (FetchResult.response true (Except.ok JSVal.null)) rfl
  ⟨rfl, h.2.2.1, h.2.2.2.2⟩

end ApplyVisa

/-! ## The application wizard: submission and required fields -/

namespace ApplyVisa

theorem handleSubmit_of_falsy (s : State) (r : FetchResult)
    (h : s.applicationId.truthy = false) :
    (handleSubmit s).effects r = [Effect.toastError "Application not created"] := by
  simp [handleSubmit, h, Async.effects]

theorem handleSubmit_of_truthy (s : State) (r : FetchResult)
    (h : s.applicationId.truthy = true) :
    (handleSubmit s).effects r
      = Effect.postSubmit s.applicationId ::
        match r with
        | FetchResult.rejected _ =>
            [Effect.consoleError, Effect.toastError "Failed to submit application"]
        | FetchResult.response false _ => []
        | FetchResult.response true _ =>
            [Effect.toastSuccess "Application submitted successfully!",
             Effect.navigate "/dashboard"] := by
  simp [handleSubmit, h, Async.effects]

/-- C11, as amended: when `applicationId` is falsy (`null`, and also `undefined`, `0`, the
empty string, `false`) `handleSubmit` issues no request, shows the error notification and
does not navigate; when `applicationId` is truthy it issues exactly one request, the submit
request for that id, and navigates, to `/dashboard`, if and only if the response is ok. -/
theorem submit_requires_truthy_id (s : State) (r : FetchResult) :
    (s.applicationId.truthy = false →
        requestCount ((handleSubmit s).effects r) = 0
        ∧ errorToasts ((handleSubmit s).effects r) = ["Application not created"]
        ∧ navigations ((handleSubmit s).effects r) = [])
    ∧ (s.applicationId.truthy = true →
        requestCount ((handleSubmit s).effects r) = 1
        ∧ submits ((handleSubmit s).effects r) = [s.applicationId]
        ∧ (navigations ((handleSubmit s).effects r) ≠ []
            ↔ ∃ json, r = FetchResult.response true json)
        ∧ ((∃ json, r = FetchResult.response true json) →
            navigations ((handleSubmit s).effects r) = ["/dashboard"])) := by
  constructor
  · intro h
    rw [handleSubmit_of_falsy s r h]
    exact ⟨rfl, rfl, rfl⟩
  · intro h
    rw [handleSubmit_of_truthy s r h]
    rcases r with m | ⟨_ | _, json⟩
    · exact ⟨rfl, rfl, by simp [navigations], by simp⟩
    · exact ⟨rfl, rfl, by simp [navigations], by simp⟩
    · exact ⟨rfl, rfl, by simp [navigations], fun _ => rfl⟩

/-- Witness of C11: the review step with the id `APP-1` and an ok response. -/
theorem submit_requires_truthy_id_witness :
    (JSVal.str "APP-1").truthy = true
    ∧ submits ((handleSubmit
          { initialState with currentStep := 4, applicationId := JSVal.str "APP-1" }).effects
        (FetchResult.response true (Except.ok JSVal.null))) = [JSVal.str "APP-1"]
    ∧ navigations ((handleSubmit
          { initialState with currentStep := 4, applicationId := JSVal.str "APP-1" }).effects
        (FetchResult.response true (Except.ok JSVal.null))) = ["/dashboard"] :=
  have h := (submit_requires_truthy_id
    { initialState with currentStep := 4, applicationId := JSVal.str "APP-1" }
    (FetchResult.response true (Except.ok JSVal.null))).2 (by decide)
  ⟨by decide, h.2.1, h.2.2.2 ⟨_, rfl⟩⟩

/-- C11 fails as stated: at the review step with `applicationId` the empty string, which is
not `null`, `handleSubmit` issues no request and shows the error notification. -/
theorem no_submit_with_empty_string_id :
    ({ initialState with currentStep := 4, applicationId := JSVal.str "" } : State).applicationId
      ≠ JSVal.null
    ∧ requestCount ((handleSubmit
          { initialState with currentStep := 4, applicationId := JSVal.str "" }).effects
        (FetchResult.response true (Except.ok JSVal.null))) = 0
    ∧ errorToasts ((handleSubmit
          { initialState with currentStep := 4, applicationId := JSVal.str "" }).effects
        (FetchResult.response true (Except.ok JSVal.null))) = ["Application not created"] := by
  refine ⟨?_, rfl, rfl⟩
  intro h
  cases h

/-- C12 does not hold of the code: `handleNext` never looks at the form data.  In the fresh
wizard at step 1 all eight required fields are empty and a click on Next advances to step
2; at step 2 all four required fields are empty and a click on Next issues the create
request, with the empty fields in its body, and advances to step 3. -/
theorem next_ignores_required_fields :
    missingRequired { initialState with currentStep := 1 } = true
    ∧ (applyEffects { initialState with currentStep := 1 }
        ((handleNext { initialState with currentStep := 1 }).effects
          (FetchResult.rejected ""))).currentStep = 2
    ∧ missingRequired { initialState with currentStep := 2 } = true
    ∧ creates ((handleNext { initialState with currentStep := 2 }).effects
        (FetchResult.response true
          (Except.ok (JSVal.obj [("application_id", JSVal.str "APP-1")]))))
      = [applicationBody initialState.formData]
    ∧ (applyEffects { initialState with currentStep := 2 }
        ((handleNext { initialState with currentStep := 2 }).effects
          (FetchResult.response true
            (Except.ok (JSVal.obj [("application_id", JSVal.str "APP-1")]))))).currentStep
      = 3 := by
  refine ⟨by decide, rfl, by decide, rfl, rfl⟩

end ApplyVisa

/-! ## Strict equality -/

namespace JSVal

mutual
theorem strictEq_iff (a b : JSVal) : strictEq a b = true ↔ a = b := by
  cases a with
  | undefined => cases b <;> simp [strictEq]
  | null => cases b <;> simp [strictEq]
  | bool x => cases b <;> simp [strictEq]
  | num x => cases b <;> simp [strictEq]
  | str x => cases b <;> simp [strictEq]
  | arr xs =>
    cases b with
    | arr ys => simp [strictEq, strictEqList_iff xs ys]
    | _ => simp [strictEq]
  | obj fs =>
    cases b with
    | obj gs => simp [strictEq, strictEqFields_iff fs gs]
    | _ => simp [strictEq]
theorem strictEqList_iff (xs ys : List JSVal) : strictEqList xs ys = true ↔ xs = ys := by
  cases xs with
  | nil => cases ys <;> simp [strictEqList]
  | cons x xs =>
    cases ys with
    | nil => simp [strictEqList]
    | cons y ys => simp [strictEqList, strictEq_iff x y, strictEqList_iff xs ys]
theorem strictEqFields_iff (fs gs : List (String × JSVal)) :
    strictEqFields fs gs = true ↔ fs = gs := by
  cases fs with
  | nil => cases gs <;> simp [strictEqFields]
  | cons f fs =>
    cases gs with
    | nil => cases f; simp [strictEqFields]
    | cons g gs =>
      obtain ⟨k, v⟩ := f
      obtain ⟨l, w⟩ := g
      simp [strictEqFields, strictEq_iff v w, strictEqFields_iff fs gs, and_assoc]
end

theorem strictEq_str (v : JSVal) (t : String) :
    v.strictEq (JSVal.str t) = true ↔ v = JSVal.str t :=
  strictEq_iff v (JSVal.str t)

/-! ### Complete application records -/

theorem optGet_of_hasStr (v : JSVal) (key : String) (h : v.hasStr key = true) :
    ∃ t, v.optGet key = str t := by
  unfold hasStr at h
  split at h
  · next t ht => exact ⟨t, ht⟩
  · exact absurd h (by decide)

theorem obj_of_hasStr (v : JSVal) (key : String) (h : v.hasStr key = true) :
    ∃ fields, v = obj fields := by
  cases v <;> first | exact ⟨_, rfl⟩ | exact absurd h (by simp [hasStr, optGet])

theorem member_of_obj (fields : List (String × JSVal)) (key : String) :
    (obj fields).member key = some ((obj fields).optGet key) := rfl

theorem convertible_str (t : String) : (str t).convertible = true := by
  simp [convertible]

theorem facts_of_record (v : JSVal) (h : v.isApplicationRecord = true) :
    v.truthy = true
    ∧ (∃ t, v.optGet "status" = str t)
    ∧ (v.optGet "created_at").localeDate = some ()
    ∧ (∀ key, ((v.optGet "personal_info").member key).isSome = true)
    ∧ (∀ key, ((v.optGet "travel_details").member key).isSome = true)
    ∧ ((v.optGet "admin_notes").truthy = true → ∃ t, v.optGet "admin_notes" = str t) := by
  simp only [isApplicationRecord, Bool.and_eq_true] at h
  obtain ⟨⟨⟨⟨⟨⟨h1, h2⟩, h3⟩, h4⟩, h5⟩, h6⟩, h7⟩ := h
  obtain ⟨fields, hv⟩ := obj_of_hasStr v _ h3
  obtain ⟨created, hc⟩ := optGet_of_hasStr v _ h4
  have hp : (v.optGet "personal_info").hasStr "full_name" = true := by
    simp [personalInfoKeys] at h5
    exact h5.1
  have ht : (v.optGet "travel_details").hasStr "purpose" = true := by
    simp [travelDetailsKeys] at h6
    exact h6.1
  obtain ⟨pf, hpf⟩ := obj_of_hasStr _ _ hp
  obtain ⟨tf, htf⟩ := obj_of_hasStr _ _ ht
  refine ⟨by rw [hv]; rfl, optGet_of_hasStr v _ h3, ?_, ?_, ?_, ?_⟩
  · rw [hc]
    simp [localeDate, convertible]
  · intro key
    rw [hpf]
    rfl
  · intro key
    rw [htf]
    rfl
  · intro hn
    cases hnotes : v.optGet "admin_notes" with
    | str t => exact ⟨t, rfl⟩
    | undefined => rw [hnotes] at hn; exact absurd hn (by decide)
    | null => rw [hnotes] at hn; exact absurd hn (by decide)
    | bool b => rw [hnotes] at h7; simp at h7
    | num n => rw [hnotes] at h7; simp at h7
    | arr xs => rw [hnotes] at h7; simp at h7
    | obj fs => rw [hnotes] at h7; simp at h7

theorem exampleApplication_record (status : String) :
    (exampleApplication status).isApplicationRecord = true := by
  rfl

theorem exampleApplicationWithNotes_record (status notes : String) :
    (exampleApplicationWithNotes status notes).isApplicationRecord = true := by
  rfl

end JSVal

/-! ## The admin review view -/

namespace AdminReview

theorem updateDisabled_iff (s : State) :
    updateDisabled s = true
      ↔ s.updating = true ∨ s.selectedStatus = s.application.optGet "status" := by
  simp [updateDisabled, JSVal.strictEq_iff]

theorem reviewPage_of_record (s : State) (h : s.application.isApplicationRecord = true) :
    reviewPage s
      = some (View.review (updateDisabled s)
          (if s.updating then "Updating..." else "Update Status")) := by
  obtain ⟨_, _, hd, hp, ht, _⟩ := JSVal.facts_of_record s.application h
  have hg : (((s.application.optGet "created_at").localeDate).isSome
      && JSVal.personalInfoKeys.all
          (fun key => ((s.application.optGet "personal_info").member key).isSome)
      && JSVal.travelDetailsKeys.all
          (fun key => ((s.application.optGet "travel_details").member key).isSome)) = true := by
    simp [hd, hp, ht]
  unfold reviewPage
  rw [if_pos hg]

theorem reviewPage_eq_some (s : State) (v : View) (h : reviewPage s = some v) :
    v = View.review (updateDisabled s) (if s.updating then "Updating..." else "Update Status") := by
  unfold reviewPage at h
  split at h
  · injection h with h
    exact h.symm
  · exact absurd h (by simp)

theorem render_of_loaded (s : State)
    (hl : s.loading = false) (hrec : s.application.isApplicationRecord = true) :
    render s
      = some (View.review (updateDisabled s)
          (if s.updating then "Updating..." else "Update Status")) := by
  have ha := (JSVal.facts_of_record s.application hrec).1
  simp only [render, hl, ha]
  exact reviewPage_of_record s hrec

theorem render_eq_review (s : State) (disabled : Bool) (label : String)
    (h : render s = some (View.review disabled label)) :
    s.loading = false ∧ s.application.truthy = true ∧ updateDisabled s = disabled
      ∧ label = (if s.updating then "Updating..." else "Update Status") := by
  by_cases hl : s.loading = true
  · simp [render, hl] at h
  · by_cases ha : s.application.truthy = false
    · simp [render, hl, ha] at h
    · have hl0 : s.loading = false := by simpa using hl
      have ha0 : s.application.truthy = true := by simpa using ha
      have h2 : reviewPage s = some (View.review disabled label) := by
        simpa [render, hl0, ha0] using h
      have h3 := reviewPage_eq_some s _ h2
      injection h3 with h4 h5
      exact ⟨hl0, ha0, h4.symm, h5⟩

/-- C13, as amended: in every state in which the review page is rendered, the Update Status
control is disabled exactly when a status update is in flight or the selected status equals
the persisted status; so, when no update is in flight, exactly when the selected status
equals the persisted status.  The page is rendered in every loaded state whose application
is a complete record. -/
theorem update_disabled_iff_updating_or_same (s : State) :
    (∀ disabled label, render s = some (View.review disabled label) →
        (disabled = true
          ↔ s.updating = true ∨ s.selectedStatus = s.application.optGet "status")
        ∧ (s.updating = false →
            (disabled = true ↔ s.selectedStatus = s.application.optGet "status"))
        ∧ label = (if s.updating then "Updating..." else "Update Status"))
    ∧ (s.loading = false → s.application.isApplicationRecord = true →
        render s
          = some (View.review (updateDisabled s)
              (if s.updating then "Updating..." else "Update Status"))) := by
  refine ⟨?_, render_of_loaded s⟩
  intro disabled label h
  obtain ⟨_, _, hd, hlabel⟩ := render_eq_review s disabled label h
  rw [← hd]
  refine ⟨updateDisabled_iff s, ?_, hlabel⟩
  intro hu
  rw [updateDisabled_iff, hu]
  simp

/-- Witness of C13: a complete record with status `submitted`, loaded, with `approved`
selected and no update in flight: the page is rendered and the control is enabled, the
selected status being different from the persisted one. -/
theorem update_disabled_iff_updating_or_same_witness :
    render { initialState with
              loading := false
              application := JSVal.exampleApplication "submitted"
              selectedStatus := JSVal.str "approved" }
      = some (View.review false "Update Status")
    ∧ (false = true
        ↔ JSVal.str "approved" = (JSVal.exampleApplication "submitted").optGet "status") :=
  have h := update_disabled_iff_updating_or_same
    { initialState with
        loading := false
        application := JSVal.exampleApplication "submitted"
        selectedStatus := JSVal.str "approved" }
  have hr : render { initialState with
              loading := false
              application := JSVal.exampleApplication "submitted"
              selectedStatus := JSVal.str "approved" }
      = some (View.review false "Update Status") := h.2 rfl rfl
  ⟨hr, (h.1 false "Update Status" hr).2.1 rfl⟩

/-- C13 fails as stated: a complete record with status `submitted`, loaded, with `approved`
selected: the page is rendered with the control enabled; once `handleUpdateStatus` has set
`updating` and issued its request, the control is disabled although the selected status
differs from the persisted one. -/
theorem disabled_in_flight_with_other_status :
    render { initialState with
              loading := false
              application := JSVal.exampleApplication "submitted"
              selectedStatus := JSVal.str "approved" }
      = some (View.review false "Update Status")
    ∧ render (applyEffects
        { initialState with
            loading := false
            application := JSVal.exampleApplication "submitted"
            selectedStatus := JSVal.str "approved" }
        (handleUpdateStatus "app_1"
          { initialState with
              loading := false
              application := JSVal.exampleApplication "submitted"
              selectedStatus := JSVal.str "approved" }).sync)
      = some (View.review true "Updating...")
    ∧ (applyEffects
        { initialState with
            loading := false
            application := JSVal.exampleApplication "submitted"
            selectedStatus := JSVal.str "approved" }
        (handleUpdateStatus "app_1"
          { initialState with
              loading := false
              application := JSVal.exampleApplication "submitted"
              selectedStatus := JSVal.str "approved" }).sync).selectedStatus
      ≠ (JSVal.exampleApplication "submitted").optGet "status" := by
  refine ⟨rfl, rfl, ?_⟩
  show JSVal.str "approved" ≠ JSVal.str "submitted"
  intro h
  injection h with h
  exact absurd h (by decide)

theorem handleUpdateStatus_of_truthy (id : String) (s : State) (r : FetchResult)
    (h : s.selectedStatus.truthy = true) :
    (handleUpdateStatus id s).effects r
      = Effect.setUpdating true ::
          ((Effect.putStatus id s.selectedStatus s.notes :: handleUpdateStatusTry s r)
            ++ [Effect.setUpdating false]) := by
  simp [handleUpdateStatus, h, Async.effects]

theorem handleUpdateStatus_of_falsy (id : String) (s : State) (r : FetchResult)
    (h : s.selectedStatus.truthy = false) :
    (handleUpdateStatus id s).effects r = [Effect.toastError "Please select a status"] := by
  simp [handleUpdateStatus, h, Async.effects]

theorem isSetUpdating_successToast (selectedStatus emailSent : JSVal) :
    ∀ e ∈ successToast selectedStatus emailSent, isSetUpdating e = false := by
  intro e he
  unfold successToast at he
  split_ifs at he <;> simp at he <;> subst he <;> rfl

theorem isSetUpdating_catchBlock (message : String) :
    ∀ e ∈ catchBlock message, isSetUpdating e = false := by
  intro e he
  simp only [catchBlock, List.mem_cons, List.mem_singleton, List.not_mem_nil, or_false] at he
  rcases he with he | he <;> subst he <;> rfl

theorem isSetUpdating_handleUpdateStatusTry (s : State) (r : FetchResult) :
    ∀ e ∈ handleUpdateStatusTry s r, isSetUpdating e = false := by
  intro e he
  unfold handleUpdateStatusTry at he
  split at he
  · exact isSetUpdating_catchBlock _ e he
  · exact isSetUpdating_catchBlock _ e he
  · split at he
    · exact isSetUpdating_catchBlock _ e he
    · rw [List.mem_append] at he
      rcases he with he | he
      · exact isSetUpdating_successToast _ _ e he
      · simp only [List.mem_singleton] at he
        subst he
        rfl
  · exact isSetUpdating_catchBlock _ e he
  · split at he
    · exact isSetUpdating_catchBlock _ e he
    · exact isSetUpdating_catchBlock _ e he

theorem updating_applyEffect (s : State) (e : Effect) (h : isSetUpdating e = false) :
    (applyEffect s e).updating = s.updating := by
  cases e <;> first | rfl | simp [isSetUpdating] at h

theorem updating_trace (s : State) (es : List Effect)
    (h : ∀ e ∈ es, isSetUpdating e = false) :
    ∀ st ∈ trace s es, st.updating = s.updating := by
  induction es generalizing s with
  | nil =>
    intro st hst
    simp only [trace, List.mem_singleton] at hst
    rw [hst]
  | cons e es ih =>
    intro st hst
    simp only [trace, List.mem_cons] at hst
    rcases hst with hst | hst
    · rw [hst]
    · rw [ih (applyEffect s e) (fun x hx => h x (List.mem_cons_of_mem _ hx)) st hst]
      exact updating_applyEffect s e (h e (List.mem_cons_self _ _))

theorem applyEffects_append (s : State) (xs ys : List Effect) :
    applyEffects s (xs ++ ys) = applyEffects (applyEffects s xs) ys := by
  simp [applyEffects, List.foldl_append]

/-- C14: when `handleUpdateStatus` sends a request (the selected status being truthy), its
first effect is `setUpdating(true)` and its last is `setUpdating(false)`, whatever the
outcome of the request; in every state in between `updating` is true and the Update Status
control is disabled whatever status is selected; and after the handler `updating` is
false. -/
theorem disabled_while_updating (id : String) (s : State) (r : FetchResult)
    (h : s.selectedStatus.truthy = true) :
    ∃ middle,
      (handleUpdateStatus id s).effects r
          = Effect.setUpdating true :: (middle ++ [Effect.setUpdating false])
      ∧ (∀ st ∈ trace (applyEffect s (Effect.setUpdating true)) middle,
          st.updating = true
          ∧ ∀ v : JSVal, updateDisabled { st with selectedStatus := v } = true)
      ∧ (applyEffects s ((handleUpdateStatus id s).effects r)).updating = false := by
  refine ⟨Effect.putStatus id s.selectedStatus s.notes :: handleUpdateStatusTry s r,
    handleUpdateStatus_of_truthy id s r h, ?_, ?_⟩
  · intro st hst
    have hmid : ∀ e ∈ Effect.putStatus id s.selectedStatus s.notes
        :: handleUpdateStatusTry s r, isSetUpdating e = false := by
      intro e he
      rcases List.mem_cons.mp he with he | he
      · subst he
        rfl
      · exact isSetUpdating_handleUpdateStatusTry s r e he
    have hup : st.updating = true := updating_trace _ _ hmid st hst
    exact ⟨hup, fun v => by simp [updateDisabled, hup]⟩
  · rw [handleUpdateStatus_of_truthy id s r h, ← List.cons_append, applyEffects_append]
    rfl

/-- Witness of C14: an update to `approved` that the server refuses. -/
theorem disabled_while_updating_witness :
    (JSVal.str "approved").truthy = true
    ∧ ∃ middle,
      (handleUpdateStatus "APP-1"
          { initialState with loading := false, selectedStatus := JSVal.str "approved" }).effects
          (FetchResult.response false (Except.ok (JSVal.obj [])))
        = Effect.setUpdating true :: (middle ++ [Effect.setUpdating false])
      ∧ (∀ st ∈ trace (applyEffect
            { initialState with loading := false, selectedStatus := JSVal.str "approved" }
            (Effect.setUpdating true)) middle,
          st.updating = true
          ∧ ∀ v : JSVal, updateDisabled { st with selectedStatus := v } = true)
      ∧ (applyEffects
          { initialState with loading := false, selectedStatus := JSVal.str "approved" }
          ((handleUpdateStatus "APP-1"
            { initialState with loading := false, selectedStatus := JSVal.str "approved" }).effects
            (FetchResult.response false (Except.ok (JSVal.obj []))))).updating = false :=
  ⟨by decide,
   disabled_while_updating "APP-1"
     { initialState with loading := false, selectedStatus := JSVal.str "approved" }
     (FetchResult.response false (Except.ok (JSVal.obj []))) (by decide)⟩

theorem successToasts_append (xs ys : List Effect) :
    successToasts (xs ++ ys) = successToasts xs ++ successToasts ys := by
  induction xs with
  | nil => rfl
  | cons e es ih => cases e <;> simp [successToasts, ih]

theorem successToasts_catchBlock (message : String) :
    successToasts (catchBlock message) = [] := rfl

theorem successToasts_effects (id : String) (s : State) (r : FetchResult)
    (h : s.selectedStatus.truthy = true) :
    successToasts ((handleUpdateStatus id s).effects r)
      = successToasts (handleUpdateStatusTry s r) := by
  rw [handleUpdateStatus_of_truthy id s r h]
  simp [successToasts, successToasts_append]

theorem successToasts_ok (s : State) (result emailSent : JSVal)
    (hres : result.member "email_sent" = some emailSent) :
    successToasts (handleUpdateStatusTry s (FetchResult.response true (Except.ok result)))
      = successToasts (successToast s.selectedStatus emailSent) := by
  simp [handleUpdateStatusTry, hres, successToasts_append, successToasts]

theorem successToasts_of_not_ok (s : State) (r : FetchResult)
    (h : ∀ result emailSent, r = FetchResult.response true (Except.ok result) →
      result.member "email_sent" = some emailSent → False) :
    successToasts (handleUpdateStatusTry s r) = [] := by
  rcases r with m | ⟨_ | _, m | v⟩
  · rfl
  · rfl
  · simp only [handleUpdateStatusTry]
    split <;> rfl
  · rfl
  · simp only [handleUpdateStatusTry]
    cases hm : v.member "email_sent" with
    | none => rfl
    | some e => exact absurd (h v e rfl hm) id

theorem approvedMessage_ne_generic : approvedMessage ≠ genericMessage := by decide

theorem rejectedMessage_ne_generic : rejectedMessage ≠ genericMessage := by decide

theorem approvedMessage_ne_rejected : approvedMessage ≠ rejectedMessage := by decide

/-- C15, as amended: when the update is sent and answered with an ok response whose body
has a falsy `email_sent` (`false`, absent, and also `null`, `0`, the empty string), the one
success message shown is the generic one; and one of the two messages that say an email
was sent is shown only if the response is ok and the `email_sent` of its body is truthy. -/
theorem email_message_only_if_truthy (id : String) (s : State) (r : FetchResult)
    (result emailSent : JSVal) (h : s.selectedStatus.truthy = true) :
    (result.member "email_sent" = some emailSent → emailSent.truthy = false →
        successToasts ((handleUpdateStatus id s).effects
          (FetchResult.response true (Except.ok result))) = [genericMessage])
    ∧ ((approvedMessage ∈ successToasts ((handleUpdateStatus id s).effects r)
          ∨ rejectedMessage ∈ successToasts ((handleUpdateStatus id s).effects r)) →
        ∃ body sent, r = FetchResult.response true (Except.ok body)
          ∧ body.member "email_sent" = some sent ∧ sent.truthy = true) := by
  constructor
  · intro hres hfalsy
    rw [successToasts_effects id s _ h, successToasts_ok s result emailSent hres]
    simp [successToast, hfalsy, successToasts]
  · intro hshown
    rw [successToasts_effects id s r h] at hshown
    by_contra hno
    by_cases hok : ∃ body sent, r = FetchResult.response true (Except.ok body)
        ∧ body.member "email_sent" = some sent
    · obtain ⟨body, sent, hr, hsent⟩ := hok
      have hfalsy : sent.truthy = false := by
        cases ht : sent.truthy with
        | false => rfl
        | true => exact absurd ⟨body, sent, hr, hsent, ht⟩ hno
      rw [hr, successToasts_ok s body sent hsent] at hshown
      simp only [successToast, hfalsy, successToasts, List.mem_singleton] at hshown
      rcases hshown with hshown | hshown
      · exact approvedMessage_ne_generic (by simpa using hshown)
      · exact rejectedMessage_ne_generic (by simpa using hshown)
    · have hnone : successToasts (handleUpdateStatusTry s r) = [] :=
        successToasts_of_not_ok s r (fun body sent hr hsent => hok ⟨body, sent, hr, hsent⟩)
      rw [hnone] at hshown
      simp at hshown

/-- Witness of C15: an update to `approved` answered with an ok response without
`email_sent`. -/
theorem email_message_only_if_truthy_witness :
    (JSVal.str "approved").truthy = true
    ∧ (JSVal.obj []).member "email_sent" = some JSVal.undefined
    ∧ JSVal.undefined.truthy = false
    ∧ successToasts ((handleUpdateStatus "APP-1"
          { initialState with loading := false, selectedStatus := JSVal.str "approved" }).effects
        (FetchResult.response true (Except.ok (JSVal.obj [])))) = [genericMessage] :=
  ⟨by decide, rfl, rfl,
   (email_message_only_if_truthy "APP-1"
      { initialState with loading := false, selectedStatus := JSVal.str "approved" }
      (FetchResult.rejected "") (JSVal.obj []) JSVal.undefined (by decide)).1 rfl rfl⟩

/-- C15 fails as stated: an update to `approved` answered with an ok response whose
`email_sent` is the string `false`, which is truthy: the message shown says that the email
was sent, although the response did not report `email_sent` as `true`. -/
theorem email_message_on_truthy_string :
    successToasts ((handleUpdateStatus "APP-1"
          { initialState with loading := false, selectedStatus := JSVal.str "approved" }).effects
        (FetchResult.response true
          (Except.ok (JSVal.obj [("email_sent", JSVal.str "false")])))) = [approvedMessage]
    ∧ (JSVal.obj [("email_sent", JSVal.str "false")]).optGet "email_sent" ≠ JSVal.bool true := by
  refine ⟨by decide, ?_⟩
  show JSVal.str "false" ≠ JSVal.bool true
  intro h
  cases h

/-- C16: when the ok response reports `email_sent = true`, the success message shown for
the selected status `approved` is the approval message and the one shown for `rejected` is
the rejection message; the three messages are distinct. -/
theorem specific_message_on_email_sent (id : String) (s : State) (result : JSVal)
    (hres : result.member "email_sent" = some (JSVal.bool true)) :
    (s.selectedStatus = JSVal.str "approved" →
        successToasts ((handleUpdateStatus id s).effects
          (FetchResult.response true (Except.ok result))) = [approvedMessage])
    ∧ (s.selectedStatus = JSVal.str "rejected" →
        successToasts ((handleUpdateStatus id s).effects
          (FetchResult.response true (Except.ok result))) = [rejectedMessage])
    ∧ approvedMessage ≠ genericMessage
    ∧ approvedMessage ≠ rejectedMessage
    ∧ rejectedMessage ≠ genericMessage := by
  refine ⟨?_, ?_, approvedMessage_ne_generic, approvedMessage_ne_rejected,
    rejectedMessage_ne_generic⟩
  · intro hsel
    rw [successToasts_effects id s _ (by rw [hsel]; decide),
      successToasts_ok s result _ hres, hsel]
    decide
  · intro hsel
    rw [successToasts_effects id s _ (by rw [hsel]; decide),
      successToasts_ok s result _ hres, hsel]
    decide

/-- Witness of C16: the approval and the rejection of a submitted application, both answered
with `email_sent: true`. -/
theorem specific_message_on_email_sent_witness :
    (JSVal.obj [("email_sent", JSVal.bool true)]).member "email_sent" = some (JSVal.bool true)
    ∧ successToasts ((handleUpdateStatus "APP-1"
          { initialState with loading := false, selectedStatus := JSVal.str "approved" }).effects
        (FetchResult.response true (Except.ok (JSVal.obj [("email_sent", JSVal.bool true)]))))
      = [approvedMessage]
    ∧ successToasts ((handleUpdateStatus "APP-1"
          { initialState with loading := false, selectedStatus := JSVal.str "rejected" }).effects
        (FetchResult.response true (Except.ok (JSVal.obj [("email_sent", JSVal.bool true)]))))
      = [rejectedMessage] :=
  ⟨rfl,
   (specific_message_on_email_sent "APP-1"
      { initialState with loading := false, selectedStatus := JSVal.str "approved" }
      (JSVal.obj [("email_sent", JSVal.bool true)]) rfl).1 rfl,
   (specific_message_on_email_sent "APP-1"
      { initialState with loading := false, selectedStatus := JSVal.str "rejected" }
      (JSVal.obj [("email_sent", JSVal.bool true)]) rfl).2.1 rfl⟩

/-- C17 does not hold of the code: an update to `under-review` answered with an ok response
that reports `email_sent: true` shows no notification at all, neither a success nor an
error message, and the navigation to `/admin` is scheduled after 1500 ms all the same. -/
theorem no_message_for_other_status_with_email :
    successToasts ((handleUpdateStatus "APP-1"
          { initialState with
              loading := false
              application := JSVal.obj [("status", JSVal.str "submitted")]
              selectedStatus := JSVal.str "under-review" }).effects
        (FetchResult.response true (Except.ok (JSVal.obj [("email_sent", JSVal.bool true)]))))
      = []
    ∧ errorToasts ((handleUpdateStatus "APP-1"
          { initialState with
              loading := false
              application := JSVal.obj [("status", JSVal.str "submitted")]
              selectedStatus := JSVal.str "under-review" }).effects
        (FetchResult.response true (Except.ok (JSVal.obj [("email_sent", JSVal.bool true)]))))
      = []
    ∧ scheduled ((handleUpdateStatus "APP-1"
          { initialState with
              loading := false
              application := JSVal.obj [("status", JSVal.str "submitted")]
              selectedStatus := JSVal.str "under-review" }).effects
        (FetchResult.response true (Except.ok (JSVal.obj [("email_sent", JSVal.bool true)]))))
      = [(1500, "/admin")] := by
  refine ⟨by decide, by decide, by decide⟩

/-- C18: Quick Approve sets `selectedStatus` to `approved` and `notes` to the canned
approval text, Quick Reject sets them to `rejected` and the canned rejection text; both
leave every other cell of the state, the loaded application and the `updating` flag among
them, as it was, and neither issues a request. -/
theorem quick_actions_only_fill_form (s : State) :
    applyEffects s quickApprove
        = { s with
            selectedStatus := JSVal.str "approved"
            notes := JSVal.str "Application approved. All documents verified." }
    ∧ applyEffects s quickReject
        = { s with
            selectedStatus := JSVal.str "rejected"
            notes := JSVal.str "Application rejected. Please provide valid documents." }
    ∧ (applyEffects s quickApprove).application = s.application
    ∧ (applyEffects s quickApprove).updating = s.updating
    ∧ (applyEffects s quickReject).application = s.application
    ∧ (applyEffects s quickReject).updating = s.updating
    ∧ requestCount quickApprove = 0
    ∧ requestCount quickReject = 0 :=
  ⟨rfl, rfl, rfl, rfl, rfl, rfl, rfl, rfl⟩

/-- C19: whatever the persisted status of a loaded, complete application record (the five
statuses of the lifecycle, the terminal ones included), every option of the selector that
differs from it can be selected, and when no update is in flight the review page then
shows the Update Status control enabled and a click on it requests exactly that status: no
order between the statuses is enforced. -/
theorem any_other_status_selectable (id : String) (s : State) (persisted target : String)
    (hl : s.loading = false) (hrec : s.application.isApplicationRecord = true)
    (hs : s.application.optGet "status" = JSVal.str persisted)
    (hu : s.updating = false)
    (ht : target ∈ statusOptions) (hne : target ≠ persisted) :
    (applyEffects s (selectOnChange target)).selectedStatus = JSVal.str target
    ∧ render (applyEffects s (selectOnChange target))
        = some (View.review false "Update Status")
    ∧ updateDisabled (applyEffects s (selectOnChange target)) = false
    ∧ puts ((handleUpdateStatus id (applyEffects s (selectOnChange target))).sync)
        = [(JSVal.str target, s.notes)] := by
  have hstate : applyEffects s (selectOnChange target)
      = { s with selectedStatus := JSVal.str target } := rfl
  have htruthy : (JSVal.str target).truthy = true := by
    have hne0 : target ≠ "" := by
      intro h0
      subst h0
      revert ht
      decide
    simpa [JSVal.truthy] using hne0
  have hdis : updateDisabled { s with selectedStatus := JSVal.str target } = false := by
    cases hd : updateDisabled { s with selectedStatus := JSVal.str target } with
    | false => rfl
    | true =>
      rcases (updateDisabled_iff _).mp hd with h | h
      · simp [hu] at h
      · have h2 : JSVal.str target = JSVal.str persisted := by
          rw [← hs]
          exact h
        injection h2 with h2
        exact absurd h2 hne
  rw [hstate]
  refine ⟨rfl, ?_, hdis, ?_⟩
  · rw [render_of_loaded { s with selectedStatus := JSVal.str target } hl hrec, hdis]
    show some (View.review false (if s.updating = true then "Updating..." else "Update Status"))
      = _
    rw [if_neg (by simp [hu])]
  · simp [handleUpdateStatus, htruthy, puts]

/-- Witness of C19: a complete record that is approved, moved back to `submitted`. -/
theorem any_other_status_selectable_witness :
    "submitted" ∈ statusOptions
    ∧ "submitted" ≠ "approved"
    ∧ (JSVal.exampleApplication "approved").isApplicationRecord = true
    ∧ render (applyEffects
        { initialState with
            loading := false
            application := JSVal.exampleApplication "approved"
            selectedStatus := JSVal.str "approved" }
        (selectOnChange "submitted")) = some (View.review false "Update Status")
    ∧ puts ((handleUpdateStatus "app_1" (applyEffects
        { initialState with
            loading := false
            application := JSVal.exampleApplication "approved"
            selectedStatus := JSVal.str "approved" }
        (selectOnChange "submitted"))).sync) = [(JSVal.str "submitted", JSVal.str "")] :=
  have h := any_other_status_selectable "app_1"
    { initialState with
        loading := false
        application := JSVal.exampleApplication "approved"
        selectedStatus := JSVal.str "approved" }
    "approved" "submitted" rfl rfl rfl rfl (by decide) (by decide)
  ⟨by decide, by decide, rfl, h.2.1, h.2.2.2⟩

/-- C20: when `selectedStatus` is the empty string, `handleUpdateStatus` does nothing but
show the error notification: no request is sent, nothing is awaited, no navigation is
scheduled, and the state, `updating` included, is left as it was. -/
theorem empty_status_blocked (id : String) (s : State) (r : FetchResult)
    (h : s.selectedStatus = JSVal.str "") :
    (handleUpdateStatus id s).effects r = [Effect.toastError "Please select a status"]
    ∧ errorToasts ((handleUpdateStatus id s).effects r) = ["Please select a status"]
    ∧ puts ((handleUpdateStatus id s).effects r) = []
    ∧ requestCount ((handleUpdateStatus id s).effects r) = 0
    ∧ scheduled ((handleUpdateStatus id s).effects r) = []
    ∧ (handleUpdateStatus id s).resume.isNone = true
    ∧ trace s ((handleUpdateStatus id s).effects r) = [s, s]
    ∧ (s.updating = false →
        (applyEffects s ((handleUpdateStatus id s).effects r)).updating = false) := by
  have hf : s.selectedStatus.truthy = false := by rw [h]; rfl
  have hres : (handleUpdateStatus id s).resume.isNone = true := by
    simp [handleUpdateStatus, hf]
  rw [handleUpdateStatus_of_falsy id s r hf]
  exact ⟨rfl, rfl, rfl, rfl, rfl, hres, rfl, fun hu => hu⟩

/-- Witness of C20: the Update Status handler in the initial state of the view, where
`selectedStatus` is still the empty string. -/
theorem empty_status_blocked_witness :
    initialState.selectedStatus = JSVal.str ""
    ∧ requestCount ((handleUpdateStatus "APP-1" initialState).effects
        (FetchResult.rejected "")) = 0
    ∧ scheduled ((handleUpdateStatus "APP-1" initialState).effects
        (FetchResult.rejected "")) = [] :=
  have h := empty_status_blocked "APP-1" initialState (FetchResult.rejected "") rfl
  ⟨rfl, h.2.2.2.1, h.2.2.2.2.1⟩

end AdminReview

/-! ## The application wizard: navigation between the steps, and failed requests -/

namespace ApplyVisa

theorem wizard_applyEffects_append (s : State) (xs ys : List Effect) :
    applyEffects s (xs ++ ys) = applyEffects (applyEffects s xs) ys := by
  simp [applyEffects, List.foldl_append]

theorem currentStep_saveApplicationResume (s : State) (r : FetchResult) :
    (applyEffects s (saveApplicationResume r)).currentStep = s.currentStep := by
  rcases r with m | ⟨_ | _, m | data⟩ <;> try rfl
  simp only [saveApplicationResume]
  cases data.member "application_id" <;> rfl

theorem currentStep_advance (s t : State) (h : t.currentStep = s.currentStep) :
    (applyEffects t (advance s)).currentStep
      = if s.currentStep < 4 then s.currentStep + 1 else s.currentStep := by
  unfold advance
  have hlen : steps.length - 1 = 4 := rfl
  rw [hlen]
  split_ifs
  · rfl
  · exact h

theorem currentStep_handleNext (s : State) (r : FetchResult) :
    (applyEffects s ((handleNext s).effects r)).currentStep
      = if s.currentStep < 4 then s.currentStep + 1 else s.currentStep := by
  by_cases hg : s.currentStep = 2 ∧ s.applicationId.truthy = false
  · rw [handleNext_of_guard s r hg, ← List.singleton_append, wizard_applyEffects_append,
      wizard_applyEffects_append]
    exact currentStep_advance s _ (currentStep_saveApplicationResume _ r)
  · rw [handleNext_of_not_guard s r hg]
    exact currentStep_advance s s rfl

theorem currentStep_action_le (s : State) (a : Action) (h : s.currentStep ≤ 4) :
    (applyEffects s (actionEffects s a)).currentStep ≤ 4 := by
  cases a with
  | next r =>
    simp only [actionEffects]
    rw [currentStep_handleNext]
    split_ifs <;> omega
  | back =>
    simp only [actionEffects]
    rw [currentStep_handleBack]
    omega

theorem currentStep_run_le (s : State) (actions : List Action) (h : s.currentStep ≤ 4) :
    (run s actions).1.currentStep ≤ 4 := by
  induction actions generalizing s with
  | nil => exact h
  | cons a as ih => exact ih _ (currentStep_action_le s a h)

/-- C25: for every wizard state with `currentStep > 0`, whatever the form contents,
`handleBack` sets `currentStep` to `currentStep - 1` and changes nothing else; at
`currentStep = 0` it changes nothing at all; in both cases it issues no request. -/
theorem back_is_unrestricted (s : State) :
    (s.currentStep > 0 →
        applyEffects s (handleBack s) = { s with currentStep := s.currentStep - 1 }
        ∧ (applyEffects s (handleBack s)).currentStep + 1 = s.currentStep)
    ∧ (s.currentStep = 0 → applyEffects s (handleBack s) = s)
    ∧ requestCount (handleBack s) = 0
    ∧ (applyEffects s (handleBack s)).applicationId = s.applicationId
    ∧ (applyEffects s (handleBack s)).formData = s.formData
    ∧ (applyEffects s (handleBack s)).documents = s.documents := by
  unfold handleBack
  split_ifs with h
  · refine ⟨fun _ => ⟨rfl, ?_⟩, fun h0 => by omega, rfl, rfl, rfl, rfl⟩
    show s.currentStep - 1 + 1 = s.currentStep
    omega
  · exact ⟨fun hpos => absurd hpos h, fun _ => rfl, rfl, rfl, rfl, rfl⟩

/-- Witness of C25: back from the document-upload step of a fresh wizard. -/
theorem back_is_unrestricted_witness :
    ({ initialState with currentStep := 3 } : State).currentStep > 0
    ∧ applyEffects { initialState with currentStep := 3 }
        (handleBack { initialState with currentStep := 3 })
      = { initialState with currentStep := 2 }
    ∧ applyEffects initialState (handleBack initialState) = initialState :=
  ⟨by decide,
   ((back_is_unrestricted { initialState with currentStep := 3 }).1 (by decide)).1,
   (back_is_unrestricted initialState).2.1 rfl⟩

/-- C23 does not hold of the code for non-ok responses.  A create request answered with a
non-ok response shows no notification (and the wizard advances to step 3); so do an upload
and a submit answered with a non-ok response.  Only a rejected request, a thrown error,
reaches the `catch` blocks with their error notifications. -/
theorem non_ok_response_is_silent :
    (handleNext { initialState with currentStep := 2 }).effects
        (FetchResult.response false (Except.ok (JSVal.obj [("detail", JSVal.str "error")])))
      = [Effect.postApplication (applicationBody initialState.formData),
         Effect.setCurrentStep 3]
    ∧ (handleDocumentUpload
          { initialState with currentStep := 3, applicationId := JSVal.str "APP-1" }
          "passport" (some "p.pdf")).effects
        (FetchResult.response false (Except.ok (JSVal.obj [("detail", JSVal.str "error")])))
      = [Effect.postDocument (JSVal.str "APP-1") "passport" (some "p.pdf")]
    ∧ (handleSubmit
          { initialState with currentStep := 4, applicationId := JSVal.str "APP-1" }).effects
        (FetchResult.response false (Except.ok (JSVal.obj [("detail", JSVal.str "error")])))
      = [Effect.postSubmit (JSVal.str "APP-1")]
    ∧ errorToasts ((handleNext { initialState with currentStep := 2 }).effects
        (FetchResult.rejected "offline")) = ["Failed to save application"]
    ∧ errorToasts ((handleDocumentUpload
          { initialState with currentStep := 3, applicationId := JSVal.str "APP-1" }
          "passport" (some "p.pdf")).effects (FetchResult.rejected "offline"))
      = ["Failed to upload document"]
    ∧ errorToasts ((handleSubmit
          { initialState with currentStep := 4, applicationId := JSVal.str "APP-1" }).effects
        (FetchResult.rejected "offline")) = ["Failed to submit application"] :=
  ⟨rfl, rfl, rfl, rfl, rfl, rfl⟩

end ApplyVisa

/-! ## The tracking view -/

namespace TrackApplication

theorem handleSearch_of_id (s : State) (r : FetchResult) (hid : trim s.applicationId ≠ "") :
    (handleSearch s).effects r
      = [Effect.preventDefault, Effect.setLoading true, Effect.setSearched true,
         Effect.fetchApplication s.applicationId]
        ++ ((match r with
             | FetchResult.rejected _ =>
                 [Effect.consoleError, Effect.setApplication JSVal.null,
                  Effect.toastError "Failed to track application"]
             | FetchResult.response false _ =>
                 [Effect.setApplication JSVal.null,
                  Effect.toastError
                    "Application not found. Please check your ID and try again."]
             | FetchResult.response true (Except.error _) =>
                 [Effect.consoleError, Effect.setApplication JSVal.null,
                  Effect.toastError "Failed to track application"]
             | FetchResult.response true (Except.ok data) => [Effect.setApplication data])
            ++ [Effect.setLoading false]) := by
  simp [handleSearch, hid, Async.effects]

/-- C21, as amended: a search of a non-blank id that fails (rejected request, non-ok
response, or unparsable body) ends in the not-found state, `application = null`,
`searched = true`, `loading = false`, which renders the not-found panel and no result
panel; and from the call of `setApplication(null)` that handles the failure on, every state
is rendered without a result panel. -/
theorem failed_search_ends_not_found (s : State) (r : FetchResult)
    (hid : trim s.applicationId ≠ "") (hfail : searchFailed r = true) :
    applyEffects s ((handleSearch s).effects r)
        = { s with application := JSVal.null, searched := true, loading := false }
    ∧ render (applyEffects s ((handleSearch s).effects r))
        = some { searchDisabled := false, result := none, notFound := true }
    ∧ ∃ before after,
        (handleSearch s).effects r = before ++ Effect.setApplication JSVal.null :: after
        ∧ ∀ st ∈ trace (applyEffects s (before ++ [Effect.setApplication JSVal.null])) after,
            ∃ view, render st = some view ∧ view.result = none := by
  rw [handleSearch_of_id s r hid]
  rcases r with m | ⟨_ | _, m | data⟩
  · refine ⟨rfl, rfl,
      [Effect.preventDefault, Effect.setLoading true, Effect.setSearched true,
       Effect.fetchApplication s.applicationId, Effect.consoleError],
      [Effect.toastError "Failed to track application", Effect.setLoading false], rfl, ?_⟩
    intro st hst
    simp only [trace, List.mem_cons, List.mem_singleton, List.not_mem_nil, or_false] at hst
    rcases hst with h | h | h <;> subst h <;> exact ⟨_, rfl, rfl⟩
  · refine ⟨rfl, rfl,
      [Effect.preventDefault, Effect.setLoading true, Effect.setSearched true,
       Effect.fetchApplication s.applicationId],
      [Effect.toastError "Application not found. Please check your ID and try again.",
       Effect.setLoading false], rfl, ?_⟩
    intro st hst
    simp only [trace, List.mem_cons, List.mem_singleton, List.not_mem_nil, or_false] at hst
    rcases hst with h | h | h <;> subst h <;> exact ⟨_, rfl, rfl⟩
  · refine ⟨rfl, rfl,
      [Effect.preventDefault, Effect.setLoading true, Effect.setSearched true,
       Effect.fetchApplication s.applicationId],
      [Effect.toastError "Application not found. Please check your ID and try again.",
       Effect.setLoading false], rfl, ?_⟩
    intro st hst
    simp only [trace, List.mem_cons, List.mem_singleton, List.not_mem_nil, or_false] at hst
    rcases hst with h | h | h <;> subst h <;> exact ⟨_, rfl, rfl⟩
  · refine ⟨rfl, rfl,
      [Effect.preventDefault, Effect.setLoading true, Effect.setSearched true,
       Effect.fetchApplication s.applicationId, Effect.consoleError],
      [Effect.toastError "Failed to track application", Effect.setLoading false], rfl, ?_⟩
    intro st hst
    simp only [trace, List.mem_cons, List.mem_singleton, List.not_mem_nil, or_false] at hst
    rcases hst with h | h | h <;> subst h <;> exact ⟨_, rfl, rfl⟩
  · simp [searchFailed] at hfail

/-- Witness of C21: an unknown id searched after a successful search that found a complete
record. -/
theorem failed_search_ends_not_found_witness :
    trim "app_unknown" ≠ ""
    ∧ searchFailed (FetchResult.response false (Except.ok JSVal.null)) = true
    ∧ render (applyEffects
        { applicationId := "app_unknown"
          application := JSVal.exampleApplication "approved"
          loading := false
          searched := true }
        ((handleSearch
          { applicationId := "app_unknown"
            application := JSVal.exampleApplication "approved"
            loading := false
            searched := true }).effects
          (FetchResult.response false (Except.ok JSVal.null))))
      = some { searchDisabled := false, result := none, notFound := true } :=
  ⟨by decide, rfl,
   (failed_search_ends_not_found
      { applicationId := "app_unknown"
        application := JSVal.exampleApplication "approved"
        loading := false
        searched := true }
      (FetchResult.response false (Except.ok JSVal.null)) (by decide) rfl).2.1⟩

/-- C21 fails as stated.  A search of `app_1` that succeeds leaves the complete record it
found in the state, and the result panel shows it; when the id is then changed and searched,
`handleSearch` sets `loading` and issues its request, and until the response is handled the
result panel with the application of the previous search is still rendered. -/
theorem previous_result_shown_while_searching :
    applyEffects { initialState with applicationId := "app_1" }
        ((handleSearch { initialState with applicationId := "app_1" }).effects
          (FetchResult.response true (Except.ok (JSVal.exampleApplication "approved"))))
      = { applicationId := "app_1"
          application := JSVal.exampleApplication "approved"
          loading := false
          searched := true }
    ∧ (applyEffects
        { applicationId := "app_unknown"
          application := JSVal.exampleApplication "approved"
          loading := false
          searched := true }
        (handleSearch
          { applicationId := "app_unknown"
            application := JSVal.exampleApplication "approved"
            loading := false
            searched := true }).sync).loading = true
    ∧ render (applyEffects
        { applicationId := "app_unknown"
          application := JSVal.exampleApplication "approved"
          loading := false
          searched := true }
        (handleSearch
          { applicationId := "app_unknown"
            application := JSVal.exampleApplication "approved"
            loading := false
            searched := true }).sync)
      = some
          { searchDisabled := true
            result :=
              some
                { application := JSVal.exampleApplication "approved"
                  approvedNotice := true
                  rejectedNotice := false
                  underReviewNotice := false }
            notFound := false } := by
  refine ⟨rfl, by decide, ?_⟩
  rfl

end TrackApplication

/-! ## The applicant's detail view -/

namespace ApplicationDetails

/-- C22 does not hold of the code for `rejected`: a loaded, complete application record
with status `rejected` and no admin notes renders the details page with no notice at all,
and with admin notes it renders only the Admin Notes block, which is rendered for every
status that has notes (here `under-review` as well); the approval notice is rendered for
`approved`.  The tracking view does render a rejection notice for the same record. -/
theorem no_notice_for_rejected :
    render { initialState with
              loading := false
              application := JSVal.exampleApplication "rejected" }
      = some (View.details false none)
    ∧ render { initialState with
                loading := false
                application := JSVal.exampleApplicationWithNotes "rejected" "Missing documents" }
      = some (View.details false (some (JSVal.str "Missing documents")))
    ∧ render { initialState with
                loading := false
                application :=
                  JSVal.exampleApplicationWithNotes "under-review" "Checking documents" }
      = some (View.details false (some (JSVal.str "Checking documents")))
    ∧ render { initialState with
                loading := false
                application := JSVal.exampleApplication "approved" }
      = some (View.details true none)
    ∧ TrackApplication.render
        { applicationId := "app_1"
          application := JSVal.exampleApplication "rejected"
          loading := false
          searched := true }
      = some
          { searchDisabled := false
            result :=
              some
                { application := JSVal.exampleApplication "rejected"
                  approvedNotice := false
                  rejectedNotice := true
                  underReviewNotice := false }
            notFound := false } :=
  ⟨rfl, rfl, rfl, rfl, rfl⟩

end ApplicationDetails

/-! ## The route table -/

namespace AppRouter

/-- C26: in the route table the views of `/dashboard`, `/apply` and `/applications/:id`
are children of a `ProtectedRoute`, those of `/admin` and `/admin/applications/:id` are
children of a `ProtectedRoute` with `adminOnly = true`, and the routes without a guard are
exactly `/`, `/login`, `/register` and `/track`; when the fragment does not contain
`session_id=` the route table is rendered and a matched route renders its guarded view;
when it does, the session resolver is rendered whatever the path, and no route view. -/
theorem route_table_guards (hash : String) (route : Route) :
    (routes.filter fun r => r.guard = some false).map (fun r => (r.path, r.page))
        = [("/dashboard", Page.dashboard), ("/apply", Page.applyVisa),
           ("/applications/:id", Page.applicationDetails)]
    ∧ (routes.filter fun r => r.guard = some true).map (fun r => (r.path, r.page))
        = [("/admin", Page.adminDashboard), ("/admin/applications/:id", Page.adminReview)]
    ∧ (routes.filter fun r => r.guard = none).map (fun r => (r.path, r.page))
        = [("/", Page.home), ("/login", Page.login), ("/register", Page.register),
           ("/track", Page.trackApplication)]
    ∧ (routes.map fun r => r.page).Nodup
    ∧ (routes.map fun r => r.path).Nodup
    ∧ (includes hash "session_id=" = false →
        render hash = View.routes ∧ element hash route = Element.page route.guard route.page)
    ∧ (includes hash "session_id=" = true →
        render hash = View.authCallback ∧ element hash route = Element.authCallback) := by
  refine ⟨by decide, by decide, by decide, by decide, by decide, ?_, ?_⟩
  · intro h
    simp [render, element, h]
  · intro h
    simp [render, element, h]

/-- Witness of C26: the dashboard route without and with a `session_id` fragment. -/
theorem route_table_guards_witness :
    includes "" "session_id=" = false
    ∧ element "" { path := "/dashboard", guard := some false, page := Page.dashboard }
        = Element.page (some false) Page.dashboard
    ∧ includes "#session_id=abc" "session_id=" = true
    ∧ element "#session_id=abc"
        { path := "/dashboard", guard := some false, page := Page.dashboard }
        = Element.authCallback :=
  ⟨by decide,
   ((route_table_guards ""
      { path := "/dashboard", guard := some false, page := Page.dashboard }).2.2.2.2.2.1
      (by decide)).2,
   by decide,
   ((route_table_guards "#session_id=abc"
      { path := "/dashboard", guard := some false, page := Page.dashboard }).2.2.2.2.2.2
      (by decide)).2⟩

end AppRouter

/-! ## The filter of the admin dashboard -/

namespace AdminDashboard

theorem filterThrowing_of_total (test : JSVal → Option Bool) (keep : JSVal → Bool)
    (xs : List JSVal) (h : ∀ x ∈ xs, test x = some (keep x)) :
    filterThrowing test xs = some (xs.filter keep) := by
  induction xs with
  | nil => rfl
  | cons x xs ih =>
    have hx : test x = some (keep x) := h x (List.mem_cons_self _ _)
    have hxs := ih (fun y hy => h y (List.mem_cons_of_mem _ hy))
    cases hk : keep x <;> simp [filterThrowing, hx, hxs, hk]

theorem matchesStatus_of_fields (statusFilter : String) (app : JSVal)
    (h : hasSearchFields app = true) :
    matchesStatus statusFilter app
      = some ((app.optGet "status").strictEq (JSVal.str statusFilter)) := by
  cases app <;> simp [hasSearchFields] at h
  rfl

theorem matchesSearch_of_fields (toLowerCase : String → String) (searchTerm : String)
    (app : JSVal) (h : hasSearchFields app = true) :
    matchesSearch toLowerCase searchTerm app
      = some (includes (toLowerCase (idOf app)) (toLowerCase searchTerm)
          || includes (toLowerCase (nameOf app)) (toLowerCase searchTerm)) := by
  cases app with
  | obj fields =>
    simp only [hasSearchFields] at h
    simp only [matchesSearch, JSVal.member, idOf, nameOf]
    cases hid : (JSVal.obj fields).optGet "application_id" with
    | str id =>
      cases hinfo : (JSVal.obj fields).optGet "personal_info" with
      | obj info =>
        rw [hid, hinfo] at h
        simp only at h
        cases hname : (JSVal.obj info).optGet "full_name" with
        | str name =>
          simp only []
          by_cases hinc : includes (toLowerCase id) (toLowerCase searchTerm) = true
          · simp [hinc]
          · simp [hinc]
        | _ => rw [hname] at h; simp at h
      | _ => rw [hid, hinfo] at h; simp at h
    | _ => rw [hid] at h; simp at h
  | _ => simp [hasSearchFields] at h

theorem wanted_iff (toLowerCase : String → String) (statusFilter searchTerm : String)
    (app : JSVal) :
    wanted toLowerCase statusFilter searchTerm app = true
      ↔ (statusFilter = "all" ∨ app.optGet "status" = JSVal.str statusFilter)
        ∧ (searchTerm = ""
            ∨ includes (toLowerCase (idOf app)) (toLowerCase searchTerm) = true
            ∨ includes (toLowerCase (nameOf app)) (toLowerCase searchTerm) = true) := by
  simp [wanted, JSVal.strictEq_iff, or_assoc]

theorem filterApplications_eq (toLowerCase : String → String) (applications : List JSVal)
    (statusFilter searchTerm : String)
    (hfields : ∀ app ∈ applications, hasSearchFields app = true) :
    filterApplications toLowerCase applications statusFilter searchTerm
      = some (applications.filter (wanted toLowerCase statusFilter searchTerm)) := by
  have hstatus : filterThrowing (matchesStatus statusFilter) applications
      = some (applications.filter
          fun app => (app.optGet "status").strictEq (JSVal.str statusFilter)) :=
    filterThrowing_of_total _ _ _ (fun app happ =>
      matchesStatus_of_fields statusFilter app (hfields app happ))
  have hsearch : ∀ xs : List JSVal, (∀ app ∈ xs, app ∈ applications) →
      filterThrowing (matchesSearch toLowerCase searchTerm) xs
        = some (xs.filter fun app =>
            includes (toLowerCase (idOf app)) (toLowerCase searchTerm)
              || includes (toLowerCase (nameOf app)) (toLowerCase searchTerm)) :=
    fun xs hxs => filterThrowing_of_total _ _ _ (fun app happ =>
      matchesSearch_of_fields toLowerCase searchTerm app (hfields app (hxs app happ)))
  unfold filterApplications
  by_cases hall : statusFilter = "all"
  · by_cases hterm : searchTerm = ""
    · subst hall
      subst hterm
      have hw : ∀ app ∈ applications, wanted toLowerCase "all" "" app = true :=
        fun app _ => rfl
      rw [List.filter_eq_self.mpr hw]
      rfl
    · simp only [hall, ne_eq, not_true_eq_false, if_false, hterm, not_false_eq_true, if_true]
      rw [hsearch applications (fun _ h => h)]
      congr 1
      apply List.filter_congr
      intro app _
      simp [wanted, hterm]
  · by_cases hterm : searchTerm = ""
    · simp only [ne_eq, hall, not_false_eq_true, if_true, hstatus, hterm, not_true_eq_false,
        if_false]
      congr 1
      apply List.filter_congr
      intro app _
      simp [wanted, hall]
    · simp only [ne_eq, hall, not_false_eq_true, if_true, hstatus, hterm]
      rw [hsearch _ (fun app happ => (List.mem_filter.mp happ).1), List.filter_filter]
      congr 1
      apply List.filter_congr
      intro app _
      simp [wanted, hall, hterm, Bool.and_comm]

/-- C30: for every list of application records (objects with a string `application_id`
and a string `personal_info.full_name`), every status filter and every search term,
`filterApplications` passes to `setFilteredApps` the applications that are wanted, in
their order and with their multiplicity: those whose status equals the filter, or all when
the filter is `all`, and, when the search term is not empty, whose id or applicant name
contains the term, both sides lower-cased; with the filter `all` and an empty term it
passes the whole list. -/
theorem filter_keeps_the_wanted_applications (toLowerCase : String → String)
    (applications : List JSVal) (statusFilter searchTerm : String)
    (hfields : ∀ app ∈ applications, hasSearchFields app = true) :
    filterApplications toLowerCase applications statusFilter searchTerm
        = some (applications.filter (wanted toLowerCase statusFilter searchTerm))
    ∧ (applications.filter (wanted toLowerCase statusFilter searchTerm)).Sublist applications
    ∧ (∀ app,
        app ∈ applications.filter (wanted toLowerCase statusFilter searchTerm)
          ↔ app ∈ applications
            ∧ (statusFilter = "all" ∨ app.optGet "status" = JSVal.str statusFilter)
            ∧ (searchTerm = ""
                ∨ includes (toLowerCase (idOf app)) (toLowerCase searchTerm) = true
                ∨ includes (toLowerCase (nameOf app)) (toLowerCase searchTerm) = true))
    ∧ filterApplications toLowerCase applications "all" "" = some applications := by
  refine ⟨filterApplications_eq toLowerCase applications statusFilter searchTerm hfields,
    List.filter_sublist _, ?_, ?_⟩
  · intro app
    rw [List.mem_filter, wanted_iff]
  · simp [filterApplications]

/-- Witness of C30: two applications, the filter `approved`, the term `LEE`, with the
lower-casing of the ASCII letters: the first application is kept, through its name. -/
theorem filter_keeps_the_wanted_applications_witness :
    (∀ app ∈ [JSVal.obj [("application_id", JSVal.str "app_1"),
                ("status", JSVal.str "approved"),
                ("personal_info", JSVal.obj [("full_name", JSVal.str "Ana Lee")])],
              JSVal.obj [("application_id", JSVal.str "app_2"),
                ("status", JSVal.str "submitted"),
                ("personal_info", JSVal.obj [("full_name", JSVal.str "Bo Lee")])]],
        hasSearchFields app = true)
    ∧ filterApplications asciiLower
        [JSVal.obj [("application_id", JSVal.str "app_1"),
           ("status", JSVal.str "approved"),
           ("personal_info", JSVal.obj [("full_name", JSVal.str "Ana Lee")])],
         JSVal.obj [("application_id", JSVal.str "app_2"),
           ("status", JSVal.str "submitted"),
           ("personal_info", JSVal.obj [("full_name", JSVal.str "Bo Lee")])]]
        "approved" "LEE"
      = some [JSVal.obj [("application_id", JSVal.str "app_1"),
           ("status", JSVal.str "approved"),
           ("personal_info", JSVal.obj [("full_name", JSVal.str "Ana Lee")])]] :=
  have hfields : ∀ app ∈ [JSVal.obj [("application_id", JSVal.str "app_1"),
                ("status", JSVal.str "approved"),
                ("personal_info", JSVal.obj [("full_name", JSVal.str "Ana Lee")])],
              JSVal.obj [("application_id", JSVal.str "app_2"),
                ("status", JSVal.str "submitted"),
                ("personal_info", JSVal.obj [("full_name", JSVal.str "Bo Lee")])]],
        hasSearchFields app = true := by
    intro app happ
    simp only [List.mem_cons, List.mem_singleton, List.not_mem_nil, or_false] at happ
    rcases happ with h | h <;> subst h <;> rfl
  ⟨hfields,
   (filter_keeps_the_wanted_applications asciiLower _ "approved" "LEE" hfields).1.trans rfl⟩

end AdminDashboard

/-! ## The application wizard: requests in flight -/

namespace ApplyVisa

/-- C24 does not hold of the code: Next and Submit stay enabled while their request is
pending.  From the mounted wizard, two clicks on Next reach step 2; the third issues the
create request; a fourth click, before that request completes, issues a second one: two
create requests are in flight.  Likewise, once the review step is reached with an id, two
clicks on Submit put two submit requests for that id in flight. -/
theorem two_requests_in_flight :
    pendingCreates (runEvents System.mounted
        [Event.clickNext, Event.clickNext, Event.clickNext, Event.clickNext]) = 2
    ∧ (creates (runEvents System.mounted
        [Event.clickNext, Event.clickNext, Event.clickNext, Event.clickNext]).log).length = 2
    ∧ (runEvents System.mounted
        [Event.clickNext, Event.clickNext, Event.clickNext, Event.clickNext]).state.currentStep
      = 2
    ∧ pendingSubmits (runEvents System.mounted
        [Event.clickNext, Event.clickNext, Event.clickNext,
         Event.complete 0 (FetchResult.response true
           (Except.ok (JSVal.obj [("application_id", JSVal.str "APP-1")]))),
         Event.clickNext, Event.clickSubmit, Event.clickSubmit]) = 2
    ∧ submits (runEvents System.mounted
        [Event.clickNext, Event.clickNext, Event.clickNext,
         Event.complete 0 (FetchResult.response true
           (Except.ok (JSVal.obj [("application_id", JSVal.str "APP-1")]))),
         Event.clickNext, Event.clickSubmit, Event.clickSubmit]).log
      = [JSVal.str "APP-1", JSVal.str "APP-1"] := by
  refine ⟨by decide, by decide, by decide, by decide, rfl⟩

theorem creates_append_ne_nil (log es : List Effect) (h : creates log ≠ []) :
    creates (log ++ es) ≠ [] := by
  rw [creates_append]
  intro hnil
  exact h (List.append_eq_nil.mp hnil).1

theorem handleNext_sync_of_guard (s : State)
    (h : s.currentStep = 2 ∧ s.applicationId.truthy = false) :
    (handleNext s).sync = [Effect.postApplication (applicationBody s.formData)] := by
  simp [handleNext, h, saveApplication]

theorem handleNext_sync_of_not_guard (s : State)
    (h : ¬ (s.currentStep = 2 ∧ s.applicationId.truthy = false)) :
    (handleNext s).sync = advance s ∧ (handleNext s).resume = none := by
  simp only [handleNext, if_neg h, and_self]

theorem resume_next_of_guard (c : State) (r : FetchResult)
    (h : c.currentStep = 2 ∧ c.applicationId.truthy = false) :
    (Pending.next c).resume r = saveApplicationResume r ++ [Effect.setCurrentStep 3] := by
  have hadv : advance c = [Effect.setCurrentStep 3] := by
    simp [advance, h.1, steps]
  simp [Pending.resume, handleNext, h, hadv]

theorem resume_next_of_not_guard (c : State) (r : FetchResult)
    (h : ¬ (c.currentStep = 2 ∧ c.applicationId.truthy = false)) :
    (Pending.next c).resume r = [] := by
  simp [Pending.resume, (handleNext_sync_of_not_guard c h).2]

theorem state_resume_submit (s c : State) (r : FetchResult) :
    applyEffects s ((Pending.submit c).resume r) = s := by
  by_cases ht : c.applicationId.truthy = false
  · simp [Pending.resume, handleSubmit, ht, applyEffects]
  · simp only [Pending.resume, handleSubmit, if_neg ht]
    rcases r with m | ⟨_ | _, json⟩ <;> rfl

theorem state_handleSubmit_sync (s : State) :
    applyEffects s (handleSubmit s).sync = s := by
  by_cases ht : s.applicationId.truthy = false
  · simp [handleSubmit, ht, applyEffects, applyEffect]
  · simp [handleSubmit, ht, applyEffects, applyEffect]

theorem creates_handleSubmit_sync (s : State) : creates (handleSubmit s).sync = [] := by
  by_cases ht : s.applicationId.truthy = false
  · simp [handleSubmit, ht, creates]
  · simp [handleSubmit, ht, creates]

theorem mem_launch (a : Async Effect) (p q : Pending) (h : q ∈ launch a p) : q = p := by
  unfold launch at h
  split at h
  · exact List.mem_singleton.mp h
  · simp at h

theorem currentStep_step_le (sys : System) (e : Event) (h : sys.state.currentStep ≤ 4) :
    (step sys e).state.currentStep ≤ 4 := by
  cases e with
  | clickNext =>
    simp only [step]
    split_ifs with hlast
    · exact h
    · by_cases hg : sys.state.currentStep = 2 ∧ sys.state.applicationId.truthy = false
      · rw [handleNext_sync_of_guard _ hg]
        exact h
      · rw [(handleNext_sync_of_not_guard _ hg).1]
        show (applyEffects sys.state (advance sys.state)).currentStep ≤ 4
        rw [currentStep_advance sys.state sys.state rfl]
        split_ifs <;> omega
  | clickBack =>
    simp only [step]
    split_ifs with h0
    · exact h
    · show (applyEffects sys.state (handleBack sys.state)).currentStep ≤ 4
      rw [currentStep_handleBack]
      omega
  | clickSubmit =>
    simp only [step]
    split_ifs with hlast
    · show (applyEffects sys.state (handleSubmit sys.state).sync).currentStep ≤ 4
      rw [state_handleSubmit_sync]
      exact h
    · exact h
  | complete index r =>
    simp only [step]
    cases hp : sys.pending[index]? with
    | none => exact h
    | some p =>
      show (applyEffects sys.state (p.resume r)).currentStep ≤ 4
      cases p with
      | next c =>
        by_cases hg : c.currentStep = 2 ∧ c.applicationId.truthy = false
        · rw [resume_next_of_guard c r hg, wizard_applyEffects_append]
          show (3 : Nat) ≤ 4
          omega
        · rw [resume_next_of_not_guard c r hg]
          exact h
      | submit c =>
        rw [state_resume_submit]
        exact h

theorem currentStep_runEvents_le (sys : System) (events : List Event)
    (h : sys.state.currentStep ≤ 4) : (runEvents sys events).state.currentStep ≤ 4 := by
  induction events generalizing sys with
  | nil => exact h
  | cons e es ih => exact ih (step sys e) (currentStep_step_le sys e h)

theorem create_issued_step (sys : System) (e : Event)
    (ih : (3 ≤ sys.state.currentStep ∨ sys.state.applicationId ≠ JSVal.null
            ∨ ∃ c, Pending.next c ∈ sys.pending) → creates sys.log ≠ []) :
    (3 ≤ (step sys e).state.currentStep ∨ (step sys e).state.applicationId ≠ JSVal.null
        ∨ ∃ c, Pending.next c ∈ (step sys e).pending) → creates (step sys e).log ≠ [] := by
  cases e with
  | clickNext =>
    simp only [step]
    split_ifs with hlast
    · exact ih
    · by_cases hg : sys.state.currentStep = 2 ∧ sys.state.applicationId.truthy = false
      · intro _
        show creates (sys.log ++ (handleNext sys.state).sync) ≠ []
        rw [handleNext_sync_of_guard _ hg, creates_append]
        simp [creates]
      · intro hprem
        show creates (sys.log ++ (handleNext sys.state).sync) ≠ []
        apply creates_append_ne_nil
        apply ih
        have hsync := (handleNext_sync_of_not_guard _ hg).1
        have hres := (handleNext_sync_of_not_guard _ hg).2
        have hlaunch : launch (handleNext sys.state) (Pending.next sys.state) = [] := by
          simp [launch, hres]
        rw [hsync, hlaunch, List.append_nil] at hprem
        rcases hprem with h3 | hid | hpend
        · change 3 ≤ (applyEffects sys.state (advance sys.state)).currentStep at h3
          rw [currentStep_advance sys.state sys.state rfl] at h3
          by_cases h2 : sys.state.currentStep = 2
          · right; left
            intro hnull
            exact hg ⟨h2, by rw [hnull]; rfl⟩
          · left
            split_ifs at h3 <;> omega
        · right; left
          change (applyEffects sys.state (advance sys.state)).applicationId ≠ JSVal.null at hid
          rw [applicationId_advance] at hid
          exact hid
        · exact Or.inr (Or.inr hpend)
  | clickBack =>
    simp only [step]
    split_ifs with h0
    · exact ih
    · intro hprem
      show creates (sys.log ++ handleBack sys.state) ≠ []
      apply creates_append_ne_nil
      apply ih
      rcases hprem with h3 | hid | hpend
      · left
        change 3 ≤ (applyEffects sys.state (handleBack sys.state)).currentStep at h3
        rw [currentStep_handleBack] at h3
        omega
      · right; left
        change (applyEffects sys.state (handleBack sys.state)).applicationId ≠ JSVal.null
          at hid
        rw [applicationId_handleBack] at hid
        exact hid
      · exact Or.inr (Or.inr hpend)
  | clickSubmit =>
    simp only [step]
    split_ifs with hlast
    · intro hprem
      show creates (sys.log ++ (handleSubmit sys.state).sync) ≠ []
      apply creates_append_ne_nil
      apply ih
      rcases hprem with h3 | hid | ⟨c, hc⟩
      · left
        change 3 ≤ (applyEffects sys.state (handleSubmit sys.state).sync).currentStep at h3
        rw [state_handleSubmit_sync] at h3
        exact h3
      · right; left
        change (applyEffects sys.state (handleSubmit sys.state).sync).applicationId
          ≠ JSVal.null at hid
        rw [state_handleSubmit_sync] at hid
        exact hid
      · right; right
        rcases List.mem_append.mp hc with hc | hc
        · exact ⟨c, hc⟩
        · have := mem_launch _ _ _ hc
          cases this
    · exact ih
  | complete index r =>
    simp only [step]
    cases hp : sys.pending[index]? with
    | none => exact ih
    | some p =>
      intro hprem
      show creates (sys.log ++ p.resume r) ≠ []
      apply creates_append_ne_nil
      apply ih
      cases p with
      | next c => exact Or.inr (Or.inr ⟨c, List.getElem?_mem hp⟩)
      | submit c =>
        rcases hprem with h3 | hid | ⟨d, hd⟩
        · left
          change 3 ≤ (applyEffects sys.state ((Pending.submit c).resume r)).currentStep at h3
          rw [state_resume_submit] at h3
          exact h3
        · right; left
          change (applyEffects sys.state ((Pending.submit c).resume r)).applicationId
            ≠ JSVal.null at hid
          rw [state_resume_submit] at hid
          exact hid
        · exact Or.inr (Or.inr ⟨d, List.mem_of_mem_eraseIdx hd⟩)

theorem create_issued_runEvents (sys : System) (events : List Event)
    (ih : (3 ≤ sys.state.currentStep ∨ sys.state.applicationId ≠ JSVal.null
            ∨ ∃ c, Pending.next c ∈ sys.pending) → creates sys.log ≠ []) :
    (3 ≤ (runEvents sys events).state.currentStep
        ∨ (runEvents sys events).state.applicationId ≠ JSVal.null
        ∨ ∃ c, Pending.next c ∈ (runEvents sys events).pending) →
      creates (runEvents sys events).log ≠ [] := by
  induction events generalizing sys with
  | nil => exact ih
  | cons e es ihes => exact ihes (step sys e) (create_issued_step sys e ih)

/-- C27, as amended: in every state reachable from the mounted wizard by clicks on Next,
Back and Submit and by completions of the requests in flight, in any order,
`currentStep >= 3` implies that a create request has been issued, and so does a non-null
`applicationId`. -/
theorem step_three_needs_a_create_request (events : List Event) :
    (3 ≤ (runEvents System.mounted events).state.currentStep →
        creates (runEvents System.mounted events).log ≠ [])
    ∧ ((runEvents System.mounted events).state.applicationId ≠ JSVal.null →
        creates (runEvents System.mounted events).log ≠ []) := by
  have hstart : (3 ≤ System.mounted.state.currentStep
      ∨ System.mounted.state.applicationId ≠ JSVal.null
      ∨ ∃ c, Pending.next c ∈ System.mounted.pending) → creates System.mounted.log ≠ [] := by
    intro h
    rcases h with h | h | ⟨c, h⟩
    · exact absurd h (by decide)
    · exact absurd rfl h
    · simp [System.mounted] at h
  have hinv := create_issued_runEvents System.mounted events hstart
  exact ⟨fun h => hinv (Or.inl h), fun h => hinv (Or.inr (Or.inl h))⟩

/-- Witness of C27: three clicks on Next and a successful create. -/
theorem step_three_needs_a_create_request_witness :
    3 ≤ (runEvents System.mounted
        [Event.clickNext, Event.clickNext, Event.clickNext,
         Event.complete 0 (FetchResult.response true
           (Except.ok (JSVal.obj [("application_id", JSVal.str "APP-1")])))]).state.currentStep
    ∧ creates (runEvents System.mounted
        [Event.clickNext, Event.clickNext, Event.clickNext,
         Event.complete 0 (FetchResult.response true
           (Except.ok (JSVal.obj [("application_id", JSVal.str "APP-1")])))]).log ≠ [] :=
  ⟨by decide,
   (step_three_needs_a_create_request
      [Event.clickNext, Event.clickNext, Event.clickNext,
       Event.complete 0 (FetchResult.response true
         (Except.ok (JSVal.obj [("application_id", JSVal.str "APP-1")])))]).1 (by decide)⟩

/-- C27 fails as stated: three clicks on Next from the mounted wizard issue the create
request at step 2; when it is answered with a non-ok response, `handleNext` still advances:
the wizard is at the document-upload step with `applicationId` still `null`. -/
theorem upload_step_reached_without_id :
    (runEvents System.mounted
        [Event.clickNext, Event.clickNext, Event.clickNext,
         Event.complete 0 (FetchResult.response false (Except.ok JSVal.null))]).state.currentStep
      = 3
    ∧ (runEvents System.mounted
        [Event.clickNext, Event.clickNext, Event.clickNext,
         Event.complete 0 (FetchResult.response false (Except.ok JSVal.null))]).state.applicationId
      = JSVal.null :=
  ⟨rfl, rfl⟩

/-- C29: starting from `currentStep = 0`, every sequence of clicks on Next and Back keeps
`currentStep` at most 4 (it is a natural number, and `handleBack` subtracts only from a
positive step); `handleNext` adds exactly 1 to `currentStep` when it is below 4 and leaves
it alone otherwise, whatever the outcome of the create request.  The bound also holds
when the clicks and the completions of the requests in flight are interleaved. -/
theorem step_stays_within_bounds (actions : List Action) (events : List Event) (s : State)
    (r : FetchResult) :
    initialState.currentStep = 0
    ∧ (run initialState actions).1.currentStep ≤ 4
    ∧ (runEvents System.mounted events).state.currentStep ≤ 4
    ∧ (s.currentStep < 4 →
        (applyEffects s ((handleNext s).effects r)).currentStep = s.currentStep + 1)
    ∧ (¬ s.currentStep < 4 →
        (applyEffects s ((handleNext s).effects r)).currentStep = s.currentStep)
    ∧ (s.currentStep > 0 →
        (applyEffects s (handleBack s)).currentStep + 1 = s.currentStep)
    ∧ (s.currentStep = 0 → (applyEffects s (handleBack s)).currentStep = 0) := by
  refine ⟨rfl, currentStep_run_le initialState actions (by decide),
    currentStep_runEvents_le System.mounted events (by decide), ?_, ?_, ?_, ?_⟩
  · intro h
    rw [currentStep_handleNext, if_pos h]
  · intro h
    rw [currentStep_handleNext, if_neg h]
  · intro h
    rw [currentStep_handleBack]
    omega
  · intro h
    rw [currentStep_handleBack]
    omega

/-- Witness of C29: six clicks on Next from the start end at step 4; Next at step 3 goes
to step 4. -/
theorem step_stays_within_bounds_witness :
    (run initialState (List.replicate 6 (Action.next (FetchResult.rejected "")))).1.currentStep
      ≤ 4
    ∧ ({ initialState with currentStep := 3 } : State).currentStep < 4
    ∧ (applyEffects { initialState with currentStep := 3 }
        ((handleNext { initialState with currentStep := 3 }).effects
          (FetchResult.rejected ""))).currentStep = 3 + 1 :=
  have h := step_stays_within_bounds
    (List.replicate 6 (Action.next (FetchResult.rejected ""))) []
    { initialState with currentStep := 3 } (FetchResult.rejected "")
  ⟨h.2.1, by decide, h.2.2.2.1 (by decide)⟩

end ApplyVisa

/-! ## The admin review view: the statuses that can be requested -/

namespace AdminReview

theorem puts_append (xs ys : List Effect) : puts (xs ++ ys) = puts xs ++ puts ys := by
  induction xs with
  | nil => rfl
  | cons e es ih => cases e <;> simp [puts, ih]

theorem isNotification_successToast (selectedStatus emailSent : JSVal) :
    ∀ e ∈ successToast selectedStatus emailSent, isNotification e = true := by
  intro e he
  unfold successToast at he
  split_ifs at he <;> simp at he <;> subst he <;> rfl

theorem isNotification_catchBlock (message : String) :
    ∀ e ∈ catchBlock message, isNotification e = true := by
  intro e he
  simp only [catchBlock, List.mem_cons, List.mem_singleton, List.not_mem_nil, or_false] at he
  rcases he with he | he <;> subst he <;> rfl

theorem isNotification_handleUpdateStatusTry (s : State) (r : FetchResult) :
    ∀ e ∈ handleUpdateStatusTry s r, isNotification e = true := by
  intro e he
  unfold handleUpdateStatusTry at he
  split at he
  · exact isNotification_catchBlock _ e he
  · exact isNotification_catchBlock _ e he
  · split at he
    · exact isNotification_catchBlock _ e he
    · rw [List.mem_append] at he
      rcases he with he | he
      · exact isNotification_successToast _ _ e he
      · simp only [List.mem_singleton] at he
        subst he
        rfl
  · exact isNotification_catchBlock _ e he
  · split at he
    · exact isNotification_catchBlock _ e he
    · exact isNotification_catchBlock _ e he

theorem frame_of_quiet (s : State) (es : List Effect)
    (h : ∀ e ∈ es, isNotification e = true ∨ isSetUpdating e = true) :
    (applyEffects s es).application = s.application
    ∧ (applyEffects s es).selectedStatus = s.selectedStatus
    ∧ puts es = [] := by
  induction es generalizing s with
  | nil => exact ⟨rfl, rfl, rfl⟩
  | cons e es ih =>
    have he := h e (List.mem_cons_self _ _)
    have hrest := ih (applyEffect s e) (fun x hx => h x (List.mem_cons_of_mem _ hx))
    have happ : applyEffects s (e :: es) = applyEffects (applyEffect s e) es := rfl
    rw [happ]
    cases e <;> simp [isNotification, isSetUpdating] at he <;>
      exact ⟨hrest.1, hrest.2.1, hrest.2.2⟩

theorem frame_resumeUpdate (id : String) (s captured : State) (r : FetchResult) :
    (applyEffects s (resumeUpdate id captured r)).application = s.application
    ∧ (applyEffects s (resumeUpdate id captured r)).selectedStatus = s.selectedStatus
    ∧ puts (resumeUpdate id captured r) = [] := by
  apply frame_of_quiet
  intro e he
  unfold resumeUpdate handleUpdateStatus at he
  split_ifs at he with hf
  · simp at he
  · simp only [List.mem_append, List.mem_singleton] at he
    rcases he with he | he
    · exact Or.inl (isNotification_handleUpdateStatusTry captured r e he)
    · subst he
      exact Or.inr rfl

theorem loadedState_of_truthy (id : String) (data : JSVal) (h : data.truthy = true) :
    loadedState id data
      = { initialState with
          application := data
          selectedStatus := data.optGet "status"
          notes := (data.optGet "admin_notes").orElse (JSVal.str "")
          loading := false } := by
  cases data <;> first | rfl | simp [JSVal.truthy] at h

theorem option_ne_status (t : String) (ht : t ∈ statusOptions) :
    (JSVal.str t).truthy = true ∧ JSVal.str t ≠ JSVal.str "draft" := by
  simp only [statusOptions, List.mem_cons, List.mem_singleton, List.not_mem_nil, or_false] at ht
  rcases ht with h | h | h | h <;> subst h <;>
    exact ⟨by decide, fun h => by injection h with h; exact absurd h (by decide)⟩

theorem puts_good_step (data : JSVal) (sys : System) (e : Event)
    (happ : sys.state.application = data)
    (hsel : sys.state.selectedStatus = data.optGet "status"
      ∨ ∃ t ∈ statusOptions, sys.state.selectedStatus = JSVal.str t)
    (hputs : ∀ p ∈ puts sys.log,
      ∃ t ∈ statusOptions, p.1 = JSVal.str t ∧ p.1 ≠ data.optGet "status") :
    (step sys e).state.application = data
    ∧ ((step sys e).state.selectedStatus = data.optGet "status"
      ∨ ∃ t ∈ statusOptions, (step sys e).state.selectedStatus = JSVal.str t)
    ∧ ∀ p ∈ puts (step sys e).log,
        ∃ t ∈ statusOptions, p.1 = JSVal.str t ∧ p.1 ≠ data.optGet "status" := by
  cases e with
  | select value =>
    simp only [step]
    rcases hr : render sys.state with _ | _ | _ | ⟨d, l⟩
    · exact ⟨happ, hsel, hputs⟩
    · exact ⟨happ, hsel, hputs⟩
    · exact ⟨happ, hsel, hputs⟩
    · simp only []
      split_ifs with hv
      · refine ⟨happ, Or.inr ⟨value, hv, rfl⟩, ?_⟩
        intro p hp
        rw [puts_append] at hp
        simp only [selectOnChange, puts, List.append_nil] at hp
        exact hputs p hp
      · exact ⟨happ, hsel, hputs⟩
  | editNotes value =>
    simp only [step]
    rcases hr : render sys.state with _ | _ | _ | ⟨d, l⟩
    · exact ⟨happ, hsel, hputs⟩
    · exact ⟨happ, hsel, hputs⟩
    · exact ⟨happ, hsel, hputs⟩
    · refine ⟨happ, hsel, ?_⟩
      intro p hp
      simp only [] at hp
      rw [puts_append] at hp
      simp only [notesOnChange, puts, List.append_nil] at hp
      exact hputs p hp
  | quickApprove =>
    simp only [step]
    rcases hr : render sys.state with _ | _ | _ | ⟨d, l⟩
    · exact ⟨happ, hsel, hputs⟩
    · exact ⟨happ, hsel, hputs⟩
    · exact ⟨happ, hsel, hputs⟩
    · refine ⟨happ, Or.inr ⟨"approved", by decide, rfl⟩, ?_⟩
      intro p hp
      simp only [] at hp
      rw [puts_append] at hp
      simp only [quickApprove, puts, List.append_nil] at hp
      exact hputs p hp
  | quickReject =>
    simp only [step]
    rcases hr : render sys.state with _ | _ | _ | ⟨d, l⟩
    · exact ⟨happ, hsel, hputs⟩
    · exact ⟨happ, hsel, hputs⟩
    · exact ⟨happ, hsel, hputs⟩
    · refine ⟨happ, Or.inr ⟨"rejected", by decide, rfl⟩, ?_⟩
      intro p hp
      simp only [] at hp
      rw [puts_append] at hp
      simp only [quickReject, puts, List.append_nil] at hp
      exact hputs p hp
  | clickUpdate =>
    simp only [step]
    rcases hr : render sys.state with _ | _ | _ | ⟨d, l⟩
    · exact ⟨happ, hsel, hputs⟩
    · exact ⟨happ, hsel, hputs⟩
    · exact ⟨happ, hsel, hputs⟩
    · cases d with
      | true => exact ⟨happ, hsel, hputs⟩
      | false =>
        obtain ⟨_, _, hdis, _⟩ := render_eq_review sys.state false l hr
        have hne : sys.state.selectedStatus ≠ data.optGet "status" := by
          intro heq
          have : updateDisabled sys.state = true :=
            (updateDisabled_iff sys.state).mpr (Or.inr (by rw [happ]; exact heq))
          rw [hdis] at this
          exact absurd this (by decide)
        obtain ⟨t, ht, hst⟩ : ∃ t ∈ statusOptions, sys.state.selectedStatus = JSVal.str t := by
          rcases hsel with h | h
          · exact absurd h hne
          · exact h
        have htruthy : sys.state.selectedStatus.truthy = true := by
          rw [hst]
          exact (option_ne_status t ht).1
        have hsync : (handleUpdateStatus sys.id sys.state).sync
            = [Effect.setUpdating true,
               Effect.putStatus sys.id sys.state.selectedStatus sys.state.notes] := by
          simp [handleUpdateStatus, htruthy]
        simp only []
        rw [hsync]
        refine ⟨happ, hsel, ?_⟩
        intro p hp
        rw [puts_append] at hp
        simp only [puts, List.mem_append, List.mem_singleton] at hp
        rcases hp with hp | hp
        · exact hputs p hp
        · subst hp
          exact ⟨t, ht, hst, hne⟩
  | complete index r =>
    simp only [step]
    cases hp : sys.pending[index]? with
    | none => exact ⟨happ, hsel, hputs⟩
    | some captured =>
      obtain ⟨h1, h2, h3⟩ := frame_resumeUpdate sys.id sys.state captured r
      refine ⟨by simp only []; rw [h1]; exact happ, ?_, ?_⟩
      · simp only []
        rw [h2]
        exact hsel
      · intro p hpm
        simp only [] at hpm
        rw [puts_append, h3, List.append_nil] at hpm
        exact hputs p hpm

theorem puts_good_runEvents (data : JSVal) (sys : System) (events : List Event)
    (happ : sys.state.application = data)
    (hsel : sys.state.selectedStatus = data.optGet "status"
      ∨ ∃ t ∈ statusOptions, sys.state.selectedStatus = JSVal.str t)
    (hputs : ∀ p ∈ puts sys.log,
      ∃ t ∈ statusOptions, p.1 = JSVal.str t ∧ p.1 ≠ data.optGet "status") :
    ∀ p ∈ puts (runEvents sys events).log,
      ∃ t ∈ statusOptions, p.1 = JSVal.str t ∧ p.1 ≠ data.optGet "status" := by
  induction events generalizing sys with
  | nil => exact hputs
  | cons e es ih =>
    obtain ⟨h1, h2, h3⟩ := puts_good_step data sys e happ hsel hputs
    exact ih (step sys e) h1 h2 h3

/-- C28: after an application has been loaded, in every state reached by choosing options
of the selector, editing the notes, clicking the quick actions and the Update Status
button, and by completions of the requests in flight, in any order, every status update
requested carries one of the four options, different from the status of the loaded
application, and never `draft`. -/
theorem only_other_options_are_requested (id : String) (data : JSVal) (events : List Event)
    (hloaded : data.truthy = true) :
    (System.loaded id data).state.selectedStatus = data.optGet "status"
    ∧ ∀ p ∈ puts (runEvents (System.loaded id data) events).log,
        (∃ t ∈ statusOptions, p.1 = JSVal.str t)
        ∧ p.1 ≠ data.optGet "status"
        ∧ p.1 ≠ JSVal.str "draft" := by
  have hstate := loadedState_of_truthy id data hloaded
  have hsel : (System.loaded id data).state.selectedStatus = data.optGet "status" := by
    show (loadedState id data).selectedStatus = _
    rw [hstate]
  have happ : (System.loaded id data).state.application = data := by
    show (loadedState id data).application = _
    rw [hstate]
  refine ⟨hsel, ?_⟩
  intro p hp
  obtain ⟨t, ht, hpt, hne⟩ := puts_good_runEvents data (System.loaded id data) events happ
    (Or.inl hsel) (fun q hq => by simp [System.loaded, puts] at hq) p hp
  refine ⟨⟨t, ht, hpt⟩, hne, ?_⟩
  rw [hpt]
  exact (option_ne_status t ht).2

/-- Witness of C28: a complete record loaded in `draft`; the operator clicks Update Status
(disabled), Quick Approve, Update Status: the one request carries `approved`. -/
theorem only_other_options_are_requested_witness :
    (JSVal.exampleApplication "draft").truthy = true
    ∧ puts (runEvents (System.loaded "app_1" (JSVal.exampleApplication "draft"))
        [Event.clickUpdate, Event.quickApprove, Event.clickUpdate]).log
      = [(JSVal.str "approved", JSVal.str "Application approved. All documents verified.")]
    ∧ ∀ p ∈ puts (runEvents
          (System.loaded "app_1" (JSVal.exampleApplication "draft"))
          [Event.clickUpdate, Event.quickApprove, Event.clickUpdate]).log,
        (∃ t ∈ statusOptions, p.1 = JSVal.str t)
        ∧ p.1 ≠ (JSVal.exampleApplication "draft").optGet "status"
        ∧ p.1 ≠ JSVal.str "draft" :=
  ⟨rfl, rfl,
   (only_other_options_are_requested "app_1" (JSVal.exampleApplication "draft")
      [Event.clickUpdate, Event.quickApprove, Event.clickUpdate] rfl).2⟩

end AdminReview
